import Mathlib

/-!
# ITK-SNAP slice renderer: layer assemblies, depth order and viewport layout

A shallow embedding of `GenericSliceRenderer` (GUI/Renderer/GenericSliceRenderer.cxx), of the
camera snapshots and the actor pool of the 3D renderer (GUI/Renderer/Generic3DRenderer.h), of
the mesh layer classes (Logic/Mesh/MeshWrapperBase.cxx) and of the polygon drawing
(GUI/Renderer/PolygonDrawingRenderer.cxx).

Conventions of the embedding
* A C++ object is named by its address, an `ObjId`; a smart pointer is an `Option ObjId`
  (`none` is the null pointer).  `New()` takes the next unused address from `m_NextObject`.
* The state of the VTK/ITK objects reachable from the renderer is kept in typed stores
  (`m_Actors`, `m_Renderers`, ...) inside the renderer state.
* `std::map<K,V>` is an association list in strictly ascending key order.
* A `double` or `float` that is read from the model or stored in an object is the rational
  number that is its value.  The arithmetic of the depth assignment and of the paint path is
  exact; the quotients and the sum of `UpdateRendererLayout` and `UpdateRendererCameras` are
  rounded as IEEE 754 prescribes, and what they store is a `FloatValue`.
* Dereferencing a null pointer makes a member function return `none`.
-/

namespace ITKSnap

/-! ## `std::map` -/

/-- Ordered map of the C++ standard library: association list, ascending in the key. -/
abbrev StdMap (κ : Type) (ν : Type) := List (κ × ν)

namespace StdMap

variable {κ ν : Type}

/-- The call `m.find(k)`: the mapped value, `none` standing for `m.end()`. -/
def find [DecidableEq κ] : StdMap κ ν → κ → Option ν
  | [], _ => none
  | (k', v) :: rest, k => if k' = k then some v else find rest k

/-- The assignment `m[k] = v`: overwrite the entry of `k`, or insert it at its place. -/
def assign [LinearOrder κ] : StdMap κ ν → κ → ν → StdMap κ ν
  | [], k, v => [(k, v)]
  | (k', v') :: rest, k, v =>
    if k < k' then (k, v) :: (k', v') :: rest
    else if k = k' then (k, v) :: rest
    else (k', v') :: assign rest k v

/-- The read access `m[k]`: the entry of `k`, default-constructed and inserted when absent. -/
def index [LinearOrder κ] (dflt : ν) (m : StdMap κ ν) (k : κ) : ν × StdMap κ ν :=
  match find m k with
  | some v => (v, m)
  | none => (dflt, assign m k dflt)

/-- Keys in iteration order. -/
def keys (m : StdMap κ ν) : List κ := m.map Prod.fst

/-- Mapped values in iteration order. -/
def values (m : StdMap κ ν) : List ν := m.map Prod.snd

/-- The call `m.count(k)` as a truth value. -/
def count [DecidableEq κ] (m : StdMap κ ν) (k : κ) : Bool := (find m k).isSome

/-- The call `m.erase(k)`, which is `m.erase(m.find(k))` for a key that is present: the
entry of `k` goes. -/
def erase [DecidableEq κ] : StdMap κ ν → κ → StdMap κ ν
  | [], _ => []
  | (k', v) :: rest, k => if k' = k then rest else (k', v) :: erase rest k

/-- A change made to the mapped object of a key that is present, through the reference
`m[k]`; the map keeps its entries. -/
def modify [DecidableEq κ] (m : StdMap κ ν) (k : κ) (f : ν → ν) : StdMap κ ν :=
  m.map (fun e => if e.1 = k then (e.1, f e.2) else e)

end StdMap

/-! ## Binary floating-point arithmetic

The arithmetic of IEEE 754 in the rounding mode to nearest, ties to even, in which the
compiled code computes with `float` and `double`; every operation is rounded to the type
of its operands (no excess precision). -/

/-- Floor of the binary logarithm of `n` by repeated halving (0 for `n ≤ 1`), `fuel`
bounding the number of halvings. -/
def log2Fuel : Nat → Nat → Nat
  | 0, _ => 0
  | fuel + 1, n => if 2 ≤ n then log2Fuel fuel (n / 2) + 1 else 0

/-- Floor of the binary logarithm of a positive natural number. -/
def natLog2 (n : Nat) : Nat := log2Fuel n n

/-- Floor of the binary logarithm of a positive rational number. -/
def ilog2 (x : ℚ) : Int :=
  let c : Int := (natLog2 x.num.natAbs : Int) - (natLog2 x.den : Int)
  if (2 : ℚ) ^ c ≤ x then c else c - 1

/-- Rounding to the nearest integer, a tie going to the even one. -/
def roundEven (r : ℚ) : Int :=
  if r - (⌊r⌋ : ℚ) < 1 / 2 then ⌊r⌋
  else if 1 / 2 < r - (⌊r⌋ : ℚ) then ⌊r⌋ + 1
  else if ⌊r⌋ % 2 = 0 then ⌊r⌋ else ⌊r⌋ + 1

/-- A binary floating-point format of IEEE 754: the number of significand bits and the
least and greatest exponent of a normal number. -/
structure FloatFormat where
  precision : Nat
  emin : Int
  emax : Int
  deriving DecidableEq

/-- The format of `float`. -/
def binary32 : FloatFormat := ⟨24, -126, 127⟩

/-- The format of `double`. -/
def binary64 : FloatFormat := ⟨53, -1022, 1023⟩

/-- The floating-point types of the code. -/
inductive FloatType where
  | float
  | double
  deriving DecidableEq

/-- The format of a floating-point type. -/
def FloatType.format : FloatType → FloatFormat
  | .float => binary32
  | .double => binary64

/-- A value of a floating-point type: a finite number, an infinity or a NaN.  The sign of a
zero is not kept: `finite 0` stands for both zeros. -/
inductive FloatValue where
  | finite (value : ℚ)
  | infinite (negative : Bool)
  | nan
  deriving DecidableEq

namespace FloatFormat

/-- The spacing of the numbers of the format around `x ≠ 0`, subnormal numbers included. -/
def ulp (fmt : FloatFormat) (x : ℚ) : ℚ :=
  (2 : ℚ) ^ (max (ilog2 |x|) fmt.emin - (fmt.precision : Int) + 1)

/-- Rounding of a rational number to the nearest number of the format with unbounded
exponent above, a tie going to the even significand. -/
def round (fmt : FloatFormat) (x : ℚ) : ℚ :=
  if x = 0 then 0 else (roundEven (x / fmt.ulp x) : ℚ) * fmt.ulp x

/-- The value of the format that stands for the exact result `x` of an operation: `x`
rounded, or an infinity when the rounded result exceeds the range. -/
def ofRat (fmt : FloatFormat) (x : ℚ) : FloatValue :=
  if (2 : ℚ) ^ (fmt.emax + 1) ≤ |fmt.round x| then .infinite (decide (fmt.round x < 0))
  else .finite (fmt.round x)

/-- Conversion of an integer to the format. -/
def ofInt (fmt : FloatFormat) (n : Int) : FloatValue := fmt.ofRat (n : ℚ)

/-- Conversion of a floating-point value of another format to the format. -/
def convert (fmt : FloatFormat) : FloatValue → FloatValue
  | .finite v => fmt.ofRat v
  | .infinite s => .infinite s
  | .nan => .nan

/-- The product of two values in the arithmetic of the format. -/
def mul (fmt : FloatFormat) : FloatValue → FloatValue → FloatValue
  | .finite a, .finite b => fmt.ofRat (a * b)
  | .nan, _ => .nan
  | _, .nan => .nan
  | .infinite s, .finite b => if b = 0 then .nan else .infinite (s != decide (b < 0))
  | .finite a, .infinite t => if a = 0 then .nan else .infinite (decide (a < 0) != t)
  | .infinite s, .infinite t => .infinite (s != t)

/-- The quotient of two values in the arithmetic of the format: a finite non-zero value
divided by zero is an infinity, zero divided by zero is a NaN. -/
def div (fmt : FloatFormat) : FloatValue → FloatValue → FloatValue
  | .finite a, .finite b =>
    if b = 0 then (if a = 0 then .nan else .infinite (decide (a < 0)))
    else fmt.ofRat (a / b)
  | .nan, _ => .nan
  | _, .nan => .nan
  | .infinite s, .finite b => .infinite (s != decide (b < 0))
  | .finite _, .infinite _ => .finite 0
  | .infinite _, .infinite _ => .nan

/-- The sum of two values in the arithmetic of the format. -/
def add (fmt : FloatFormat) : FloatValue → FloatValue → FloatValue
  | .finite a, .finite b => fmt.ofRat (a + b)
  | .nan, _ => .nan
  | _, .nan => .nan
  | .infinite s, .finite _ => .infinite s
  | .finite _, .infinite t => .infinite t
  | .infinite s, .infinite t => if s = t then .infinite s else .nan

end FloatFormat

/-! ## Data model -/

/-- Address of a heap object. -/
abbrev ObjId := Nat

/-- Modelled from the spec: the enumeration `LayerRole` (declared in SNAPCommon.h, not part of
the sources at hand).  The four roles the renderer tests for keep their names; every other
value of the enumeration is `OTHER_ROLE`. -/
inductive LayerRole where
  | MAIN_ROLE
  | OVERLAY_ROLE
  | SNAP_ROLE
  | LABEL_ROLE
  | OTHER_ROLE (code : Nat)
  deriving DecidableEq, Repr

open LayerRole

/-- One position of a `LayerIterator`: the role under which the layer is filed and what the
renderer reads from the layer (`ImageWrapperBase`). -/
structure Layer where
  /-- Result of `it.GetRole()`. -/
  GetRole : LayerRole
  /-- Result of `GetUniqueId()`. -/
  GetUniqueId : Nat
  /-- Result of `IsSticky()`. -/
  IsSticky : Bool
  /-- Result of `GetAlpha()`. -/
  GetAlpha : ℚ
  /-- Result of `GetDisplaySlice(view)`: address of the display slice image of a view. -/
  GetDisplaySlice : Nat → ObjId

/-- A `Vector3d` / VTK coordinate triple. -/
structure Vector3d where
  x : ℚ
  y : ℚ
  z : ℚ
  deriving DecidableEq

/-- Cached texture pipeline of one layer (`LayerTextureAssembly`). -/
structure LayerTextureAssembly where
  m_Exporter : Option ObjId := none
  m_Importer : Option ObjId := none
  m_Texture : Option ObjId := none
  m_ImageRectPolyData : Option ObjId := none
  m_ImageRectMapper : Option ObjId := none
  m_ImageRectActor : Option ObjId := none
  deriving DecidableEq, Repr

/-- Pair of renderers of a layer drawn on its own (`BaseLayerAssembly`). -/
structure BaseLayerAssembly where
  m_Renderer : Option ObjId := none
  m_ThumbRenderer : Option ObjId := none
  deriving DecidableEq, Repr

/-- State of an ITK-to-VTK exporter: the image set with `SetInput`. -/
structure VTKExporter where
  input : Option ObjId := none
  deriving DecidableEq

/-- State of a `vtkImageImport`: the exporter it was connected to. -/
structure vtkImageImport where
  exporter : Option ObjId := none
  deriving DecidableEq

/-- State of a `vtkTexture`: the importer whose output port is its input connection. -/
structure vtkTexture where
  inputConnection : Option ObjId := none
  deriving DecidableEq

/-- State of a `vtkPolyData`: points, polygons (as point indices) and texture coordinates. -/
structure vtkPolyData where
  points : List Vector3d := []
  polys : List (List Nat) := []
  tcoords : List (ℚ × ℚ) := []
  deriving DecidableEq

/-- State of a `vtkPolyDataMapper`: its input poly data. -/
structure vtkPolyDataMapper where
  inputData : Option ObjId := none
  deriving DecidableEq

/-- State of a `vtkActor`, a freshly made one being at the origin, white and opaque. -/
structure vtkActor where
  position : Vector3d := ⟨0, 0, 0⟩
  mapper : Option ObjId := none
  texture : Option ObjId := none
  color : Vector3d := ⟨1, 1, 1⟩
  opacity : ℚ := 1
  deriving DecidableEq

/-- State of a `vtkCamera` as far as the renderer sets it. -/
structure vtkCamera where
  focalPoint : Vector3d := ⟨0, 0, 0⟩
  position : Vector3d := ⟨0, 0, 1⟩
  viewUp : Vector3d := ⟨0, 1, 0⟩
  parallelScale : FloatValue := .finite 1
  parallelProjection : Bool := false
  deriving DecidableEq

/-- Normalized viewport `(xmin, ymin, xmax, ymax)` of a `vtkRenderer`. -/
structure Viewport where
  xmin : FloatValue
  ymin : FloatValue
  xmax : FloatValue
  ymax : FloatValue
  deriving DecidableEq

/-- State of a `vtkRenderer`.  `props` lists the arguments of the `AddActor` calls since the
last `RemoveAllViewProps`, in call order; `size` is what `GetSize()` reports. -/
structure vtkRenderer where
  viewport : Viewport := ⟨.finite 0, .finite 0, .finite 1, .finite 1⟩
  props : List ObjId := []
  background : Vector3d := ⟨0, 0, 0⟩
  camera : vtkCamera := {}
  size : Int × Int := (0, 0)
  deriving DecidableEq

/-- One cell of the viewport layout (`SliceViewportLayout::SubViewport`). -/
structure SubViewport where
  layer_id : Nat
  pos : Nat × Nat
  size : Nat × Nat
  isThumbnail : Bool
  deriving DecidableEq, Repr

/-- The depth constants `DEPTH_OVERLAY_START`, `DEPTH_STEP` and `DEPTH_SEGMENTATION_START`.
They are declared in GenericSliceRenderer.h, which is not part of the sources at hand, and
are therefore parameters of the depth assignment. -/
structure DepthConstants where
  DEPTH_OVERLAY_START : ℚ
  DEPTH_STEP : ℚ
  DEPTH_SEGMENTATION_START : ℚ

/-- What the renderer reads from its model (`GenericSliceModel`) and, through it, from the
application, after the `Update()` calls at the head of `OnUpdate`. -/
structure GenericSliceModel where
  /-- Result of `GetId()`, the index of the slice view. -/
  GetId : Nat
  /-- Layers enumerated by `GetDriver()->GetCurrentImageData()->GetLayers()`. -/
  GetCurrentImageData : List Layer
  /-- Layers enumerated by `GetImageData()->GetLayers()`. -/
  GetImageData : List Layer
  /-- Result of `GetSliceCorners()`. -/
  GetSliceCorners : (ℚ × ℚ) × (ℚ × ℚ)
  /-- The list `GetViewportLayout().vpList`. -/
  vpList : List SubViewport
  /-- Result of `GetSizeReporter()->GetViewportSize()`. -/
  GetViewportSize : Nat × Nat
  /-- Result of `GetSizeReporter()->GetViewportPixelRatio()`. -/
  GetViewportPixelRatio : ℚ
  /-- Return type of `GetViewportPixelRatio()`.  The function is declared in a header that
  is not part of the sources at hand, so its type is a parameter. -/
  PixelRatioType : FloatType := .float
  /-- Result of `GetViewPosition()`. -/
  GetViewPosition : ℚ × ℚ
  /-- Result of `GetViewZoom()`. -/
  GetViewZoom : ℚ
  /-- Return type of `GetViewZoom()`.  The function is declared in a header that is not part
  of the sources at hand, so its type is a parameter. -/
  ViewZoomType : FloatType := .double
  /-- Colour of the appearance element `BACKGROUND_2D`. -/
  BACKGROUND_2D : Vector3d
  /-- Result of `GetGlobalState()->GetSegmentationAlpha()`. -/
  GetSegmentationAlpha : ℚ

/-- The renderer together with the objects it reaches. -/
structure GenericSliceRenderer where
  m_LayerTextureAssemblies : StdMap Nat LayerTextureAssembly := []
  m_BaseLayerAssemblies : StdMap Nat BaseLayerAssembly := []
  /-- Renderers of the render window in the order added; `none` while no window is set. -/
  m_RenderWindow : Option (List ObjId) := none
  m_OverlayRenderer : ObjId := 0
  m_Exporters : ObjId → VTKExporter := fun _ => {}
  m_Importers : ObjId → vtkImageImport := fun _ => {}
  m_Textures : ObjId → vtkTexture := fun _ => {}
  m_PolyData : ObjId → vtkPolyData := fun _ => {}
  m_Mappers : ObjId → vtkPolyDataMapper := fun _ => {}
  m_Actors : ObjId → vtkActor := fun _ => {}
  m_Renderers : ObjId → vtkRenderer := fun _ => {}
  /-- First address not yet handed out by `New()`. -/
  m_NextObject : Nat := 1

/-! ## `UpdateLayerAssemblies` -/

/-- The `else` branch of the first loop of `UpdateLayerAssemblies`: build the texture
pipeline, the textured rectangle and the actor of a layer that has no assembly yet. -/
def newLayerTextureAssembly (model : GenericSliceModel) (layer : Layer)
    (s : GenericSliceRenderer) : LayerTextureAssembly × GenericSliceRenderer :=
  let ds := layer.GetDisplaySlice model.GetId
  let exporter := s.m_NextObject
  let importer := s.m_NextObject + 1
  let texture := s.m_NextObject + 2
  let polydata := s.m_NextObject + 3
  let mapper := s.m_NextObject + 4
  let actor := s.m_NextObject + 5
  let c0 := model.GetSliceCorners.1
  let c1 := model.GetSliceCorners.2
  let lta : LayerTextureAssembly :=
    { m_Exporter := some exporter, m_Importer := some importer, m_Texture := some texture,
      m_ImageRectPolyData := some polydata, m_ImageRectMapper := some mapper,
      m_ImageRectActor := some actor }
  (lta,
   { s with
     m_Exporters := Function.update s.m_Exporters exporter { input := some ds }
     m_Importers := Function.update s.m_Importers importer { exporter := some exporter }
     m_Textures := Function.update s.m_Textures texture { inputConnection := some importer }
     m_PolyData := Function.update s.m_PolyData polydata
       { points := [⟨c0.1, c0.2, 0⟩, ⟨c0.1, c1.2, 0⟩, ⟨c1.1, c1.2, 0⟩, ⟨c1.1, c0.2, 0⟩]
         polys := [[0, 1, 2, 3]]
         tcoords := [(0, 0), (0, 1), (1, 1), (1, 0)] }
     m_Mappers := Function.update s.m_Mappers mapper { inputData := some polydata }
     m_Actors := Function.update s.m_Actors actor
       { mapper := some mapper, texture := some texture, color := ⟨1, 1, 1⟩ }
     m_NextObject := s.m_NextObject + 6 })

/-- First loop of `UpdateLayerAssemblies`: for each layer copy the existing assembly or
create a new one, collecting them in `new_layer_texture_assemblies` (`acc`). -/
def textureAssemblyLoop (model : GenericSliceModel) :
    List Layer → StdMap Nat LayerTextureAssembly → GenericSliceRenderer →
      StdMap Nat LayerTextureAssembly × GenericSliceRenderer
  | [], acc, s => (acc, s)
  | layer :: rest, acc, s =>
    let layer_id := layer.GetUniqueId
    match StdMap.find s.m_LayerTextureAssemblies layer_id with
    | some existing => textureAssemblyLoop model rest (StdMap.assign acc layer_id existing) s
    | none =>
      let r := newLayerTextureAssembly model layer s
      textureAssemblyLoop model rest (StdMap.assign acc layer_id r.1) r.2

/-- The `else` branch of the second loop: a new pair of renderers, the camera of the
primary one switched to parallel projection. -/
def newBaseLayerAssembly (s : GenericSliceRenderer) : BaseLayerAssembly × GenericSliceRenderer :=
  let renderer := s.m_NextObject
  let thumb := s.m_NextObject + 1
  let r0 : vtkRenderer := {}
  ({ m_Renderer := some renderer, m_ThumbRenderer := some thumb },
   { s with
     m_Renderers := Function.update (Function.update s.m_Renderers renderer
         { r0 with camera := { r0.camera with parallelProjection := true } }) thumb r0
     m_NextObject := s.m_NextObject + 2 })

/-- The role test of the second loop: is the layer drawn on its own? -/
def isBaseRole (r : LayerRole) : Bool :=
  r = MAIN_ROLE || r = OVERLAY_ROLE || r = SNAP_ROLE

/-- Second loop of `UpdateLayerAssemblies` over the layers of a base role. -/
def baseAssemblyLoop :
    List Layer → StdMap Nat BaseLayerAssembly → GenericSliceRenderer →
      StdMap Nat BaseLayerAssembly × GenericSliceRenderer
  | [], acc, s => (acc, s)
  | layer :: rest, acc, s =>
    let layer_id := layer.GetUniqueId
    if isBaseRole layer.GetRole then
      match StdMap.find s.m_BaseLayerAssemblies layer_id with
      | some existing => baseAssemblyLoop rest (StdMap.assign acc layer_id existing) s
      | none =>
        let r := newBaseLayerAssembly s
        baseAssemblyLoop rest (StdMap.assign acc layer_id r.1) r.2
    else baseAssemblyLoop rest acc s

/-- The member function `GenericSliceRenderer::UpdateLayerAssemblies`. -/
def UpdateLayerAssemblies (model : GenericSliceModel) (s : GenericSliceRenderer) :
    GenericSliceRenderer :=
  let id := model.GetCurrentImageData
  let r1 := textureAssemblyLoop model id [] s
  let s1 := { r1.2 with m_LayerTextureAssemblies := r1.1 }
  let r2 := baseAssemblyLoop id [] s1
  { r2.2 with m_BaseLayerAssemblies := r2.1 }

/-! ## `UpdateLayerDepth` -/

/-- The member function `SetDepth(actor, z)`: replace the z component of the position. -/
def SetDepth (s : GenericSliceRenderer) (actor : ObjId) (z : ℚ) : GenericSliceRenderer :=
  let p := (s.m_Actors actor).position
  { s with
    m_Actors := Function.update s.m_Actors actor
      { s.m_Actors actor with position := ⟨p.x, p.y, z⟩ } }

/-- The branch on role and stickiness in the body of `UpdateLayerDepth`: the depth given to
the layer and the value of `depth_ovl` afterwards. -/
def depthOf (c : DepthConstants) (layer : Layer) (depth_ovl : ℚ) : ℚ × ℚ :=
  if layer.GetRole = LABEL_ROLE then (c.DEPTH_SEGMENTATION_START, depth_ovl)
  else if layer.IsSticky then (depth_ovl, depth_ovl + c.DEPTH_STEP)
  else (0, depth_ovl)

/-- The loop of `UpdateLayerDepth`, `depth_ovl` being the running overlay depth. -/
def layerDepthLoop (c : DepthConstants) :
    List Layer → ℚ → GenericSliceRenderer → Option GenericSliceRenderer
  | [], _, s => some s
  | layer :: rest, depth_ovl, s =>
    let la := StdMap.index {} s.m_LayerTextureAssemblies layer.GetUniqueId
    let s1 := { s with m_LayerTextureAssemblies := la.2 }
    let d := depthOf c layer depth_ovl
    match la.1.m_ImageRectActor with
    | none => none
    | some actor => layerDepthLoop c rest d.2 (SetDepth s1 actor d.1)

/-- The member function `GenericSliceRenderer::UpdateLayerDepth`. -/
def UpdateLayerDepth (c : DepthConstants) (model : GenericSliceModel)
    (s : GenericSliceRenderer) : Option GenericSliceRenderer :=
  layerDepthLoop c model.GetImageData c.DEPTH_OVERLAY_START s

/-! ## `UpdateRendererLayout` -/

/-- The loop filling `depth_map`: every assembly whose actor lies at a positive z is filed
under that z. -/
def depthMapLoop (actors : ObjId → vtkActor) :
    List (Nat × LayerTextureAssembly) → StdMap ℚ ObjId → Option (StdMap ℚ ObjId)
  | [], depth_map => some depth_map
  | it :: rest, depth_map =>
    match it.2.m_ImageRectActor with
    | none => none
    | some actor =>
      let z := (actors actor).position.z
      if z > 0 then depthMapLoop actors rest (StdMap.assign depth_map z actor)
      else depthMapLoop actors rest depth_map

/-- Body of the loop over `d` that fills `rel_pos`: the entries `rel_pos[0][d]` and
`rel_pos[1][d]` for the position `pos`, the size `size` and the window size `szWin` along
the axis `d`.  The three are `unsigned int`; each is converted to `double`, and the
products with `1.0`, the quotients and the sum are those of `double`. -/
def relPosAxis (pos size szWin : Nat) : FloatValue × FloatValue :=
  let lower := binary64.div (binary64.mul (binary64.ofInt (pos : Int)) (.finite 1))
    (binary64.ofInt (szWin : Int))
  let upper := binary64.add lower
    (binary64.div (binary64.mul (binary64.ofInt (size : Int)) (.finite 1))
      (binary64.ofInt (szWin : Int)))
  (lower, upper)

/-- The array `rel_pos` of a viewport as it is passed to `SetViewport`:
`(rel_pos[0][0], rel_pos[0][1], rel_pos[1][0], rel_pos[1][1])`. -/
def relPos (vp : SubViewport) (szWin : Nat × Nat) : Viewport :=
  let x := relPosAxis vp.pos.1 vp.size.1 szWin.1
  let y := relPosAxis vp.pos.2 vp.size.2 szWin.2
  { xmin := x.1, ymin := y.1, xmax := x.2, ymax := y.2 }

/-- The call `renderer->AddActor(p)` with a smart pointer, a null pointer adding nothing. -/
def AddActor (props : List ObjId) (p : Option ObjId) : List ObjId :=
  match p with
  | none => props
  | some a => props ++ [a]

/-- Body of the viewport loop of `UpdateRendererLayout` for the viewport `vp`. -/
def layoutViewport (depth_map : StdMap ℚ ObjId) (szWin : Nat × Nat)
    (s : GenericSliceRenderer) (vp : SubViewport) : Option GenericSliceRenderer :=
  let la := StdMap.index {} s.m_BaseLayerAssemblies vp.layer_id
  match (if vp.isThumbnail then la.1.m_ThumbRenderer else la.1.m_Renderer) with
  | none => none
  | some renderer =>
    let rel_pos := relPos vp szWin
    let lta := StdMap.index {} s.m_LayerTextureAssemblies vp.layer_id
    let props := (AddActor [] lta.1.m_ImageRectActor) ++ StdMap.values depth_map
    some { s with
      m_BaseLayerAssemblies := la.2
      m_LayerTextureAssemblies := lta.2
      m_Renderers := Function.update s.m_Renderers renderer
        { s.m_Renderers renderer with viewport := rel_pos, props := props }
      m_RenderWindow := s.m_RenderWindow.map (fun rs => rs ++ [renderer]) }

/-- The viewport loop of `UpdateRendererLayout`. -/
def viewportLoop (depth_map : StdMap ℚ ObjId) (szWin : Nat × Nat) :
    List SubViewport → GenericSliceRenderer → Option GenericSliceRenderer
  | [], s => some s
  | vp :: rest, s =>
    match layoutViewport depth_map szWin s vp with
    | none => none
    | some s1 => viewportLoop depth_map szWin rest s1

/-- The member function `GenericSliceRenderer::UpdateRendererLayout`. -/
def UpdateRendererLayout (c : DepthConstants) (model : GenericSliceModel)
    (s : GenericSliceRenderer) : Option GenericSliceRenderer :=
  match s.m_RenderWindow with
  | none => some s
  | some _ =>
    match UpdateLayerDepth c model s with
    | none => none
    | some s1 =>
      match depthMapLoop s1.m_Actors s1.m_LayerTextureAssemblies [] with
      | none => none
      | some depth_map =>
        let s2 := { s1 with m_RenderWindow := some [] }
        match viewportLoop depth_map model.GetViewportSize model.vpList s2 with
        | none => none
        | some s3 =>
          some { s3 with
            m_RenderWindow := s3.m_RenderWindow.map (fun rs => rs ++ [s3.m_OverlayRenderer]) }

/-! ## Cameras, appearance, background -/

/-- Conversion of a `double` to `int`: the fractional part is dropped. -/
def toInt (q : ℚ) : Int := if 0 ≤ q then ⌊q⌋ else ⌈q⌉

/-- Conversion of a floating-point value to `int`, an integer of 32 bits: the fractional
part is dropped.  The behaviour is undefined (`none`) when the value is not finite or the
integer is not in the range of `int`. -/
def FloatValue.toInt32 : FloatValue → Option Int
  | .finite v =>
    if -(2 : Int) ^ 31 ≤ toInt v ∧ toInt v < (2 : Int) ^ 31 then some (toInt v) else none
  | .infinite _ => none
  | .nan => none

/-- The initializer of `sz_logical` in `UpdateRendererCameras`: the height `h` of the
renderer, an `int`, is converted to the type of the pixel ratio and divided by the ratio in
that type, and the quotient is converted to `int`. -/
@[irreducible]
def sz_logical (model : GenericSliceModel) (h : Int) : Option Int :=
  FloatValue.toInt32 (model.PixelRatioType.format.div (model.PixelRatioType.format.ofInt h)
    (.finite model.GetViewportPixelRatio))

/-- The initializer of `pscale` in `UpdateRendererCameras`: `sz_logical`, here `n`, is
converted to the type of the zoom and divided by the zoom in that type, and the quotient is
converted to `double`. -/
def pscale (model : GenericSliceModel) (n : Int) : FloatValue :=
  binary64.convert (model.ViewZoomType.format.div (model.ViewZoomType.format.ofInt n)
    (.finite model.GetViewZoom))

/-- The loop of `UpdateRendererCameras` over the base layer assemblies. -/
def cameraLoop (model : GenericSliceModel) :
    List (Nat × BaseLayerAssembly) → GenericSliceRenderer → Option GenericSliceRenderer
  | [], s => some s
  | it :: rest, s =>
    match it.2.m_Renderer with
    | none => none
    | some ren =>
      let vp := model.GetViewPosition
      let r := s.m_Renderers ren
      match sz_logical model r.size.2 with
      | none => none
      | some n =>
        cameraLoop model rest { s with
          m_Renderers := Function.update s.m_Renderers ren
            { r with camera := { r.camera with
                focalPoint := ⟨vp.1, vp.2, 0⟩, position := ⟨vp.1, vp.2, 1⟩,
                viewUp := ⟨0, 1, 0⟩, parallelScale := pscale model n } } }

/-- The member function `GenericSliceRenderer::UpdateRendererCameras`. -/
def UpdateRendererCameras (model : GenericSliceModel) (s : GenericSliceRenderer) :
    Option GenericSliceRenderer :=
  cameraLoop model s.m_BaseLayerAssemblies s

/-- The choice of `alpha` in the body of `UpdateLayerApperances`. -/
def alphaOf (model : GenericSliceModel) (layer : Layer) : ℚ :=
  if layer.GetRole = LABEL_ROLE then model.GetSegmentationAlpha
  else if layer.IsSticky then layer.GetAlpha
  else 1

/-- The loop of `UpdateLayerApperances` over the layers. -/
def appearanceLoop (model : GenericSliceModel) :
    List Layer → GenericSliceRenderer → Option GenericSliceRenderer
  | [], s => some s
  | layer :: rest, s =>
    let alpha := alphaOf model layer
    let lta := StdMap.index {} s.m_LayerTextureAssemblies layer.GetUniqueId
    match lta.1.m_ImageRectActor with
    | none => none
    | some actor =>
      appearanceLoop model rest { s with
        m_LayerTextureAssemblies := lta.2
        m_Actors := Function.update s.m_Actors actor
          { s.m_Actors actor with opacity := alpha } }

/-- The member function `GenericSliceRenderer::UpdateLayerApperances`. -/
def UpdateLayerApperances (model : GenericSliceModel) (s : GenericSliceRenderer) :
    Option GenericSliceRenderer :=
  appearanceLoop model model.GetImageData s

/-- The loop of `AssignAppearanceSettingsToScene` over the base layer assemblies. -/
def backgroundLoop (clrBack : Vector3d) :
    List (Nat × BaseLayerAssembly) → GenericSliceRenderer → Option GenericSliceRenderer
  | [], s => some s
  | bla :: rest, s =>
    match bla.2.m_Renderer, bla.2.m_ThumbRenderer with
    | some ren, some thumb =>
      let rs1 := Function.update s.m_Renderers ren
        { s.m_Renderers ren with background := clrBack }
      let rs2 := Function.update rs1 thumb { rs1 thumb with background := clrBack }
      backgroundLoop clrBack rest { s with m_Renderers := rs2 }
    | _, _ => none

/-- The member function `GenericSliceRenderer::AssignAppearanceSettingsToScene`. -/
def AssignAppearanceSettingsToScene (model : GenericSliceModel) (s : GenericSliceRenderer) :
    Option GenericSliceRenderer :=
  backgroundLoop model.BACKGROUND_2D s.m_BaseLayerAssemblies s

/-! ## `OnUpdate` -/

/-- Answers of the event bucket to the `HasEvent` queries of `OnUpdate`. -/
structure EventBucket where
  appearance_settings_changed : Bool
  segmentation_opacity_changed : Bool
  layers_changed : Bool
  layer_layout_changed : Bool
  layer_metadata_changed : Bool
  layer_mapping_changed : Bool
  zoom_pan_changed : Bool
  deriving DecidableEq, Repr

/-- The recomputation stages `OnUpdate` may call. -/
inductive Stage where
  | UpdateLayerAssemblies
  | UpdateRendererLayout
  | UpdateLayerApperances
  | AssignAppearanceSettingsToScene
  | UpdateRendererCameras
  deriving DecidableEq, Repr

/-- Run one stage on the renderer. -/
def runStage (c : DepthConstants) (model : GenericSliceModel) :
    Stage → GenericSliceRenderer → Option GenericSliceRenderer
  | .UpdateLayerAssemblies, s => some (UpdateLayerAssemblies model s)
  | .UpdateRendererLayout, s => UpdateRendererLayout c model s
  | .UpdateLayerApperances, s => UpdateLayerApperances model s
  | .AssignAppearanceSettingsToScene, s => AssignAppearanceSettingsToScene model s
  | .UpdateRendererCameras, s => UpdateRendererCameras model s

/-- A call `this->stage()` inside `OnUpdate`: the call is recorded and the stage is run,
unless an earlier stage already failed. -/
def callStage (c : DepthConstants) (model : GenericSliceModel) (st : Stage)
    (t : List Stage × Option GenericSliceRenderer) : List Stage × Option GenericSliceRenderer :=
  match t.2 with
  | none => t
  | some s => (t.1 ++ [st], runStage c model st s)

/-- The member function `GenericSliceRenderer::OnUpdate`: the stages called, in order, and
the renderer afterwards. -/
def OnUpdate (c : DepthConstants) (model : GenericSliceModel) (bucket : EventBucket)
    (s : GenericSliceRenderer) : List Stage × Option GenericSliceRenderer :=
  let t0 : List Stage × Option GenericSliceRenderer := ([], some s)
  let t1 := if bucket.layers_changed then callStage c model .UpdateLayerAssemblies t0 else t0
  let t2 := if bucket.layers_changed || bucket.layer_layout_changed
    then callStage c model .UpdateRendererLayout t1 else t1
  let t3 := if bucket.layers_changed || bucket.layer_mapping_changed
      || bucket.segmentation_opacity_changed
    then callStage c model .UpdateLayerApperances t2 else t2
  let t4 := if bucket.appearance_settings_changed
    then callStage c model .AssignAppearanceSettingsToScene t3 else t3
  if bucket.layers_changed || bucket.layer_layout_changed || bucket.zoom_pan_changed
    then callStage c model .UpdateRendererCameras t4 else t4

/-! ## Derived notions used to state the properties -/

/-- Actor of the texture assembly filed under a layer id, if there is one. -/
def actorOf (s : GenericSliceRenderer) (layer_id : Nat) : Option ObjId :=
  (StdMap.find s.m_LayerTextureAssemblies layer_id).bind (fun la => la.m_ImageRectActor)

/-- Depth at which the actor `a` currently lies: the z component of its position. -/
def depthOfActor (s : GenericSliceRenderer) (a : ObjId) : ℚ := (s.m_Actors a).position.z

/-! ## The scenario of the specification: layers A (main), B (sticky overlay), S (label) -/

/-- Layer A: the main image. -/
def layerA : Layer :=
  { GetRole := MAIN_ROLE, GetUniqueId := 1, IsSticky := false, GetAlpha := 1,
    GetDisplaySlice := fun _ => 101 }

/-- Layer B: a sticky overlay with alpha one half. -/
def layerB : Layer :=
  { GetRole := OVERLAY_ROLE, GetUniqueId := 2, IsSticky := true, GetAlpha := 1 / 2,
    GetDisplaySlice := fun _ => 102 }

/-- Layer S: the segmentation. -/
def layerS : Layer :=
  { GetRole := LABEL_ROLE, GetUniqueId := 3, IsSticky := false, GetAlpha := 1,
    GetDisplaySlice := fun _ => 103 }

/-- A model showing the given layers in a single viewport of a 100 x 100 window. -/
def scenarioModel (layers : List Layer) : GenericSliceModel :=
  { GetId := 0, GetCurrentImageData := layers, GetImageData := layers,
    GetSliceCorners := ((0, 0), (10, 10)),
    vpList := [{ layer_id := 1, pos := (0, 0), size := (100, 100), isThumbnail := false }],
    GetViewportSize := (100, 100), GetViewportPixelRatio := 1,
    GetViewPosition := (5, 5), GetViewZoom := 2,
    BACKGROUND_2D := ⟨0, 0, 0⟩, GetSegmentationAlpha := 1 / 2 }

/-- A renderer with a render window and no assemblies yet. -/
def scenarioStart : GenericSliceRenderer :=
  { m_RenderWindow := some [], m_NextObject := 1000 }

/-- The renderer after the assemblies of A, B and S have been made. -/
def scenarioABS : GenericSliceRenderer :=
  UpdateLayerAssemblies (scenarioModel [layerA, layerB, layerS]) scenarioStart

/-- The objects at addresses below `n` have the same state in `s` and in `t`. -/
def StoresAgreeBelow (n : Nat) (s t : GenericSliceRenderer) : Prop :=
  ∀ o, o < n →
    t.m_Exporters o = s.m_Exporters o ∧ t.m_Importers o = s.m_Importers o
      ∧ t.m_Textures o = s.m_Textures o ∧ t.m_PolyData o = s.m_PolyData o
      ∧ t.m_Mappers o = s.m_Mappers o ∧ t.m_Actors o = s.m_Actors o
      ∧ t.m_Renderers o = s.m_Renderers o

/-- The base layer assembly `e` was made by `New()` calls at or after address `n0`: its two
renderers are distinct objects at addresses from `n0` on, still in the state in which
`UpdateLayerAssemblies` leaves new renderers. -/
def FreshBaseLayerAssembly (n0 : Nat) (s : GenericSliceRenderer) (e : BaseLayerAssembly) :
    Prop :=
  ∃ n, n0 ≤ n ∧ n + 2 ≤ s.m_NextObject
    ∧ e = { m_Renderer := some n, m_ThumbRenderer := some (n + 1) }
    ∧ s.m_Renderers n = { camera := { parallelProjection := true } }
    ∧ s.m_Renderers (n + 1) = {}

/-- The role test of the second loop of `UpdateLayerAssemblies`, spelled out. -/
def EligibleRole (r : LayerRole) : Prop :=
  r = MAIN_ROLE ∨ r = OVERLAY_ROLE ∨ r = SNAP_ROLE

instance (r : LayerRole) : Decidable (EligibleRole r) := by
  unfold EligibleRole; infer_instance

/-- Layer A after its display slice has been replaced by another image object. -/
def layerAReplaced : Layer := { layerA with GetDisplaySlice := fun _ => 201 }

/-- Every layer of the list has a texture assembly with an actor. -/
def HasActors (s : GenericSliceRenderer) (layers : List Layer) : Prop :=
  ∀ l ∈ layers, (actorOf s l.GetUniqueId).isSome = true

instance (s : GenericSliceRenderer) (layers : List Layer) : Decidable (HasActors s layers) := by
  unfold HasActors; infer_instance

/-- The layers of the list have pairwise different ids and pairwise different actors. -/
def ActorsDistinct (s : GenericSliceRenderer) (layers : List Layer) : Prop :=
  (layers.map (fun l => actorOf s l.GetUniqueId)).Nodup

instance (s : GenericSliceRenderer) (layers : List Layer) :
    Decidable (ActorsDistinct s layers) := by
  unfold ActorsDistinct; infer_instance

/-- A sticky overlay in the sense of the depth assignment: sticky and not a label layer. -/
def isStickyOverlay (l : Layer) : Bool := l.IsSticky && decide (l.GetRole ≠ LABEL_ROLE)

/-- Number of sticky overlays in a list of layers. -/
def stickyCount (layers : List Layer) : Nat := (layers.filter isStickyOverlay).length

/-- Reference definition of the depth of a layer, in the words of the specification: a
label layer lies at `DEPTH_SEGMENTATION_START`; otherwise a sticky layer lies at
`DEPTH_OVERLAY_START + k * DEPTH_STEP`, `k` being the number of sticky non-label layers
that precede it; any other layer lies at depth 0. -/
def referenceDepth (c : DepthConstants) (preceding : List Layer) (layer : Layer) : ℚ :=
  if layer.GetRole = LABEL_ROLE then c.DEPTH_SEGMENTATION_START
  else if layer.IsSticky then
    c.DEPTH_OVERLAY_START + (stickyCount preceding : ℚ) * c.DEPTH_STEP
  else 0

/-- Example depth constants: overlays start at 1/100 in steps of 1/10000, the segmentation
lies at 1/50. -/
def scenarioDepths : DepthConstants :=
  { DEPTH_OVERLAY_START := 1 / 100, DEPTH_STEP := 1 / 10000,
    DEPTH_SEGMENTATION_START := 1 / 50 }

/-- Renderer that the viewport loop of `UpdateRendererLayout` picks for a viewport: the
thumbnail or the primary renderer of the base layer assembly of its layer. -/
def rendererOf (s : GenericSliceRenderer) (vp : SubViewport) : Option ObjId :=
  (StdMap.find s.m_BaseLayerAssemblies vp.layer_id).bind
    (fun la => if vp.isThumbnail then la.m_ThumbRenderer else la.m_Renderer)

/-- Every texture assembly of the map holds an actor. -/
def AllAssembliesHaveActors (s : GenericSliceRenderer) : Prop :=
  ∀ it ∈ s.m_LayerTextureAssemblies, it.2.m_ImageRectActor.isSome = true

instance (s : GenericSliceRenderer) : Decidable (AllAssembliesHaveActors s) := by
  unfold AllAssembliesHaveActors; infer_instance

/-- Every viewport of the list names a layer whose base layer assembly holds the renderer
the viewport needs. -/
def ViewportsHaveRenderers (s : GenericSliceRenderer) (vps : List SubViewport) : Prop :=
  ∀ vp ∈ vps, (rendererOf s vp).isSome = true

instance (s : GenericSliceRenderer) (vps : List SubViewport) :
    Decidable (ViewportsHaveRenderers s vps) := by
  unfold ViewportsHaveRenderers; infer_instance

/-- The pairs (depth, actor) of the texture assemblies whose actor lies at a positive
depth, in the iteration order of the assembly map. -/
def positiveDepthActors (actors : ObjId → vtkActor)
    (m : StdMap Nat LayerTextureAssembly) : List (ℚ × ObjId) :=
  m.filterMap (fun it =>
    match it.2.m_ImageRectActor with
    | some a => if 0 < (actors a).position.z then some ((actors a).position.z, a) else none
    | none => none)

/-- A second segmentation layer. -/
def layerS2 : Layer :=
  { GetRole := LABEL_ROLE, GetUniqueId := 8, IsSticky := false, GetAlpha := 1,
    GetDisplaySlice := fun _ => 108 }

/-- The renderer after the assemblies of A, S and a second segmentation have been made. -/
def twoLabelState : GenericSliceRenderer :=
  UpdateLayerAssemblies (scenarioModel [layerA, layerS, layerS2]) scenarioStart

/-- The event bucket in which every notification is present. -/
def fullBucket : EventBucket :=
  { appearance_settings_changed := true, segmentation_opacity_changed := true,
    layers_changed := true, layer_layout_changed := true, layer_metadata_changed := true,
    layer_mapping_changed := true, zoom_pan_changed := true }

/-- The renderer `r` with the camera that the body of the loop of `UpdateRendererCameras`
gives it when `sz_logical` is `n`: focal point and position over the view position, view-up
along y, and the parallel scale computed from `n`. -/
def withSliceCamera (model : GenericSliceModel) (r : vtkRenderer) (n : Int) : vtkRenderer :=
  { r with camera := { r.camera with
      focalPoint := ⟨model.GetViewPosition.1, model.GetViewPosition.2, 0⟩
      position := ⟨model.GetViewPosition.1, model.GetViewPosition.2, 1⟩
      viewUp := ⟨0, 1, 0⟩
      parallelScale := pscale model n } }

/-- Every base layer assembly of the map holds its primary renderer, and the conversion
that gives `sz_logical` is defined for the height of that renderer. -/
def LogicalHeightsDefined (model : GenericSliceModel) (s : GenericSliceRenderer) : Prop :=
  ∀ it ∈ s.m_BaseLayerAssemblies,
    (it.2.m_Renderer.bind
      (fun ren => sz_logical model (s.m_Renderers ren).size.2)).isSome = true

instance (model : GenericSliceModel) (s : GenericSliceRenderer) :
    Decidable (LogicalHeightsDefined model s) := by
  unfold LogicalHeightsDefined; infer_instance

/-- Every base layer assembly of the map holds its primary renderer. -/
def AllBaseAssembliesHaveRenderers (s : GenericSliceRenderer) : Prop :=
  ∀ it ∈ s.m_BaseLayerAssemblies, it.2.m_Renderer.isSome = true

instance (s : GenericSliceRenderer) : Decidable (AllBaseAssembliesHaveRenderers s) := by
  unfold AllBaseAssembliesHaveRenderers; infer_instance

/-- The scenario model on a display with two device pixels per logical pixel at zoom 1. -/
def retinaModel : GenericSliceModel :=
  { scenarioModel [layerA, layerB, layerS] with GetViewportPixelRatio := 2, GetViewZoom := 1 }

/-- The scenario renderer with the primary renderer of A at 202 x 101 device pixels. -/
def oddHeightState : GenericSliceRenderer :=
  { scenarioABS with
    m_Renderers := Function.update scenarioABS.m_Renderers 1018 { size := (202, 101) } }

/-- The scenario renderer with the primary renderer of A at 400 x 300 device pixels. -/
def evenHeightState : GenericSliceRenderer :=
  { scenarioABS with
    m_Renderers := Function.update scenarioABS.m_Renderers 1018 { size := (400, 300) } }

/-- The scenario model with a window of 200 x 100 pixels whose single viewport is the
rectangle of 100 x 50 pixels in the middle. -/
def quadrantModel : GenericSliceModel :=
  { scenarioModel [layerA, layerB, layerS] with
    vpList := [{ layer_id := 1, pos := (50, 25), size := (100, 50), isThumbnail := false }]
    GetViewportSize := (200, 100) }

/-- The scenario model with a window of 10 x 10 pixels whose single viewport is the
rectangle of 2 x 7 pixels at (1, 1). -/
def tenthsModel : GenericSliceModel :=
  { scenarioModel [layerA, layerB, layerS] with
    vpList := [{ layer_id := 1, pos := (1, 1), size := (2, 7), isThumbnail := false }]
    GetViewportSize := (10, 10) }

/-- The scenario model with a second viewport that names the layer id 99, which no layer
has. -/
def strayViewportModel : GenericSliceModel :=
  { scenarioModel [layerA, layerB, layerS] with
    vpList := [{ layer_id := 1, pos := (0, 0), size := (50, 100), isThumbnail := false },
               { layer_id := 99, pos := (50, 0), size := (50, 100), isThumbnail := false }] }

/-! ## The 3D renderer: camera snapshots and the actor pool (Generic3DRenderer.h) -/

/-- The struct `CameraState`. -/
structure CameraState where
  position : Vector3d
  focal_point : Vector3d
  view_up : Vector3d
  clipping_range : ℚ × ℚ
  view_angle : ℚ
  parallel_scale : ℚ
  parallel_projection : Int
  deriving DecidableEq

/-- Modelled from the spec: `operator ==` on `CameraState`, declared in Generic3DRenderer.h
and defined in a file that is not at hand.  Equality of snapshots is structural. -/
def CameraState.equals (c1 c2 : CameraState) : Bool := decide (c1 = c2)

/-- The camera part of a `Generic3DRenderer`: the fields of the live camera of its renderer
and the member `m_SavedCameraState`, a camera object of its own or null. -/
structure Generic3DRenderer where
  camera : CameraState
  m_SavedCameraState : Option CameraState := none

namespace Generic3DRenderer

/-- Modelled from the spec: `SaveCameraState` (body in Generic3DRenderer.cxx, not at hand)
copies all camera fields into a snapshot independent of the live camera. -/
def SaveCameraState (r : Generic3DRenderer) : Generic3DRenderer :=
  { r with m_SavedCameraState := some r.camera }

/-- Modelled from the spec: `RestoreSavedCameraState` (body not at hand) applies the fields
of the snapshot back to the live camera; without a snapshot nothing changes. -/
def RestoreSavedCameraState (r : Generic3DRenderer) : Generic3DRenderer :=
  match r.m_SavedCameraState with
  | some saved => { r with camera := saved }
  | none => r

/-- Modelled from the spec: `DeleteSavedCameraState` (body not at hand) discards the
snapshot. -/
def DeleteSavedCameraState (r : Generic3DRenderer) : Generic3DRenderer :=
  { r with m_SavedCameraState := none }

/-- Modelled from the spec: `IsSavedCameraStateAvailable` (body not at hand) reports whether
a snapshot exists. -/
def IsSavedCameraStateAvailable (r : Generic3DRenderer) : Bool :=
  r.m_SavedCameraState.isSome

/-- Modelled from the spec: `GetCameraState` (body not at hand) returns the field set of the
live camera. -/
def GetCameraState (r : Generic3DRenderer) : CameraState := r.camera

/-- Modelled from the spec: `SetCameraState` (body not at hand) sets the same field set on
the live camera. -/
def SetCameraState (r : Generic3DRenderer) (state : CameraState) : Generic3DRenderer :=
  { r with camera := state }

end Generic3DRenderer

/-- An example camera state. -/
def exampleCamera : CameraState :=
  { position := ⟨0, 0, 10⟩, focal_point := ⟨0, 0, 0⟩, view_up := ⟨0, 1, 0⟩,
    clipping_range := (1, 100), view_angle := 30, parallel_scale := 1,
    parallel_projection := 0 }

/-- The class `ActorPool`: the map of active actors, the stack of spare actors (top first),
the storage of all actors made (last first), and the next unused address. -/
structure ActorPool where
  m_ActorMap : StdMap Nat ObjId := []
  m_SpareActors : List ObjId := []
  m_ActorStorage : List ObjId := []
  m_Actors : ObjId → vtkActor := fun _ => {}
  m_NextObject : Nat := 1

namespace ActorPool

/-- The constructor `ActorPool() {}`: every container is empty. -/
def new : ActorPool := {}

/-- Modelled from the spec: `CreateNewActors(n)` (body in Generic3DRenderer.cxx, not at
hand) makes `n` new actors, keeps them in the storage and puts them on the spare stack. -/
def CreateNewActors : Nat → ActorPool → ActorPool
  | 0, p => p
  | n + 1, p =>
    CreateNewActors n { p with
      m_SpareActors := p.m_NextObject :: p.m_SpareActors
      m_ActorStorage := p.m_NextObject :: p.m_ActorStorage
      m_Actors := Function.update p.m_Actors p.m_NextObject {}
      m_NextObject := p.m_NextObject + 1 }

/-- Modelled from the spec: `GetNewActor` (body not at hand) returns a previously recycled
actor if the spare stack is not empty, otherwise makes a batch of `batch` actors and returns
one of them.  The result is `none` when there is no actor to return (`batch = 0`). -/
def GetNewActor (batch : Nat) (p : ActorPool) : Option (ObjId × ActorPool) :=
  let p1 := if p.m_SpareActors.isEmpty then CreateNewActors batch p else p
  match p1.m_SpareActors with
  | [] => none
  | actor :: rest => some (actor, { p1 with m_SpareActors := rest })

/-- Modelled from the spec: `Recycle(actor)` (body not at hand) resets the visual state of
the actor to the default and pushes it on the spare stack. -/
def Recycle (actor : ObjId) (p : ActorPool) : ActorPool :=
  { p with
    m_Actors := Function.update p.m_Actors actor {}
    m_SpareActors := actor :: p.m_SpareActors }

end ActorPool

/-- A call on the pool or, through the reference that `GetActorMap()` returns, on its map
of active actors. -/
inductive PoolCall where
  /-- The call `GetNewActor()`. -/
  | GetNewActor
  /-- The call `Recycle(actor)`. -/
  | Recycle (actor : ObjId)
  /-- The assignment `GetActorMap()[label] = actor`. -/
  | Assign (label : Nat) (actor : ObjId)
  /-- The call `GetActorMap().erase(label)`. -/
  | Erase (label : Nat)
  deriving DecidableEq

/-- One call on the pool `p`: the actor returned, if the call is `GetNewActor`, and the
pool after the call. -/
def runPoolCall (batch : Nat) (p : ActorPool) : PoolCall → Option (Option ObjId × ActorPool)
  | .GetNewActor => (ActorPool.GetNewActor batch p).map (fun r => (some r.1, r.2))
  | .Recycle actor => some (none, ActorPool.Recycle actor p)
  | .Assign label actor =>
    some (none, { p with m_ActorMap := StdMap.assign p.m_ActorMap label actor })
  | .Erase label => some (none, { p with m_ActorMap := StdMap.erase p.m_ActorMap label })

/-- Run a sequence of calls: for each call in turn, the actor it returns and the pool after
it. -/
def runPoolCalls (batch : Nat) :
    List PoolCall → ActorPool → Option (List (Option ObjId × ActorPool))
  | [], _ => some []
  | call :: rest, p =>
    match runPoolCall batch p call with
    | none => none
    | some (r, p1) =>
      match runPoolCalls batch rest p1 with
      | none => none
      | some trace => some ((r, p1) :: trace)

/-- What the caller owes the pool `p` at a call: an actor is recycled only while it is not
a value of the active map, and an actor is filed in the active map only if it is in the
storage of the pool and not on the spare stack. -/
def PoolCall.Admissible (p : ActorPool) : PoolCall → Prop
  | .GetNewActor => True
  | .Recycle actor => actor ∉ StdMap.values p.m_ActorMap
  | .Assign _ actor => actor ∈ p.m_ActorStorage ∧ actor ∉ p.m_SpareActors
  | .Erase _ => True

instance (p : ActorPool) (call : PoolCall) : Decidable (call.Admissible p) := by
  cases call <;> unfold PoolCall.Admissible <;> infer_instance

/-- Every call of the sequence is admissible at the pool on which it is made. -/
def CallsAdmissible (batch : Nat) : List PoolCall → ActorPool → Prop
  | [], _ => True
  | call :: rest, p =>
    call.Admissible p
      ∧ match runPoolCall batch p call with
        | none => True
        | some e => CallsAdmissible batch rest e.2

instance CallsAdmissible.decidable (batch : Nat) :
    ∀ (calls : List PoolCall) (p : ActorPool), Decidable (CallsAdmissible batch calls p)
  | [], _ => isTrue trivial
  | call :: rest, p =>
    match h : runPoolCall batch p call with
    | none => decidable_of_iff (call.Admissible p) (by simp [CallsAdmissible, h])
    | some e =>
      have := CallsAdmissible.decidable batch rest e.2
      decidable_of_iff (call.Admissible p ∧ CallsAdmissible batch rest e.2)
        (by simp [CallsAdmissible, h])

/-- Invariant of the pool: no spare actor is a value of the active map, and the actors of
the storage and the values of the active map were made earlier (their addresses lie below
`m_NextObject`). -/
def PoolInvariant (p : ActorPool) : Prop :=
  (∀ a ∈ p.m_SpareActors, a ∉ StdMap.values p.m_ActorMap)
    ∧ (∀ a : Nat, a ∈ p.m_ActorStorage → a < p.m_NextObject)
    ∧ (∀ a : Nat, a ∈ StdMap.values p.m_ActorMap → a < p.m_NextObject)

/-- The calls by which a caller takes two actors, files them under the labels 1 and 2,
retires the label 1 (erasing it before the actor is recycled) and takes an actor again. -/
def poolSession : List PoolCall :=
  [.GetNewActor, .Assign 1 10, .GetNewActor, .Assign 2 9, .Erase 1, .Recycle 10, .GetNewActor]

/-- The calls by which a caller takes an actor and files it under the label 1, then
recycles the actor without erasing the label, and takes an actor again. -/
def poolMisuse : List PoolCall :=
  [.GetNewActor, .Assign 1 10, .Recycle 10, .GetNewActor]

/-! ## The OpenGL paint path of the slice renderer -/

/-- The two matrix modes `paintGL` switches between. -/
inductive MatrixMode where
  | GL_PROJECTION
  | GL_MODELVIEW
  deriving DecidableEq, Repr

/-- Texture interpolation modes. -/
inductive GLInterpolation where
  | GL_LINEAR
  | GL_NEAREST
  deriving DecidableEq, Repr

/-- Primitive kinds passed to `glBegin`. -/
inductive GLPrimitive where
  | GL_LINE_LOOP
  | GL_LINE_STRIP
  deriving DecidableEq, Repr

/-- The appearance elements whose line settings and colour the paint path applies; the
element made for highlighting a thumbnail carries its colour and line thickness. -/
inductive UIElement where
  | GRID_LINES
  | ZOOM_THUMBNAIL
  | ZOOM_VIEWPORT
  | highlight (color : Vector3d) (thickness : ℚ)
  deriving DecidableEq

/-- The calls that the paint path issues to OpenGL and to its drawing collaborators
(textures, overlay delegates, appearance elements), with their arguments. -/
inductive GLCall where
  | glPushAttrib
  | glPopAttrib
  | glDisable
  | glClearColor (r g b a : ℚ)
  | glClear
  | glViewport (x y w h : Int)
  | glMatrixMode (mode : MatrixMode)
  | glPushMatrix
  | glPopMatrix
  | glLoadIdentity
  | irisOrtho2D (left right bottom top : ℚ)
  | glTranslated (x y z : ℚ)
  | glScalef (x y z : ℚ)
  | glScaled (x y z : ℚ)
  | glBegin (mode : GLPrimitive)
  | glVertex2 (x y : ℚ)
  | glEnd
  | glFlush
  /-- The call `elt->ApplyLineSettings()`. -/
  | ApplyLineSettings (elt : UIElement)
  /-- The call `elt->ApplyColor()`. -/
  | ApplyColor (elt : UIElement)
  /-- The call `tex->Draw(clrBackground)`. -/
  | Draw (tex : ObjId) (clrBackground : Vector3d)
  /-- The call `tex->DrawTransparent(alpha)`. -/
  | DrawTransparent (tex : ObjId) (alpha : ℚ)
  /-- The call `paintGL()` on the overlay delegate with the given index, of the tiled or of
  the global list. -/
  | overlayPaintGL (tiled : Bool) (index : Nat)
  /-- The `glVertex2d` calls for the points of one line of the deformation grid. -/
  | gridVertices (d : Nat) (line : Nat)
  deriving DecidableEq

/-- Is the call a draw of a layer texture? -/
def GLCall.isTextureDraw : GLCall → Bool
  | .Draw _ _ => true
  | .DrawTransparent _ _ => true
  | _ => false

/-- Does the call put something on the screen: a texture, an overlay delegate, or
geometry between `glBegin` and `glEnd`? -/
def GLCall.isDraw : GLCall → Bool
  | .Draw _ _ => true
  | .DrawTransparent _ _ => true
  | .overlayPaintGL _ _ => true
  | .glBegin _ => true
  | .glVertex2 _ _ => true
  | .glEnd => true
  | .gridVertices _ _ => true
  | .glClear => true
  | _ => false

/-- An image layer as the paint path reads it (`ImageWrapperBase`). -/
structure ImageWrapperBase extends Layer where
  /-- Result of `IsInitialized()`. -/
  IsInitialized : Bool
  /-- Result of `IsDrawable()`. -/
  IsDrawable : Bool
  /-- Result of `IsSlicingOrthogonal()`. -/
  IsSlicingOrthogonal : Bool
  /-- The display mapping is a multi-channel policy whose display mode has `RenderAsGrid`. -/
  RenderAsGrid : Bool
  /-- The layer is an `AnatomicImageWrapper`. -/
  IsAnatomicImageWrapper : Bool
  /-- Result of `GetNumberOfComponents()`. -/
  GetNumberOfComponents : Nat
  /-- Size of the buffered region of the slice of this view. -/
  sliceRegionSize : Nat × Nat

/-- What the paint path reads from the model, the application and the settings. -/
structure PaintContext where
  /-- Result of `m_Model->GetId()`. -/
  GetId : Nat
  /-- Result of `m_Model->IsSliceInitialized()`. -/
  IsSliceInitialized : Bool
  /-- Layers of `m_Model->GetDriver()->GetCurrentImageData()`. -/
  GetCurrentImageData : List ImageWrapperBase
  /-- Layers of `m_Model->GetImageData()`. -/
  GetImageData : List ImageWrapperBase
  /-- Result of `GetImageData()->GetMain()`; `none` when `IsMainLoaded()` is false. -/
  GetMain : Option ImageWrapperBase
  /-- The list `GetViewportLayout().vpList`. -/
  vpList : List SubViewport
  GetViewZoom : ℚ
  GetCanvasSize : Nat × Nat
  GetViewPosition : ℚ × ℚ
  GetSliceSpacing : ℚ × ℚ
  GetSliceSize : Nat × Nat
  GetHoveredImageLayerId : Nat
  GetSelectedLayerId : Nat
  GetSelectedSegmentationLayerId : Nat
  GetSegmentationAlpha : ℚ
  /-- Result of `GetSizeReporter()->GetViewportSize()`. -/
  GetViewportSize : Nat × Nat
  /-- Result of `GetSizeReporter()->GetViewportPixelRatio()` as stored in `int vppr`. -/
  GetViewportPixelRatio : Int
  /-- Colour of the appearance element `BACKGROUND_2D`. -/
  BACKGROUND_2D : Vector3d
  /-- Colour of the appearance element `ZOOM_THUMBNAIL`. -/
  ZOOM_THUMBNAIL_Color : Vector3d
  /-- Result of `GetVisible()` of the element `ZOOM_THUMBNAIL`. -/
  ZOOM_THUMBNAIL_Visible : Bool
  /-- Result of `GetVisible()` of the element `ZOOM_VIEWPORT`. -/
  ZOOM_VIEWPORT_Visible : Bool
  /-- Result of `GetOverallVisibility()`. -/
  GetOverallVisibility : Bool
  /-- Result of `IsThumbnailOn()`. -/
  IsThumbnailOn : Bool
  /-- Result of `GetZoomThumbnailPosition()` after `ComputeThumbnailProperties()`. -/
  GetZoomThumbnailPosition : Int × Int
  /-- Result of `GetThumbnailZoom()` after `ComputeThumbnailProperties()`. -/
  GetThumbnailZoom : ℚ
  /-- Result of `GetGreyInterpolationMode() == GlobalDisplaySettings::LINEAR`. -/
  IsInterpolationLinear : Bool
  /-- Value of the layer tiling model of the display layout. -/
  GetSliceViewLayerTiling : Nat × Nat
  /-- Number of delegates in `m_TiledOverlays`. -/
  m_TiledOverlays : Nat
  /-- Number of delegates in `m_GlobalOverlays`. -/
  m_GlobalOverlays : Nat

/-- State of an OpenGL slice texture (`Texture`). -/
structure SliceTexture where
  image : Option ObjId := none
  components : Nat := 0
  interpolation : GLInterpolation := .GL_NEAREST
  mipMapping : Bool := false
  deriving DecidableEq

/-- The members of the renderer and the objects that the paint path reads and writes: the
drawing flags, the user data stored on the layers (by layer id and key), the textures, and
the calls issued so far. -/
structure PaintState where
  m_DrawingZoomThumbnail : Bool := false
  m_DrawingLayerThumbnail : Bool := false
  m_DrawingViewportIndex : Int := -1
  m_UserData : Nat → String → Option ObjId := fun _ _ => none
  m_Textures : ObjId → SliceTexture := fun _ => {}
  m_NextObject : Nat := 1
  calls : List GLCall := []

/-- Append calls to the calls issued so far. -/
def PaintState.emit (s : PaintState) (cs : List GLCall) : PaintState :=
  { s with calls := s.calls ++ cs }

/-- The call `FindLayer(id, false, role)` on an image data, `none` standing for the null
pointer; without a role every layer is searched. -/
def FindLayer (layers : List ImageWrapperBase) (id : Nat) (role : Option LayerRole) :
    Option ImageWrapperBase :=
  layers.find? (fun l =>
    decide (l.GetUniqueId = id) && (match role with
      | none => true
      | some r => decide (l.GetRole = r)))

/-- The array `user_data_ids` of `GetTextureForLayer`. -/
def user_data_ids : List String :=
  ["OpenGLTexture[0]", "OpenGLTexture[1]", "OpenGLTexture[2]"]

/-- The member function `GenericSliceRenderer::GetTextureForLayer`: the texture returned
(`none` for NULL) and the state afterwards; the result is `none` when the view id is
outside the array `user_data_ids`. -/
def GetTextureForLayer (ctx : PaintContext) (layer : ImageWrapperBase) (s : PaintState) :
    Option (Option ObjId × PaintState) :=
  match user_data_ids[ctx.GetId]? with
  | none => none
  | some user_data_id =>
    if !layer.IsInitialized then some (none, s)
    else
      let tex := s.m_UserData layer.GetUniqueId user_data_id
      let slice := layer.GetDisplaySlice ctx.GetId
      let r : ObjId × PaintState :=
        match tex with
        | some t =>
          if (s.m_Textures t).image ≠ some slice then
            (s.m_NextObject,
             { s with
               m_Textures := Function.update s.m_Textures s.m_NextObject
                 { components := 4, image := some slice }
               m_UserData := Function.update s.m_UserData layer.GetUniqueId
                 (Function.update (s.m_UserData layer.GetUniqueId) user_data_id
                   (some s.m_NextObject))
               m_NextObject := s.m_NextObject + 1 })
          else (t, s)
        | none =>
          (s.m_NextObject,
           { s with
             m_Textures := Function.update s.m_Textures s.m_NextObject
               { components := 4, image := some slice }
             m_UserData := Function.update s.m_UserData layer.GetUniqueId
               (Function.update (s.m_UserData layer.GetUniqueId) user_data_id
                 (some s.m_NextObject))
             m_NextObject := s.m_NextObject + 1 })
      let imode : GLInterpolation :=
        if ctx.IsInterpolationLinear then .GL_LINEAR else .GL_NEAREST
      some (some r.1,
        { r.2 with
          m_Textures := Function.update r.2.m_Textures r.1
            { r.2.m_Textures r.1 with
              interpolation := imode, mipMapping := layer.IsSlicingOrthogonal } })

/-- The stride `vox_increment` of the deformation grid for line direction `d`: for
orthogonal slicing `(int) ceil(8.0 / disp_pix_per_vox)`, which is not defined when
`disp_pix_per_vox` is zero; otherwise 8. -/
def voxIncrement (ctx : PaintContext) (layer : ImageWrapperBase) (d : Nat) : Option Int :=
  if layer.IsSlicingOrthogonal then
    let disp_pix_per_vox : ℚ :=
      (if d = 0 then ctx.GetSliceSpacing.1 else ctx.GetSliceSpacing.2) * ctx.GetViewZoom
    if disp_pix_per_vox = 0 then none
    else some (toInt ((⌈(8 : ℚ) / disp_pix_per_vox⌉ : Int) : ℚ))
  else some 8

/-- The calls of one pass `d` of the loop over the line directions of the grid: every line
whose index is a multiple of `vox_increment` is drawn as a line strip.  The test
`index % vox_increment` is not defined for a zero stride. -/
def gridDirection (ctx : PaintContext) (layer : ImageWrapperBase) (d : Nat) :
    Option (List GLCall) :=
  match voxIncrement ctx layer d with
  | none => none
  | some vox_increment =>
    let lines : Nat := if d = 0 then layer.sliceRegionSize.2 else layer.sliceRegionSize.1
    if vox_increment = 0 ∧ 0 < lines then none
    else
      some (((List.range lines).filter
          (fun (j : Nat) => decide (Int.ofNat j % vox_increment = 0))).flatMap
        (fun (j : Nat) => [GLCall.ApplyColor .GRID_LINES, GLCall.glBegin .GL_LINE_STRIP,
                           GLCall.gridVertices d j, GLCall.glEnd]))

/-- The member function `GenericSliceRenderer::DrawTextureForLayer`. -/
def DrawTextureForLayer (ctx : PaintContext) (layer : ImageWrapperBase) (vp : SubViewport)
    (use_transparency : Bool) (s : PaintState) : Option PaintState :=
  let interp : GLInterpolation :=
    if ctx.IsInterpolationLinear then .GL_LINEAR else .GL_NEAREST
  match GetTextureForLayer ctx layer s with
  | none => none
  | some (tex, s1) =>
    let s2 := s1.emit [GLCall.glPushMatrix]
    let s3 :=
      if !layer.IsSlicingOrthogonal then
        if vp.isThumbnail then
          let scale_x : ℚ := (vp.size.1 : ℚ) * 1 / (ctx.GetCanvasSize.1 : ℚ)
          let scale_y : ℚ := (vp.size.2 : ℚ) * 1 / (ctx.GetCanvasSize.2 : ℚ)
          let zoom := max scale_x scale_y
          s2.emit [GLCall.glLoadIdentity, GLCall.glScalef zoom zoom 0]
        else s2.emit [GLCall.glLoadIdentity]
      else s2
    let s4 :=
      match tex with
      | some t =>
        let s3a : PaintState :=
          { s3 with
            m_Textures := Function.update s3.m_Textures t
              { s3.m_Textures t with interpolation := interp } }
        if use_transparency then s3a.emit [GLCall.DrawTransparent t layer.GetAlpha]
        else
          let clrBackground : Vector3d :=
            if s3a.m_DrawingZoomThumbnail then ctx.ZOOM_THUMBNAIL_Color else ⟨1, 1, 1⟩
          s3a.emit [GLCall.Draw t clrBackground]
      | none => s3
    let s5 : Option PaintState :=
      if layer.RenderAsGrid && !s4.m_DrawingZoomThumbnail && !s4.m_DrawingLayerThumbnail then
        if layer.IsAnatomicImageWrapper && decide (layer.GetNumberOfComponents = 3) then
          match gridDirection ctx layer 0, gridDirection ctx layer 1 with
          | some g0, some g1 =>
            some (s4.emit ([GLCall.glPushAttrib, GLCall.ApplyLineSettings .GRID_LINES]
              ++ g0 ++ g1 ++ [GLCall.glPopAttrib]))
          | _, _ => none
        else some s4
      else some s4
    match s5 with
    | none => none
    | some s6 => some (s6.emit [GLCall.glPopMatrix])

/-- The member function `GenericSliceRenderer::IsTiledMode`. -/
def IsTiledMode (ctx : PaintContext) : Bool :=
  decide (ctx.GetSliceViewLayerTiling.1 > 1) || decide (ctx.GetSliceViewLayerTiling.2 > 1)

/-- A loop of `DrawImageLayers` over the layers: every layer that passes the test is drawn
with transparency. -/
def drawLayersLoop (ctx : PaintContext) (vp : SubViewport) (test : ImageWrapperBase → Bool) :
    List ImageWrapperBase → PaintState → Option PaintState
  | [], s => some s
  | layer :: rest, s =>
    if test layer then
      match DrawTextureForLayer ctx layer vp true s with
      | none => none
      | some s1 => drawLayersLoop ctx vp test rest s1
    else drawLayersLoop ctx vp test rest s

/-- The member function `GenericSliceRenderer::DrawImageLayers`: its return value and the
state afterwards. -/
def DrawImageLayers (ctx : PaintContext) (base_layer : ImageWrapperBase) (vp : SubViewport)
    (s : PaintState) : Option (Bool × PaintState) :=
  if s.m_DrawingZoomThumbnail then
    (DrawTextureForLayer ctx base_layer vp false s).map (fun s1 => (true, s1))
  else if !IsTiledMode ctx then
    match DrawTextureForLayer ctx base_layer vp false s with
    | none => none
    | some s1 =>
      if !vp.isThumbnail then
        (drawLayersLoop ctx vp (fun layer =>
            decide (layer.GetRole ≠ LABEL_ROLE) && layer.IsDrawable && layer.IsSticky
              && decide (layer.GetAlpha > 0)) ctx.GetImageData s1).map (fun s2 => (true, s2))
      else some (true, s1)
  else
    match DrawTextureForLayer ctx base_layer vp false s with
    | none => none
    | some s1 =>
      if !vp.isThumbnail then
        (drawLayersLoop ctx vp (fun layer =>
            decide (layer.GetRole ≠ MAIN_ROLE) && layer.IsSticky && layer.IsDrawable
              && decide (layer.GetAlpha > 0)) ctx.GetImageData s1).map (fun s2 => (true, s2))
      else some (true, s1)

/-- The member function `GenericSliceRenderer::DrawSegmentationTexture`; the texture
pointer returned by `GetTextureForLayer` is used without a test.  The update of the slice
of the layer before the texture is fetched belongs to the image pipeline and is left out. -/
def DrawSegmentationTexture (ctx : PaintContext) (s : PaintState) : Option PaintState :=
  let alpha := ctx.GetSegmentationAlpha
  if alpha > 0 then
    match FindLayer ctx.GetImageData ctx.GetSelectedSegmentationLayerId (some LABEL_ROLE) with
    | some seg_layer =>
      match GetTextureForLayer ctx seg_layer s with
      | none => none
      | some (none, _) => none
      | some (some texture, s1) => some (s1.emit [GLCall.DrawTransparent texture alpha])
    | none => some s
  else some s

/-- The member function `GenericSliceRenderer::DrawTiledOverlays`. -/
def DrawTiledOverlays (ctx : PaintContext) (s : PaintState) : PaintState :=
  s.emit ((List.range ctx.m_TiledOverlays).map (fun i => GLCall.overlayPaintGL true i))

/-- The member function `GenericSliceRenderer::DrawGlobalOverlays`. -/
def DrawGlobalOverlays (ctx : PaintContext) (s : PaintState) : PaintState :=
  s.emit ((List.range ctx.m_GlobalOverlays).map (fun i => GLCall.overlayPaintGL false i))

/-- The member function `GenericSliceRenderer::DrawThumbnail`. -/
def DrawThumbnail (ctx : PaintContext) (s : PaintState) : Option PaintState :=
  if !ctx.ZOOM_THUMBNAIL_Visible then some s
  else
    let tPos := ctx.GetZoomThumbnailPosition
    let tZoom := ctx.GetThumbnailZoom
    let s1 : PaintState := { s with m_DrawingZoomThumbnail := true }
    let s2 := s1.emit [GLCall.glPushMatrix, GLCall.glLoadIdentity,
      GLCall.glTranslated (tPos.1 : ℚ) (tPos.2 : ℚ) 0, GLCall.glScaled tZoom tZoom 1,
      GLCall.glPushMatrix,
      GLCall.glScalef ctx.GetSliceSpacing.1 ctx.GetSliceSpacing.2 1]
    let s3 : Option PaintState :=
      match ctx.GetMain with
      | some main =>
        match ctx.vpList.head? with
        | none => none
        | some vp => DrawTextureForLayer ctx main vp false s2
      | none => some s2
    match s3 with
    | none => none
    | some s4 =>
      let s5 := DrawTiledOverlays ctx s4
      let w : ℚ := (ctx.GetSliceSize.1 : ℚ)
      let h : ℚ := (ctx.GetSliceSize.2 : ℚ)
      let s6 := s5.emit [GLCall.glPushAttrib, GLCall.ApplyLineSettings .ZOOM_THUMBNAIL,
        GLCall.ApplyColor .ZOOM_THUMBNAIL, GLCall.glBegin .GL_LINE_LOOP,
        GLCall.glVertex2 0 0, GLCall.glVertex2 0 h, GLCall.glVertex2 w h, GLCall.glVertex2 w 0,
        GLCall.glEnd, GLCall.glPopAttrib, GLCall.glPopMatrix]
      let s7 :=
        if ctx.ZOOM_VIEWPORT_Visible then
          let w2 : ℚ := (ctx.GetCanvasSize.1 : ℚ) * (1 / 2) / ctx.GetViewZoom
          let h2 : ℚ := (ctx.GetCanvasSize.2 : ℚ) * (1 / 2) / ctx.GetViewZoom
          s6.emit [GLCall.glPushAttrib, GLCall.ApplyLineSettings .ZOOM_VIEWPORT,
            GLCall.glTranslated ctx.GetViewPosition.1 ctx.GetViewPosition.2 0,
            GLCall.ApplyColor .ZOOM_VIEWPORT, GLCall.glBegin .GL_LINE_LOOP,
            GLCall.glVertex2 (-w2) (-h2), GLCall.glVertex2 (-w2) h2, GLCall.glVertex2 w2 h2,
            GLCall.glVertex2 w2 (-h2), GLCall.glEnd, GLCall.glPopAttrib]
        else s6
      let s8 := s7.emit [GLCall.glPopMatrix]
      some { s8 with m_DrawingZoomThumbnail := false }

/-- The zoom that `paintGL` applies in a viewport: the view zoom, for a thumbnail
multiplied by the larger of the two ratios of viewport size to canvas size. -/
def viewportZoom (ctx : PaintContext) (vp : SubViewport) : ℚ :=
  let zoom := ctx.GetViewZoom
  if vp.isThumbnail then
    let scale_x : ℚ := (vp.size.1 : ℚ) * 1 / (ctx.GetCanvasSize.1 : ℚ)
    let scale_y : ℚ := (vp.size.2 : ℚ) * 1 / (ctx.GetCanvasSize.2 : ℚ)
    zoom * max scale_x scale_y
  else zoom

/-- The calls of `paintGL` for a viewport up to the search for its layer: the GL viewport,
the projection and the modelview transform. -/
def viewportSetup (ctx : PaintContext) (vp : SubViewport) : List GLCall :=
  let zoom := viewportZoom ctx vp
  [GLCall.glViewport (vp.pos.1 : Int) (vp.pos.2 : Int) (vp.size.1 : Int) (vp.size.2 : Int),
   GLCall.glMatrixMode .GL_PROJECTION, GLCall.glPushMatrix, GLCall.glLoadIdentity,
   GLCall.irisOrtho2D 0 (vp.size.1 : ℚ) 0 (vp.size.2 : ℚ),
   GLCall.glMatrixMode .GL_MODELVIEW, GLCall.glPushMatrix, GLCall.glLoadIdentity,
   GLCall.glPushMatrix,
   GLCall.glTranslated ((1 / 2) * (vp.size.1 : ℚ)) ((1 / 2) * (vp.size.2 : ℚ)) 0,
   GLCall.glScalef zoom zoom 1,
   GLCall.glTranslated (-ctx.GetViewPosition.1) (-ctx.GetViewPosition.2) 0,
   GLCall.glScalef ctx.GetSliceSpacing.1 ctx.GetSliceSpacing.2 1]

/-- The decoration that `paintGL` draws around a thumbnail that is hovered over or
selected (it is used only when one of the two flags holds). -/
def thumbnailDecoration (ctx : PaintContext) (vp : SubViewport) (is_hover is_selected : Bool) :
    List GLCall :=
  let color : Vector3d :=
    if is_selected && is_hover then ⟨1, 1, 1 / 2⟩
    else if is_selected then ⟨1, 9 / 10, 1 / 10⟩
    else ⟨6 / 10, 54 / 100, 46 / 100⟩
  let elt := UIElement.highlight color ((3 / 2) * (ctx.GetViewportPixelRatio : ℚ))
  [GLCall.glPushAttrib, GLCall.ApplyLineSettings elt]
    ++ (if is_selected || is_hover then [GLCall.ApplyColor elt] else [])
    ++ [GLCall.glBegin .GL_LINE_LOOP, GLCall.glVertex2 0 0,
        GLCall.glVertex2 0 (vp.size.2 : ℚ), GLCall.glVertex2 (vp.size.1 : ℚ) (vp.size.2 : ℚ),
        GLCall.glVertex2 (vp.size.1 : ℚ) 0, GLCall.glEnd, GLCall.glPopAttrib]

/-- Body of the viewport loop of `paintGL` for the viewport `vp` with index `k`. -/
def paintViewport (ctx : PaintContext) (k : Nat) (vp : SubViewport) (s : PaintState) :
    Option PaintState :=
  let s1 := s.emit (viewportSetup ctx vp)
  match FindLayer ctx.GetCurrentImageData vp.layer_id none with
  | none => some s1
  | some layer =>
    match DrawImageLayers ctx layer vp s1 with
    | none => none
    | some (false, s2) => some s2
    | some (true, s2) =>
      let s3 : PaintState :=
        { s2 with m_DrawingLayerThumbnail := vp.isThumbnail, m_DrawingViewportIndex := (k : Int) }
      match DrawSegmentationTexture ctx s3 with
      | none => none
      | some s4 =>
        let s5 := if ctx.GetOverallVisibility then DrawTiledOverlays ctx s4 else s4
        let s6 := s5.emit [GLCall.glPopMatrix]
        let is_hover : Bool := decide (layer.GetUniqueId = ctx.GetHoveredImageLayerId)
        let is_thumb : Bool := vp.isThumbnail
        let is_selected : Bool := decide (layer.GetUniqueId = ctx.GetSelectedLayerId)
        let s7 :=
          if is_thumb && (is_hover || is_selected) then
            s6.emit (thumbnailDecoration ctx vp is_hover is_selected)
          else s6
        some (s7.emit [GLCall.glPopMatrix, GLCall.glMatrixMode .GL_PROJECTION,
          GLCall.glPopMatrix])

/-- The viewport loop of `paintGL`, `k` being the index of the first viewport of the list. -/
def paintViewportLoop (ctx : PaintContext) : Nat → List SubViewport → PaintState →
    Option PaintState
  | _, [], s => some s
  | k, vp :: rest, s =>
    match paintViewport ctx k vp s with
    | none => none
    | some s1 => paintViewportLoop ctx (k + 1) rest s1

/-- The part of `paintGL` after the viewport loop, up to the end of the block guarded by
`IsSliceInitialized()`: the flags are reset and the zoom thumbnail and the global overlays
are drawn over the whole window. -/
def paintWindowOverlays (ctx : PaintContext) (s : PaintState) : Option PaintState :=
  let s1 : PaintState := { s with m_DrawingLayerThumbnail := false, m_DrawingViewportIndex := -1 }
  let s2 := s1.emit [GLCall.glViewport 0 0 (ctx.GetViewportSize.1 : Int)
      (ctx.GetViewportSize.2 : Int),
    GLCall.glMatrixMode .GL_PROJECTION, GLCall.glPushMatrix, GLCall.glLoadIdentity,
    GLCall.irisOrtho2D 0 (ctx.GetViewportSize.1 : ℚ) 0 (ctx.GetViewportSize.2 : ℚ),
    GLCall.glMatrixMode .GL_MODELVIEW, GLCall.glPushMatrix, GLCall.glLoadIdentity]
  let s3 : Option PaintState :=
    if ctx.GetOverallVisibility then
      match (if ctx.IsThumbnailOn then DrawThumbnail ctx s2 else some s2) with
      | none => none
      | some s2a => some (DrawGlobalOverlays ctx s2a)
    else some s2
  match s3 with
  | none => none
  | some s4 =>
    some (s4.emit [GLCall.glMatrixMode .GL_PROJECTION, GLCall.glPopMatrix,
      GLCall.glMatrixMode .GL_MODELVIEW, GLCall.glPopMatrix])

/-- The member function `GenericSliceRenderer::paintGL`. -/
def paintGL (ctx : PaintContext) (s : PaintState) : Option PaintState :=
  let clrBack := ctx.BACKGROUND_2D
  let s1 := s.emit [GLCall.glPushAttrib, GLCall.glDisable,
    GLCall.glClearColor clrBack.x clrBack.y clrBack.z 1, GLCall.glClear]
  let s2 : Option PaintState :=
    if ctx.IsSliceInitialized then
      match paintViewportLoop ctx 0 ctx.vpList s1 with
      | none => none
      | some s1a => paintWindowOverlays ctx s1a
    else some s1
  match s2 with
  | none => none
  | some s3 => some (s3.emit [GLCall.glPopAttrib, GLCall.glFlush])

/-! ## The matrix state of OpenGL -/

/-- An OpenGL matrix as far as the x and y coordinates go.  The matrices that the paint
path builds are products of translations and axis scalings, that is maps
`(x, y) ↦ (ax * x + tx, ay * y + ty)`. -/
structure GLMatrix where
  ax : ℚ
  ay : ℚ
  tx : ℚ
  ty : ℚ
  deriving DecidableEq

/-- The identity matrix. -/
def GLMatrix.identity : GLMatrix := ⟨1, 1, 0, 0⟩

/-- The product `m * n`: first `n`, then `m`. -/
def GLMatrix.mul (m n : GLMatrix) : GLMatrix :=
  ⟨m.ax * n.ax, m.ay * n.ay, m.ax * n.tx + m.tx, m.ay * n.ty + m.ty⟩

/-- The image of a point under the matrix. -/
def GLMatrix.apply (m : GLMatrix) (p : ℚ × ℚ) : ℚ × ℚ :=
  (m.ax * p.1 + m.tx, m.ay * p.2 + m.ty)

/-- A matrix stack: the current matrix and the saved ones below it. -/
structure MatrixStack where
  top : GLMatrix := GLMatrix.identity
  below : List GLMatrix := []
  deriving DecidableEq

/-- The call `glPushMatrix` on a stack. -/
def MatrixStack.push (st : MatrixStack) : MatrixStack := ⟨st.top, st.top :: st.below⟩

/-- The call `glPopMatrix` on a stack; a stack with nothing saved is left as it is. -/
def MatrixStack.pop (st : MatrixStack) : MatrixStack :=
  match st.below with
  | [] => st
  | m :: rest => ⟨m, rest⟩

/-- The matrix state of OpenGL: the matrix mode and the two stacks. -/
structure GLState where
  matrixMode : MatrixMode := .GL_MODELVIEW
  projection : MatrixStack := {}
  modelview : MatrixStack := {}
  deriving DecidableEq

/-- Apply a change to the stack selected by the matrix mode. -/
def GLState.onCurrent (g : GLState) (f : MatrixStack → MatrixStack) : GLState :=
  match g.matrixMode with
  | .GL_PROJECTION => { g with projection := f g.projection }
  | .GL_MODELVIEW => { g with modelview := f g.modelview }

/-- Multiply the current matrix from the right, as the transforming calls of OpenGL do. -/
def GLState.multiply (g : GLState) (n : GLMatrix) : GLState :=
  g.onCurrent (fun st => { st with top := st.top.mul n })

/-- Effect of one call on the matrix state. -/
def GLState.step (g : GLState) : GLCall → GLState
  | .glMatrixMode mode => { g with matrixMode := mode }
  | .glPushMatrix => g.onCurrent MatrixStack.push
  | .glPopMatrix => g.onCurrent MatrixStack.pop
  | .glLoadIdentity => g.onCurrent (fun st => { st with top := GLMatrix.identity })
  | .irisOrtho2D left right bottom top =>
    g.multiply ⟨2 / (right - left), 2 / (top - bottom),
      -(right + left) / (right - left), -(top + bottom) / (top - bottom)⟩
  | .glTranslated x y _ => g.multiply ⟨1, 1, x, y⟩
  | .glScalef x y _ => g.multiply ⟨x, y, 0, 0⟩
  | .glScaled x y _ => g.multiply ⟨x, y, 0, 0⟩
  | _ => g

/-- Effect of a sequence of calls on the matrix state. -/
def GLState.run (g : GLState) (cs : List GLCall) : GLState := cs.foldl GLState.step g

/-! ## A scenario for the paint path -/

/-- A layer of the scenario as the paint path reads it: drawable, sliced orthogonally, no
deformation grid. -/
def paintLayer (l : Layer) (initialized : Bool) : ImageWrapperBase :=
  { toLayer := l, IsInitialized := initialized, IsDrawable := true,
    IsSlicingOrthogonal := true, RenderAsGrid := false, IsAnatomicImageWrapper := true,
    GetNumberOfComponents := 1, sliceRegionSize := (10, 10) }

/-- A paint context showing the given layers through the given viewports in a 100 x 100
window; the selected segmentation layer is the layer with id 3. -/
def paintScenario (layers : List ImageWrapperBase) (vps : List SubViewport) : PaintContext :=
  { GetId := 0, IsSliceInitialized := true, GetCurrentImageData := layers,
    GetImageData := layers, GetMain := layers.head?, vpList := vps,
    GetViewZoom := 2, GetCanvasSize := (100, 100), GetViewPosition := (5, 5),
    GetSliceSpacing := (1, 1), GetSliceSize := (10, 10),
    GetHoveredImageLayerId := 0, GetSelectedLayerId := 1, GetSelectedSegmentationLayerId := 3,
    GetSegmentationAlpha := 1 / 2, GetViewportSize := (100, 100), GetViewportPixelRatio := 1,
    BACKGROUND_2D := ⟨0, 0, 0⟩, ZOOM_THUMBNAIL_Color := ⟨1, 1, 0⟩,
    ZOOM_THUMBNAIL_Visible := false, ZOOM_VIEWPORT_Visible := false,
    GetOverallVisibility := true, IsThumbnailOn := false,
    GetZoomThumbnailPosition := (0, 0), GetThumbnailZoom := 1,
    IsInterpolationLinear := false, GetSliceViewLayerTiling := (1, 1),
    m_TiledOverlays := 1, m_GlobalOverlays := 1 }

/-- The paint state of a renderer that has not painted yet. -/
def paintStart : PaintState := { m_NextObject := 500 }

/-- The viewport of the scenario: layer A over the whole window. -/
def viewportA : SubViewport :=
  { layer_id := 1, pos := (0, 0), size := (100, 100), isThumbnail := false }

/-- A viewport that names the layer id 99, which no layer of the scenario has. -/
def viewportStray : SubViewport :=
  { layer_id := 99, pos := (0, 0), size := (50, 50), isThumbnail := false }

/-- From the paint state `s` to the paint state `s1` no texture was drawn, created or stored:
the calls of `s1` are those of `s` followed by calls none of which draws a texture, and the
textures, the user data of the layers, the object counter and the drawing flags are those
of `s`. -/
def NoTextureDrawn (s s1 : PaintState) : Prop :=
  s1.m_Textures = s.m_Textures ∧ s1.m_UserData = s.m_UserData
    ∧ s1.m_NextObject = s.m_NextObject
    ∧ s1.m_DrawingZoomThumbnail = s.m_DrawingZoomThumbnail
    ∧ s1.m_DrawingLayerThumbnail = s.m_DrawingLayerThumbnail
    ∧ s1.m_DrawingViewportIndex = s.m_DrawingViewportIndex
    ∧ ∃ added, s1.calls = s.calls ++ added ∧ ∀ c ∈ added, c.isTextureDraw = false

/-! ## Derived notions for the compositing of layers -/

/-- A sequence of `DrawTextureForLayer` calls in one viewport: each layer of the list is
drawn in turn, with transparency when its flag is set. -/
def drawTextures (ctx : PaintContext) (vp : SubViewport) :
    List (ImageWrapperBase × Bool) → PaintState → Option PaintState
  | [], s => some s
  | (layer, use_transparency) :: rest, s =>
    match DrawTextureForLayer ctx layer vp use_transparency s with
    | none => none
    | some s1 => drawTextures ctx vp rest s1

/-- Reference definition, in the words of the claim on compositing: the layers drawn over
the base layer are the layers that are sticky, drawable and have alpha > 0, in layer
order. -/
def stickyLayersOnBase (layers : List ImageWrapperBase) : List ImageWrapperBase :=
  layers.filter (fun l => l.IsSticky && l.IsDrawable && decide (l.GetAlpha > 0))

/-- A segmentation layer marked sticky, with alpha one half. -/
def stickyLabel : Layer :=
  { GetRole := LABEL_ROLE, GetUniqueId := 4, IsSticky := true, GetAlpha := 1 / 2,
    GetDisplaySlice := fun _ => 104 }

/-- The paint scenario with the display tiled in one row of two columns. -/
def tiledScenario (layers : List ImageWrapperBase) (vps : List SubViewport) : PaintContext :=
  { paintScenario layers vps with GetSliceViewLayerTiling := (1, 2) }

/-! ## Derived notions for the matrix stacks and the deformation grid -/

/-- Depths of the projection and of the modelview stack: the numbers of saved matrices. -/
def stackDepths (g : GLState) : Nat × Nat :=
  (g.projection.below.length, g.modelview.below.length)

/-- A matrix state on entry to `paintGL` in which both stacks hold three saved matrices,
so that no `glPopMatrix` of the paint path meets an empty stack. -/
def glEntry : GLState :=
  { matrixMode := .GL_MODELVIEW,
    projection := ⟨GLMatrix.identity, [GLMatrix.identity, GLMatrix.identity, GLMatrix.identity]⟩,
    modelview := ⟨GLMatrix.identity, [GLMatrix.identity, GLMatrix.identity, GLMatrix.identity]⟩ }

/-- The indices of the grid lines drawn by a sequence of calls. -/
def gridLines (cs : List GLCall) : List Nat :=
  cs.filterMap (fun c => match c with
    | .gridVertices _ j => some j
    | _ => none)

/-- A three-component anatomic layer displayed as a deformation grid, its slice being
10 x 10 voxels. -/
def gridLayer : ImageWrapperBase :=
  { paintLayer layerA true with RenderAsGrid := true, GetNumberOfComponents := 3 }

/-- The paint scenario with voxels of 4 mm by 1 mm in the slice, at zoom 1. -/
def anisotropicScenario : PaintContext :=
  { paintScenario [gridLayer] [viewportA] with GetSliceSpacing := (4, 1), GetViewZoom := 1 }

/-! ## Mesh layers: data array properties (MeshWrapperBase.cxx) -/

/-- The enumeration `MeshDataType` of the data array properties: point data, cell data, and
whatever other values the header (not at hand) declares. -/
inductive MeshDataType where
  | POINT_DATA
  | CELL_DATA
  | OTHER_DATA (code : Nat)
  deriving DecidableEq, Repr

/-- A `vtkDataArray` as the mesh wrapper reads it. -/
structure vtkDataArray where
  /-- Address of the array. -/
  address : ObjId
  /-- Result of `GetName()`, `none` for a null name. -/
  GetName : Option String
  /-- Result of `GetRange()`: the least and the greatest value. -/
  GetRange : ℚ × ℚ
  deriving DecidableEq

/-- An array of a `vtkDataSetAttributes`: a data array, or an array of another kind, for
which `vtkDataArray::SafeDownCast` gives null. -/
inductive vtkAbstractArray where
  | dataArray (arr : vtkDataArray)
  | otherArray (name : Option String)
  deriving DecidableEq

/-- Result of `GetName()` of an array. -/
def vtkAbstractArray.GetName : vtkAbstractArray → Option String
  | .dataArray arr => arr.GetName
  | .otherArray name => name

/-- Result of `vtkDataArray::SafeDownCast`. -/
def vtkAbstractArray.SafeDownCast : vtkAbstractArray → Option vtkDataArray
  | .dataArray arr => some arr
  | .otherArray _ => none

/-- A `vtkDataSetAttributes`: its arrays in index order. -/
abbrev vtkDataSetAttributes := List vtkAbstractArray

/-- The call `data->HasArray(name)`. -/
def HasArray (data : vtkDataSetAttributes) (name : String) : Bool :=
  data.any (fun a => decide (a.GetName = some name))

/-- The class `AbstractMeshDataArrayProperty`, once initialized. -/
structure AbstractMeshDataArrayProperty where
  m_Name : String
  m_min : ℚ
  m_max : ℚ
  m_Type : MeshDataType
  deriving DecidableEq

/-- The member function `AbstractMeshDataArrayProperty::Initialize`; the result is `none`
for an array without a name.  (The buffer made for the copy of the name has no room for
the terminator; the layout of memory is not part of this model.) -/
def AbstractMeshDataArrayProperty.Initialize (array : vtkDataArray) (type : MeshDataType) :
    Option AbstractMeshDataArrayProperty :=
  match array.GetName with
  | none => none
  | some name =>
    some { m_Name := name, m_min := array.GetRange.1, m_max := array.GetRange.2,
           m_Type := type }

/-- The member function `AbstractMeshDataArrayProperty::Update`.  `strcmp` gives 0 for
equal strings, so the test `!strcmp(m_Name, array->GetName())` holds when the names are
equal. -/
def AbstractMeshDataArrayProperty.Update (this : AbstractMeshDataArrayProperty)
    (array : vtkDataArray) : Option AbstractMeshDataArrayProperty :=
  match array.GetName with
  | none => none
  | some name =>
    if this.m_Name = name then some this
    else some { this with m_min := array.GetRange.1, m_max := array.GetRange.2 }

/-- The class `MeshDataArrayProperty`: the property of one array of one mesh. -/
structure MeshDataArrayProperty extends AbstractMeshDataArrayProperty where
  m_DataPointer : Option ObjId := none
  deriving DecidableEq

/-- The type `MeshDataArrayPropertyMap`: properties by array name. -/
abbrev MeshDataArrayPropertyMap := StdMap String MeshDataArrayProperty

/-- The first loop of `PolyDataWrapper::UpdatePropertiesFromVTKData`: creation and
update. -/
def updatePropertiesLoop (type : MeshDataType) :
    List vtkAbstractArray → MeshDataArrayPropertyMap → Option MeshDataArrayPropertyMap
  | [], propMap => some propMap
  | a :: rest, propMap =>
    match a.SafeDownCast with
    | none => updatePropertiesLoop type rest propMap
    | some arr =>
      match arr.GetName with
      | none => updatePropertiesLoop type rest propMap
      | some name =>
        match StdMap.find propMap name with
        | some prop =>
          match prop.toAbstractMeshDataArrayProperty.Update arr with
          | none => none
          | some updated =>
            updatePropertiesLoop type rest
              (StdMap.modify propMap name
                (fun p => { p with toAbstractMeshDataArrayProperty := updated }))
        | none =>
          match AbstractMeshDataArrayProperty.Initialize arr type with
          | none => none
          | some prop =>
            updatePropertiesLoop type rest
              (StdMap.assign propMap name
                { toAbstractMeshDataArrayProperty := prop, m_DataPointer := some arr.address })

/-- The second loop of `PolyDataWrapper::UpdatePropertiesFromVTKData`, over the entries
still to visit: an entry without an array of its name is erased through the loop iterator,
which is then incremented although the erasure has made it invalid; the result of that is
not defined (`none`). -/
def removePropertiesLoop (data : vtkDataSetAttributes) :
    List (String × MeshDataArrayProperty) → MeshDataArrayPropertyMap →
      Option MeshDataArrayPropertyMap
  | [], propMap => some propMap
  | it :: rest, propMap =>
    if HasArray data it.1 then removePropertiesLoop data rest propMap
    else none

/-- The member function `PolyDataWrapper::UpdatePropertiesFromVTKData`. -/
def UpdatePropertiesFromVTKData (propMap : MeshDataArrayPropertyMap)
    (data : vtkDataSetAttributes) (type : MeshDataType) : Option MeshDataArrayPropertyMap :=
  match updatePropertiesLoop type data propMap with
  | none => none
  | some propMap1 => removePropertiesLoop data propMap1 propMap1

/-- The class `MeshLayerDataArrayProperty`: the property of one array name over all meshes
of a layer, with the arrays it was merged from. -/
structure MeshLayerDataArrayProperty extends AbstractMeshDataArrayProperty where
  m_DataPointerList : List (Option ObjId) := []
  deriving DecidableEq

/-- The member function `MeshLayerDataArrayProperty::Initialize`, on a property whose
pointer list is `pointers`. -/
def MeshLayerDataArrayProperty.Initialize (pointers : List (Option ObjId))
    (other : MeshDataArrayProperty) : MeshLayerDataArrayProperty :=
  { m_Name := other.m_Name, m_min := other.m_min, m_max := other.m_max,
    m_Type := other.m_Type, m_DataPointerList := pointers ++ [other.m_DataPointer] }

/-- The member function `MeshLayerDataArrayProperty::Merge`; the result is `none` when the
assertion on the names fails. -/
def MeshLayerDataArrayProperty.Merge (this : MeshLayerDataArrayProperty)
    (other : MeshDataArrayProperty) : Option MeshLayerDataArrayProperty :=
  if this.m_Name ≠ other.m_Name then none
  else
    let m_max := if other.m_max > this.m_max then other.m_max else this.m_max
    let m_min := if other.m_min < this.m_min then other.m_min else this.m_min
    let list :=
      if other.m_DataPointer ∈ this.m_DataPointerList then this.m_DataPointerList
      else this.m_DataPointerList ++ [other.m_DataPointer]
    some { this with m_max := m_max, m_min := m_min, m_DataPointerList := list }

/-- A sequence of `Merge` calls. -/
def mergeAll : MeshLayerDataArrayProperty → List MeshDataArrayProperty →
    Option MeshLayerDataArrayProperty
  | this, [] => some this
  | this, other :: rest =>
    match this.Merge other with
    | none => none
    | some merged => mergeAll merged rest

/-- A property of the point data array `Curvature`, with the range [0, 1]. -/
def curvatureProp : MeshDataArrayProperty :=
  { m_Name := "Curvature", m_min := 0, m_max := 1, m_Type := .POINT_DATA,
    m_DataPointer := some 7 }

/-- The array `Curvature` after the mesh has changed: its range is now [2, 5]. -/
def curvatureArray : vtkDataArray :=
  { address := 7, GetName := some "Curvature", GetRange := (2, 5) }

/-- An array of another name with the range [2, 5]. -/
def thicknessArray : vtkDataArray :=
  { address := 8, GetName := some "Thickness", GetRange := (2, 5) }

/-- The property of the array `Curvature` of a second mesh, with the range [-1, 1/2]. -/
def curvatureProp2 : MeshDataArrayProperty :=
  { m_Name := "Curvature", m_min := -1, m_max := 1 / 2, m_Type := .POINT_DATA,
    m_DataPointer := some 9 }

/-! ## Mesh layers: assemblies and the wrapper (MeshWrapperBase.cxx) -/

/-- The class `MeshAssembly`: the meshes of one timepoint by label id, each a pointer to a
`PolyDataWrapper` (`none` standing for the null pointer). -/
structure MeshAssembly where
  m_Meshes : StdMap Nat (Option ObjId) := []
  deriving DecidableEq

namespace MeshAssembly

/-- The member function `MeshAssembly::AddMesh`. -/
def AddMesh (a : MeshAssembly) (mesh : Option ObjId) (id : Nat) : MeshAssembly :=
  { a with m_Meshes := StdMap.assign a.m_Meshes id mesh }

/-- The member function `MeshAssembly::GetMesh`: the pointer returned and the assembly
afterwards. -/
def GetMesh (a : MeshAssembly) (id : Nat) : Option ObjId × MeshAssembly :=
  if StdMap.count a.m_Meshes id then
    let r := StdMap.index none a.m_Meshes id
    (r.1, { a with m_Meshes := r.2 })
  else (none, a)

/-- The member function `MeshAssembly::Exist`. -/
def Exist (a : MeshAssembly) (id : Nat) : Bool := StdMap.count a.m_Meshes id

/-- The member function `MeshAssembly::Erase`: the assembly afterwards and the objects on
which `Delete()` was called; the result is `none` when `Delete()` is called through a null
pointer. -/
def Erase (a : MeshAssembly) (id : Nat) : Option (MeshAssembly × List ObjId) :=
  if StdMap.count a.m_Meshes id = false then some (a, [])
  else
    let r := StdMap.index none a.m_Meshes id
    match r.1 with
    | none => none
    | some temp => some ({ a with m_Meshes := StdMap.erase r.2 id }, [temp])

end MeshAssembly

/-- The point and cell data of the `vtkPolyData` of a mesh, with the names of the arrays
that are the active scalars. -/
structure MeshPolyData where
  pointData : vtkDataSetAttributes := []
  cellData : vtkDataSetAttributes := []
  activePointScalars : Option String := none
  activeCellScalars : Option String := none
  deriving DecidableEq

/-- The call `SetActiveAttribute(name, SCALARS)` on a `vtkDataSetAttributes`: the array of
that name becomes the active scalars, and there are none when there is no such array. -/
def SetActiveAttribute (data : vtkDataSetAttributes) (name : String) : Option String :=
  if HasArray data name then some name else none

/-- The class `PolyDataWrapper`. -/
structure PolyDataWrapper where
  m_PolyData : Option MeshPolyData := none
  m_PointDataProperties : MeshDataArrayPropertyMap := []
  m_CellDataProperties : MeshDataArrayPropertyMap := []

/-- The colour map and the intensity curve set on a `MeshDisplayMappingPolicy`. -/
structure MeshDisplayMappingPolicy where
  m_ColorMap : Option ObjId := none
  m_IntensityCurve : Option ObjId := none
  deriving DecidableEq

/-- A layer property filed in the combined map, with the colour map and the intensity
curve made by its constructor. -/
structure CombinedProperty where
  prop : MeshLayerDataArrayProperty
  m_ColorMap : ObjId
  m_IntensityCurve : ObjId
  deriving DecidableEq

/-- The events a mesh wrapper invokes. -/
inductive MeshEvent where
  | WrapperMetadataChangeEvent
  | WrapperDisplayMappingChangeEvent
  | ModifiedEvent
  deriving DecidableEq, Repr

/-- The class `MeshWrapperBase` with the objects it reaches: the assemblies by timepoint,
the combined property map, the names, the display mapping policy returned by
`GetMeshDisplayMappingPolicy()`, and the events invoked so far. -/
structure MeshWrapperBase where
  m_MeshAssemblyMap : StdMap Nat (Option ObjId) := []
  m_Assemblies : ObjId → MeshAssembly := fun _ => {}
  m_PolyDataWrappers : ObjId → PolyDataWrapper := fun _ => {}
  m_CombinedDataPropertyMap : StdMap Int (Option CombinedProperty) := []
  m_CombinedPropID : Int := 0
  m_ActiveDataPropertyId : Int := 0
  m_FileName : String := ""
  m_FileNameShort : String := ""
  m_CustomNickname : String := ""
  m_DefaultNickname : String := ""
  GetMeshDisplayMappingPolicy : Option MeshDisplayMappingPolicy := none
  events : List MeshEvent := []

/-- The call `InvokeEvent`. -/
def MeshWrapperBase.InvokeEvent (w : MeshWrapperBase) (e : MeshEvent) : MeshWrapperBase :=
  { w with events := w.events ++ [e] }

/-- The call `itksys::SystemTools::GetFilenameName`: what follows the last slash. -/
def GetFilenameName (name : String) : String :=
  String.mk ((name.data.reverse.takeWhile (fun c => c ≠ '/')).reverse)

/-- The call `itksys::SystemTools::GetFilenameWithoutExtension`: what precedes the first
dot. -/
def GetFilenameWithoutExtension (name : String) : String :=
  String.mk (name.data.takeWhile (fun c => c ≠ '.'))

namespace MeshWrapperBase

/-- The member function `MeshWrapperBase::GetMesh`: the pointer returned and the wrapper
afterwards; the result is `none` when the assembly pointer of the timepoint is null. -/
def GetMesh (w : MeshWrapperBase) (timepoint : Nat) (id : Nat) :
    Option (Option ObjId × MeshWrapperBase) :=
  if StdMap.count w.m_MeshAssemblyMap timepoint then
    let r := StdMap.index none w.m_MeshAssemblyMap timepoint
    match r.1 with
    | none => none
    | some assembly =>
      let g := (w.m_Assemblies assembly).GetMesh id
      some (g.1, { w with
        m_MeshAssemblyMap := r.2
        m_Assemblies := Function.update w.m_Assemblies assembly g.2 })
  else some (none, w)

/-- The member function `MeshWrapperBase::GetMeshAssembly`: the pointer returned and the
wrapper afterwards. -/
def GetMeshAssembly (w : MeshWrapperBase) (timepoint : Nat) : Option ObjId × MeshWrapperBase :=
  if StdMap.count w.m_MeshAssemblyMap timepoint then
    let r := StdMap.index none w.m_MeshAssemblyMap timepoint
    (r.1, { w with m_MeshAssemblyMap := r.2 })
  else (none, w)

/-- The member function `MeshWrapperBase::SetFileName`. -/
def SetFileName (w : MeshWrapperBase) (name : String) : MeshWrapperBase :=
  InvokeEvent
    { w with
      m_FileName := name
      m_FileNameShort := GetFilenameWithoutExtension (GetFilenameName name) }
    .WrapperMetadataChangeEvent

/-- The member function `MeshWrapperBase::SetCustomNickname`. -/
def SetCustomNickname (w : MeshWrapperBase) (nickname : String) : MeshWrapperBase :=
  InvokeEvent
    (if nickname = w.m_FileNameShort then { w with m_CustomNickname := "" }
     else { w with m_CustomNickname := nickname })
    .WrapperMetadataChangeEvent

/-- The member function `MeshWrapperBase::GetNickname`. -/
def GetNickname (w : MeshWrapperBase) : String :=
  if w.m_CustomNickname.length ≠ 0 then w.m_CustomNickname
  else if w.m_FileName.length ≠ 0 then w.m_FileNameShort
  else w.m_DefaultNickname

/-- The member function `MeshWrapperBase::GetActiveDataArrayProperty`: the pointer
returned and the wrapper afterwards. -/
def GetActiveDataArrayProperty (w : MeshWrapperBase) :
    Option CombinedProperty × MeshWrapperBase :=
  if StdMap.count w.m_CombinedDataPropertyMap w.m_ActiveDataPropertyId then
    let r := StdMap.index none w.m_CombinedDataPropertyMap w.m_ActiveDataPropertyId
    (r.1, { w with m_CombinedDataPropertyMap := r.2 })
  else (none, w)

end MeshWrapperBase

/-- How a call on a mesh wrapper ends: it returns, or it stops at a failed assertion or at
the use of a null pointer; either way the wrapper is in the state given. -/
inductive Outcome where
  | returned (w : MeshWrapperBase)
  | failed (w : MeshWrapperBase)

/-- The wrapper when the call ended. -/
def Outcome.state : Outcome → MeshWrapperBase
  | .returned w => w
  | .failed w => w

/-- Did the call return? -/
def Outcome.isReturned : Outcome → Bool
  | .returned _ => true
  | .failed _ => false

/-- The inner loop of `SetActiveMeshLayerDataPropertyId` over the meshes of an assembly:
the array called `name` becomes the active scalars of the point data (or of the cell data)
of each mesh.  The flag tells whether the loop ran to its end; it stops at a null mesh
pointer and at a wrapper without poly data (the assertion of `GetPolyData`). -/
def setActiveOnMeshes (point : Bool) (name : String) :
    List (Nat × Option ObjId) → (ObjId → PolyDataWrapper) → Bool × (ObjId → PolyDataWrapper)
  | [], ws => (true, ws)
  | polyIt :: rest, ws =>
    match polyIt.2 with
    | none => (false, ws)
    | some mesh =>
      match (ws mesh).m_PolyData with
      | none => (false, ws)
      | some pd =>
        let pd1 : MeshPolyData :=
          if point then { pd with activePointScalars := SetActiveAttribute pd.pointData name }
          else { pd with activeCellScalars := SetActiveAttribute pd.cellData name }
        setActiveOnMeshes point name rest
          (Function.update ws mesh { ws mesh with m_PolyData := some pd1 })

/-- The outer loop of `SetActiveMeshLayerDataPropertyId` over the assemblies. -/
def setActiveOnAssemblies (point : Bool) (name : String) (assemblies : ObjId → MeshAssembly) :
    List (Nat × Option ObjId) → (ObjId → PolyDataWrapper) → Bool × (ObjId → PolyDataWrapper)
  | [], ws => (true, ws)
  | cit :: rest, ws =>
    match cit.2 with
    | none => (false, ws)
    | some assembly =>
      let r := setActiveOnMeshes point name (assemblies assembly).m_Meshes ws
      if r.1 then setActiveOnAssemblies point name assemblies rest r.2 else r

/-- The member function `MeshWrapperBase::SetActiveMeshLayerDataPropertyId`; `NDEBUG` tells
whether the assertions are compiled out. -/
def MeshWrapperBase.SetActiveMeshLayerDataPropertyId (NDEBUG : Bool) (w : MeshWrapperBase)
    (id : Int) : Outcome :=
  if w.m_ActiveDataPropertyId = id then .returned w
  else
    let w1 : MeshWrapperBase := { w with m_ActiveDataPropertyId := id }
    if !NDEBUG && !StdMap.count w1.m_CombinedDataPropertyMap id then .failed w1
    else
      let r := StdMap.index none w1.m_CombinedDataPropertyMap id
      let w2 : MeshWrapperBase := { w1 with m_CombinedDataPropertyMap := r.2 }
      match r.1 with
      | none => .failed w2
      | some prop =>
        let loop : Bool × (ObjId → PolyDataWrapper) :=
          if prop.prop.m_Type = .POINT_DATA then
            setActiveOnAssemblies true prop.prop.m_Name w2.m_Assemblies w2.m_MeshAssemblyMap
              w2.m_PolyDataWrappers
          else if prop.prop.m_Type = .CELL_DATA then
            setActiveOnAssemblies false prop.prop.m_Name w2.m_Assemblies w2.m_MeshAssemblyMap
              w2.m_PolyDataWrappers
          else (true, w2.m_PolyDataWrappers)
        let w3 : MeshWrapperBase := { w2 with m_PolyDataWrappers := loop.2 }
        if !loop.1 then .failed w3
        else
          match w3.GetMeshDisplayMappingPolicy with
          | none => .failed w3
          | some _ =>
            .returned
              ((MeshWrapperBase.InvokeEvent
                  { w3 with
                    GetMeshDisplayMappingPolicy :=
                      some { m_ColorMap := some prop.m_ColorMap,
                             m_IntensityCurve := some prop.m_IntensityCurve } }
                  .WrapperDisplayMappingChangeEvent).InvokeEvent .ModifiedEvent)

/-- A mesh wrapper with one combined property, filed under the id 1 and active. -/
def meshExample : MeshWrapperBase :=
  { m_CombinedDataPropertyMap :=
      [(1, some { prop := MeshLayerDataArrayProperty.Initialize [] curvatureProp,
                  m_ColorMap := 20, m_IntensityCurve := 21 })],
    m_CombinedPropID := 1, m_ActiveDataPropertyId := 1,
    GetMeshDisplayMappingPolicy := some {} }

/-- A mesh assembly with the meshes 30 and 31 under the labels 1 and 2. -/
def assemblyExample : MeshAssembly :=
  (MeshAssembly.AddMesh (MeshAssembly.AddMesh {} (some 30) 1) (some 31) 2)

/-- A mesh wrapper whose file name has been set to `/data/mesh.vtk`. -/
def namedMesh : MeshWrapperBase :=
  MeshWrapperBase.SetFileName { m_DefaultNickname := "Mesh Layer" } "/data/mesh.vtk"

/-! ## Polygon drawing (PolygonDrawingRenderer.cxx) -/

/-- A vertex of the polygon (`PolygonDrawingModel::Vertex`). -/
structure Vertex where
  x : ℚ
  y : ℚ
  selected : Bool := false
  control : Bool := false
  deriving DecidableEq

/-- The call `painter->DrawLine(x1, y1, x2, y2)`. -/
structure DrawLine where
  x1 : ℚ
  y1 : ℚ
  x2 : ℚ
  y2 : ℚ
  deriving DecidableEq

/-- The line segment from the vertex `v` to the vertex `w`. -/
def segment (v w : Vertex) : DrawLine := ⟨v.x, v.y, w.x, w.y⟩

/-- The loop of `PolygonContextItem::DrawVertices` from the iterator `it` on, given the
vertices from `it` to the end of the list and the vertex `first` at `vx.begin()`: the calls
made on the painter. -/
def drawVerticesLoop (first : Vertex) (closed : Bool) : List Vertex → List DrawLine
  | [] => []
  | [it] => if closed then [segment it first] else []
  | it :: itNext :: rest =>
    segment it itNext :: drawVerticesLoop first closed (itNext :: rest)

/-- The member function `PolygonContextItem::DrawVertices`: the calls made on the
painter. -/
def DrawVertices (vx : List Vertex) (closed : Bool) : List DrawLine :=
  match vx with
  | [] => []
  | first :: _ => drawVerticesLoop first closed vx

/-- The segments of a vertex list in the words of the claim: the segments between
consecutive vertices in order, followed, for a closed list with at least one vertex, by
the segment from the last vertex to the first. -/
def polygonSegments (vx : List Vertex) (closed : Bool) : List DrawLine :=
  (vx.zip vx.tail).map (fun p => segment p.1 p.2)
    ++ (if closed then
          match vx.getLast?, vx.head? with
          | some last, some first => [segment last first]
          | _, _ => []
        else [])

/-- A triangle. -/
def triangle : List Vertex := [⟨0, 0, false, true⟩, ⟨4, 0, false, true⟩, ⟨0, 3, false, true⟩]

/-! # Theorems -/

/-! ## Rounding to the nearest floating-point number -/

theorem log2Fuel_spec : ∀ (fuel n : Nat), n ≤ fuel → 0 < n →
    2 ^ log2Fuel fuel n ≤ n ∧ n < 2 ^ (log2Fuel fuel n + 1) := by
  intro fuel
  induction fuel with
  | zero => intro n h1 h2; omega
  | succ f ih =>
    intro n hn hpos
    by_cases h2 : 2 ≤ n
    · have hh := ih (n / 2) (by omega) (by omega)
      simp only [log2Fuel, h2, if_true]
      obtain ⟨a, b⟩ := hh
      rw [pow_succ] at b
      rw [pow_succ, pow_succ, pow_succ]
      generalize 2 ^ log2Fuel f (n / 2) = t at a b
      constructor <;> omega
    · simp only [log2Fuel, h2, if_false]
      constructor <;> simp <;> omega

theorem natLog2_spec (n : Nat) (hn : 0 < n) :
    2 ^ natLog2 n ≤ n ∧ n < 2 ^ (natLog2 n + 1) :=
  log2Fuel_spec n n (le_refl _) hn

theorem quot_bounds (N D : ℚ) (a b : Nat) (hD : 0 < D)
    (a1 : (2 : ℚ) ^ a ≤ N) (a2 : N < (2 : ℚ) ^ (a + 1))
    (b1 : (2 : ℚ) ^ b ≤ D) (b2 : D < (2 : ℚ) ^ (b + 1)) :
    (2 : ℚ) ^ (((a : Int) - (b : Int)) - 1) < N / D
      ∧ N / D < (2 : ℚ) ^ (((a : Int) - (b : Int)) + 1) := by
  have hpa : (0 : ℚ) < (2 : ℚ) ^ a := by positivity
  have hpb : (0 : ℚ) < (2 : ℚ) ^ b := by positivity
  have hpb1 : (0 : ℚ) < (2 : ℚ) ^ (b + 1) := by positivity
  have hN : 0 < N := lt_of_lt_of_le hpa a1
  constructor
  · have he : (2 : ℚ) ^ (((a : Int) - (b : Int)) - 1) = (2 : ℚ) ^ a / (2 : ℚ) ^ (b + 1) := by
      rw [show ((a : Int) - (b : Int)) - 1 = ((a : Nat) : Int) - ((b + 1 : Nat) : Int) by
        push_cast; ring]
      rw [zpow_sub₀ (two_ne_zero), zpow_natCast, zpow_natCast]
    rw [he, div_lt_div_iff₀ hpb1 hD]
    calc (2 : ℚ) ^ a * D < (2 : ℚ) ^ a * (2 : ℚ) ^ (b + 1) := mul_lt_mul_of_pos_left b2 hpa
      _ ≤ N * (2 : ℚ) ^ (b + 1) := mul_le_mul_of_nonneg_right a1 (le_of_lt hpb1)
  · have he : (2 : ℚ) ^ (((a : Int) - (b : Int)) + 1) = (2 : ℚ) ^ (a + 1) / (2 : ℚ) ^ b := by
      rw [show ((a : Int) - (b : Int)) + 1 = ((a + 1 : Nat) : Int) - ((b : Nat) : Int) by
        push_cast; ring]
      rw [zpow_sub₀ (two_ne_zero), zpow_natCast, zpow_natCast]
    rw [he, div_lt_div_iff₀ hD hpb]
    calc N * (2 : ℚ) ^ b ≤ N * D := mul_le_mul_of_nonneg_left b1 (le_of_lt hN)
      _ < (2 : ℚ) ^ (a + 1) * D := mul_lt_mul_of_pos_right a2 hD

theorem ilog2_spec (x : ℚ) (hx : 0 < x) :
    (2 : ℚ) ^ ilog2 x ≤ x ∧ x < (2 : ℚ) ^ (ilog2 x + 1) := by
  have hnum : 0 < x.num := Rat.num_pos.2 hx
  have hN : 0 < x.num.natAbs := Int.natAbs_pos.2 (ne_of_gt hnum)
  have hD : 0 < x.den := x.den_pos
  obtain ⟨a1, a2⟩ := natLog2_spec x.num.natAbs hN
  obtain ⟨b1, b2⟩ := natLog2_spec x.den hD
  have h1 : ((x.num.natAbs : Nat) : ℚ) = (x.num : ℚ) := by
    rw [Nat.cast_natAbs, abs_of_pos hnum]
  have hxeq : (x.num.natAbs : ℚ) / (x.den : ℚ) = x := by
    rw [h1]
    exact Rat.num_div_den x
  have hDq : (0 : ℚ) < (x.den : ℚ) := by exact_mod_cast hD
  have a1q : (2 : ℚ) ^ (natLog2 x.num.natAbs) ≤ (x.num.natAbs : ℚ) := by exact_mod_cast a1
  have a2q : (x.num.natAbs : ℚ) < (2 : ℚ) ^ (natLog2 x.num.natAbs + 1) := by exact_mod_cast a2
  have b1q : (2 : ℚ) ^ (natLog2 x.den) ≤ (x.den : ℚ) := by exact_mod_cast b1
  have b2q : (x.den : ℚ) < (2 : ℚ) ^ (natLog2 x.den + 1) := by exact_mod_cast b2
  have hb := quot_bounds _ _ _ _ hDq a1q a2q b1q b2q
  rw [hxeq] at hb
  obtain ⟨hlow, hup⟩ := hb
  unfold ilog2
  simp only
  by_cases hc : (2 : ℚ) ^ ((natLog2 x.num.natAbs : Int) - (natLog2 x.den : Int)) ≤ x
  · rw [if_pos hc]
    exact ⟨hc, hup⟩
  · rw [if_neg hc]
    refine ⟨le_of_lt hlow, ?_⟩
    rw [sub_add_cancel]
    exact not_le.1 hc

theorem ilog2_lt (x : ℚ) (hx : 0 < x) (k : Int) (h : x < (2 : ℚ) ^ k) : ilog2 x < k := by
  have h1 := (ilog2_spec x hx).1
  exact (zpow_lt_zpow_iff_right₀ (by norm_num : (1 : ℚ) < 2)).1 (lt_of_le_of_lt h1 h)

theorem le_ilog2 (x : ℚ) (hx : 0 < x) (k : Int) (h : (2 : ℚ) ^ k ≤ x) : k ≤ ilog2 x := by
  have h2 := (ilog2_spec x hx).2
  have := (zpow_lt_zpow_iff_right₀ (by norm_num : (1 : ℚ) < 2)).1 (lt_of_le_of_lt h h2)
  omega

theorem ilog2_mono (x y : ℚ) (hx : 0 < x) (hxy : x ≤ y) : ilog2 x ≤ ilog2 y :=
  le_ilog2 y (lt_of_lt_of_le hx hxy) _ (le_trans (ilog2_spec x hx).1 hxy)

theorem floor_le_roundEven (r : ℚ) : ⌊r⌋ ≤ roundEven r := by
  unfold roundEven
  split_ifs <;> omega

theorem roundEven_le_floor_add_one (r : ℚ) : roundEven r ≤ ⌊r⌋ + 1 := by
  unfold roundEven
  split_ifs <;> omega

theorem roundEven_sub_le (r : ℚ) : (roundEven r : ℚ) - r ≤ 1 / 2 := by
  have hf1 : (⌊r⌋ : ℚ) ≤ r := Int.floor_le r
  unfold roundEven
  split_ifs with h1 h2 h3
  · linarith
  · push_cast; linarith
  · linarith
  · push_cast; linarith

theorem sub_roundEven_le (r : ℚ) : r - (roundEven r : ℚ) ≤ 1 / 2 := by
  have hf2 : r < (⌊r⌋ : ℚ) + 1 := Int.lt_floor_add_one r
  unfold roundEven
  split_ifs with h1 h2 h3
  · linarith
  · push_cast; linarith
  · linarith
  · push_cast; linarith

theorem abs_roundEven_sub_le (r : ℚ) : |(roundEven r : ℚ) - r| ≤ 1 / 2 := by
  rw [abs_le]
  constructor
  · have := sub_roundEven_le r
    linarith
  · exact roundEven_sub_le r

theorem roundEven_intCast (n : Int) : roundEven (n : ℚ) = n := by
  unfold roundEven
  simp

theorem roundEven_mono {r s : ℚ} (h : r ≤ s) : roundEven r ≤ roundEven s := by
  have hfl : ⌊r⌋ ≤ ⌊s⌋ := Int.floor_le_floor h
  rcases lt_or_eq_of_le hfl with hlt | hfe
  · have h1 := roundEven_le_floor_add_one r
    have h2 := floor_le_roundEven s
    omega
  · unfold roundEven
    rw [← hfe]
    split_ifs <;> first | omega | (exfalso; linarith)

theorem roundEven_le_of_lt (r : ℚ) (m : Int) (h : r < (m : ℚ) + 1 / 2) : roundEven r ≤ m := by
  have h1 := roundEven_sub_le r
  have h2 : (roundEven r : ℚ) < (m : ℚ) + 1 := by linarith
  have h3 : roundEven r < m + 1 := by exact_mod_cast h2
  omega

theorem roundEven_nonneg {r : ℚ} (h : 0 ≤ r) : 0 ≤ roundEven r := by
  have := roundEven_mono h
  rw [show ((0 : ℚ)) = ((0 : Int) : ℚ) by simp, roundEven_intCast] at this
  exact this

namespace FloatFormat

theorem two_zpow_pos (k : Int) : (0 : ℚ) < (2 : ℚ) ^ k := zpow_pos (by norm_num) k

theorem two_zpow_of_nonneg (k : Int) (hk : 0 ≤ k) :
    (2 : ℚ) ^ k = (((2 : Int) ^ k.toNat : Int) : ℚ) := by
  have h : k = (k.toNat : Int) := (Int.toNat_of_nonneg hk).symm
  rw [Int.cast_pow, Int.cast_ofNat]
  nth_rewrite 1 [h]
  rw [zpow_natCast]

theorem ulp_pos (fmt : FloatFormat) (x : ℚ) : 0 < fmt.ulp x := two_zpow_pos _

theorem round_zero (fmt : FloatFormat) : fmt.round 0 = 0 := by
  simp [round]

theorem round_eq (fmt : FloatFormat) (x : ℚ) (hx : x ≠ 0) :
    fmt.round x = (roundEven (x / fmt.ulp x) : ℚ) * fmt.ulp x := by
  simp [round, hx]

/-- The rounded value is a nearest number of the format: it lies within half a unit in the
last place of the exact value. -/
theorem round_err (fmt : FloatFormat) (x : ℚ) : |fmt.round x - x| ≤ fmt.ulp x / 2 := by
  by_cases hx : x = 0
  · subst hx
    rw [round_zero, sub_zero, abs_zero]
    exact le_of_lt (half_pos (ulp_pos fmt 0))
  · rw [round_eq fmt x hx]
    have hU := ulp_pos fmt x
    have h1 := abs_roundEven_sub_le (x / fmt.ulp x)
    have h2 : (roundEven (x / fmt.ulp x) : ℚ) * fmt.ulp x - x
        = ((roundEven (x / fmt.ulp x) : ℚ) - x / fmt.ulp x) * fmt.ulp x := by
      field_simp
    rw [h2, abs_mul, abs_of_pos hU]
    calc |(roundEven (x / fmt.ulp x) : ℚ) - x / fmt.ulp x| * fmt.ulp x
        ≤ 1 / 2 * fmt.ulp x := mul_le_mul_of_nonneg_right h1 (le_of_lt hU)
      _ = fmt.ulp x / 2 := by ring

/-- Below a power of two the unit in the last place is at most that of the binade under
the power. -/
theorem ulp_le (fmt : FloatFormat) (x : ℚ) (hx : x ≠ 0) (k : Int) (hk : |x| < (2 : ℚ) ^ k)
    (hemin : fmt.emin < k) : fmt.ulp x ≤ (2 : ℚ) ^ (k - (fmt.precision : Int)) := by
  have h1 : ilog2 |x| < k := ilog2_lt |x| (abs_pos.2 hx) k hk
  unfold ulp
  apply zpow_le_zpow_right₀ (by norm_num)
  have : max (ilog2 |x|) fmt.emin < k := max_lt h1 hemin
  omega

theorem round_nonneg (fmt : FloatFormat) (x : ℚ) (hx : 0 ≤ x) : 0 ≤ fmt.round x := by
  by_cases h0 : x = 0
  · rw [h0, round_zero]
  · rw [round_eq fmt x h0]
    have hU := ulp_pos fmt x
    have hq : 0 ≤ x / fmt.ulp x := div_nonneg hx (le_of_lt hU)
    have hn : (0 : ℚ) ≤ (roundEven (x / fmt.ulp x) : ℚ) := by
      exact_mod_cast roundEven_nonneg hq
    exact mul_nonneg hn (le_of_lt hU)

/-- A number with a significand of fewer than `precision` bits, on the grid of the
format, is a number of the format: rounding leaves it as it is. -/
theorem round_of_grid (fmt : FloatFormat) (m j : Int)
    (hm : |m| < (2 : Int) ^ fmt.precision)
    (hj : fmt.emin - (fmt.precision : Int) + 1 ≤ j) :
    fmt.round ((m : ℚ) * (2 : ℚ) ^ j) = (m : ℚ) * (2 : ℚ) ^ j := by
  by_cases hm0 : m = 0
  · subst hm0
    simp [round_zero]
  have hpj := two_zpow_pos j
  have hy : (m : ℚ) * (2 : ℚ) ^ j ≠ 0 :=
    mul_ne_zero (by exact_mod_cast hm0) (ne_of_gt hpj)
  have habs : |(m : ℚ) * (2 : ℚ) ^ j| = |(m : ℚ)| * (2 : ℚ) ^ j := by
    rw [abs_mul, abs_of_pos hpj]
  have hmq : |(m : ℚ)| < (2 : ℚ) ^ ((fmt.precision : Nat) : Int) := by
    rw [zpow_natCast]
    have : ((|m| : Int) : ℚ) < (((2 : Int) ^ fmt.precision : Int) : ℚ) := by exact_mod_cast hm
    rw [Int.cast_abs] at this
    simpa using this
  have hlt : |(m : ℚ) * (2 : ℚ) ^ j| < (2 : ℚ) ^ ((fmt.precision : Int) + j) := by
    rw [habs, zpow_add₀ (two_ne_zero)]
    exact mul_lt_mul_of_pos_right hmq hpj
  have hlog : ilog2 |(m : ℚ) * (2 : ℚ) ^ j| < (fmt.precision : Int) + j :=
    ilog2_lt _ (abs_pos.2 hy) _ hlt
  have ht : max (ilog2 |(m : ℚ) * (2 : ℚ) ^ j|) fmt.emin - (fmt.precision : Int) + 1 ≤ j := by
    have : max (ilog2 |(m : ℚ) * (2 : ℚ) ^ j|) fmt.emin < (fmt.precision : Int) + j :=
      max_lt hlog (by omega)
    omega
  rw [round_eq fmt _ hy]
  unfold ulp
  generalize max (ilog2 |(m : ℚ) * (2 : ℚ) ^ j|) fmt.emin - (fmt.precision : Int) + 1 = t at ht
  have hquot : (m : ℚ) * (2 : ℚ) ^ j / (2 : ℚ) ^ t
      = ((m * (2 : Int) ^ (j - t).toNat : Int) : ℚ) := by
    rw [mul_div_assoc, ← zpow_sub₀ (two_ne_zero), two_zpow_of_nonneg (j - t) (by omega)]
    push_cast
    rfl
  rw [hquot, roundEven_intCast]
  rw [Int.cast_mul, ← two_zpow_of_nonneg (j - t) (by omega), mul_assoc,
    ← zpow_add₀ (two_ne_zero), sub_add_cancel]

theorem round_intCast (fmt : FloatFormat) (k : Int) (hk : |k| < (2 : Int) ^ fmt.precision)
    (hemin : fmt.emin - (fmt.precision : Int) + 1 ≤ 0) : fmt.round (k : ℚ) = (k : ℚ) := by
  have h := round_of_grid fmt k 0 hk hemin
  simpa using h

end FloatFormat

namespace FloatFormat

theorem two_pow_cast (n : Nat) : (((2 : Int) ^ n : Int) : ℚ) = (2 : ℚ) ^ (n : Int) := by
  rw [zpow_natCast]
  push_cast
  rfl

theorem abs_div_ulp_lt (fmt : FloatFormat) (x : ℚ) (hx : x ≠ 0) :
    |x| / fmt.ulp x < (2 : ℚ) ^ (fmt.precision : Int) := by
  obtain ⟨_, h2⟩ := ilog2_spec |x| (abs_pos.2 hx)
  have hE : ilog2 |x| + 1 ≤ max (ilog2 |x|) fmt.emin + 1 := by
    have := le_max_left (ilog2 |x|) fmt.emin
    omega
  have h3 : (2 : ℚ) ^ (ilog2 |x| + 1) ≤ (2 : ℚ) ^ (max (ilog2 |x|) fmt.emin + 1) :=
    zpow_le_zpow_right₀ (by norm_num) hE
  rw [div_lt_iff₀ (ulp_pos fmt x)]
  unfold ulp
  rw [← zpow_add₀ (two_ne_zero)]
  have he : (fmt.precision : Int) + (max (ilog2 |x|) fmt.emin - (fmt.precision : Int) + 1)
      = max (ilog2 |x|) fmt.emin + 1 := by ring
  rw [he]
  exact lt_of_lt_of_le h2 h3

/-- The significand of a rounded value has at most `precision` bits, the carry into the
next binade included. -/
theorem abs_roundEven_div_ulp_le (fmt : FloatFormat) (x : ℚ) (hx : x ≠ 0) :
    |roundEven (x / fmt.ulp x)| ≤ (2 : Int) ^ fmt.precision := by
  have h := abs_div_ulp_lt fmt x hx
  have hU := ulp_pos fmt x
  have habs : |x / fmt.ulp x| = |x| / fmt.ulp x := by rw [abs_div, abs_of_pos hU]
  rw [← habs, ← two_pow_cast] at h
  obtain ⟨h1, h2⟩ := abs_lt.1 h
  rw [abs_le]
  constructor
  · have := roundEven_mono (le_of_lt h1)
    rw [← Int.cast_neg, roundEven_intCast] at this
    exact this
  · have := roundEven_mono (le_of_lt h2)
    rwa [roundEven_intCast] at this

/-- As `round_of_grid`, the significand `2 ^ precision` included. -/
theorem round_of_grid_le (fmt : FloatFormat) (hp : 1 ≤ fmt.precision) (m j : Int)
    (hm : |m| ≤ (2 : Int) ^ fmt.precision)
    (hj : fmt.emin - (fmt.precision : Int) + 1 ≤ j) :
    fmt.round ((m : ℚ) * (2 : ℚ) ^ j) = (m : ℚ) * (2 : ℚ) ^ j := by
  rcases lt_or_eq_of_le hm with hlt | heq
  · exact round_of_grid fmt m j hlt hj
  · obtain ⟨q, hq⟩ : ∃ q, fmt.precision = q + 1 := ⟨fmt.precision - 1, by omega⟩
    have h2 : (2 : Int) ^ fmt.precision = 2 * (2 : Int) ^ q := by rw [hq, pow_succ]; ring
    have hq0 : (0 : Int) < (2 : Int) ^ q := by positivity
    have hm2 : ∃ m1 : Int, m = 2 * m1 ∧ |m1| < (2 : Int) ^ fmt.precision := by
      rcases abs_cases m with ⟨ha, _⟩ | ⟨ha, _⟩
      · refine ⟨(2 : Int) ^ q, by omega, ?_⟩
        rw [abs_of_pos hq0]
        omega
      · refine ⟨-(2 : Int) ^ q, by omega, ?_⟩
        rw [abs_neg, abs_of_pos hq0]
        omega
    obtain ⟨m1, hm1, hlt1⟩ := hm2
    have hre : (m : ℚ) * (2 : ℚ) ^ j = (m1 : ℚ) * (2 : ℚ) ^ (j + 1) := by
      rw [hm1, zpow_add₀ (two_ne_zero), zpow_one]
      push_cast
      ring
    rw [hre]
    exact round_of_grid fmt m1 (j + 1) hlt1 (by omega)

/-- A number of the format `f` is a number of every format `g` that has at least the
precision and reaches at least as far down. -/
theorem round_round_of_le (f g : FloatFormat) (hp : 1 ≤ f.precision)
    (hpg : f.precision ≤ g.precision)
    (he : g.emin - (g.precision : Int) ≤ f.emin - (f.precision : Int)) (x : ℚ) :
    g.round (f.round x) = f.round x := by
  by_cases hx : x = 0
  · rw [hx, round_zero, round_zero]
  · rw [round_eq f x hx]
    have hn := abs_roundEven_div_ulp_le f x hx
    have hle : (2 : Int) ^ f.precision ≤ (2 : Int) ^ g.precision :=
      pow_le_pow_right₀ (by norm_num) hpg
    unfold ulp
    apply round_of_grid_le g (le_trans hp hpg) _ _ (le_trans hn hle)
    have := le_max_right (ilog2 |x|) f.emin
    omega

/-- Rounding is idempotent. -/
theorem round_round (fmt : FloatFormat) (hp : 1 ≤ fmt.precision) (x : ℚ) :
    fmt.round (fmt.round x) = fmt.round x :=
  round_round_of_le fmt fmt hp (le_refl _) (le_refl _) x

/-- A positive number rounds to at most the power of two above its binade. -/
theorem round_le_two_zpow (fmt : FloatFormat) (x : ℚ) (hx : 0 < x) :
    fmt.round x ≤ (2 : ℚ) ^ (max (ilog2 |x|) fmt.emin + 1) := by
  have hx0 : x ≠ 0 := ne_of_gt hx
  have hn := (abs_le.1 (abs_roundEven_div_ulp_le fmt x hx0)).2
  have hnq : (roundEven (x / fmt.ulp x) : ℚ) ≤ (2 : ℚ) ^ (fmt.precision : Int) := by
    rw [← two_pow_cast]
    exact_mod_cast hn
  rw [round_eq fmt x hx0]
  have he : (2 : ℚ) ^ (max (ilog2 |x|) fmt.emin + 1)
      = (2 : ℚ) ^ (fmt.precision : Int) * fmt.ulp x := by
    unfold ulp
    rw [← zpow_add₀ (two_ne_zero)]
    congr 1
    ring
  rw [he]
  exact mul_le_mul_of_nonneg_right hnq (le_of_lt (ulp_pos fmt x))

/-- A positive number of the normal range rounds to at least the power of two at the
bottom of its binade. -/
theorem two_zpow_le_round (fmt : FloatFormat) (hp : 1 ≤ fmt.precision) (x : ℚ) (hx : 0 < x)
    (hn : fmt.emin ≤ ilog2 |x|) : (2 : ℚ) ^ (ilog2 |x|) ≤ fmt.round x := by
  have hx0 : x ≠ 0 := ne_of_gt hx
  have hU := ulp_pos fmt x
  have hmax : max (ilog2 |x|) fmt.emin = ilog2 |x| := max_eq_left hn
  obtain ⟨q, hq⟩ : ∃ q, fmt.precision = q + 1 := ⟨fmt.precision - 1, by omega⟩
  have hUe : fmt.ulp x = (2 : ℚ) ^ (ilog2 |x| - (q : Int)) := by
    unfold ulp
    rw [hmax, hq]
    congr 1
    push_cast
    ring
  have hlow : (2 : ℚ) ^ (ilog2 |x|) ≤ x := by
    have := (ilog2_spec |x| (abs_pos.2 hx0)).1
    exact le_trans this (le_of_eq (abs_of_pos hx))
  have hquot : (((2 : Int) ^ q : Int) : ℚ) ≤ x / fmt.ulp x := by
    rw [le_div_iff₀ hU, hUe, two_pow_cast, ← zpow_add₀ (two_ne_zero)]
    have : (q : Int) + (ilog2 |x| - (q : Int)) = ilog2 |x| := by ring
    rw [this]
    exact hlow
  have hr := roundEven_mono hquot
  rw [roundEven_intCast] at hr
  have hrq : (2 : ℚ) ^ (q : Int) ≤ (roundEven (x / fmt.ulp x) : ℚ) := by
    rw [← two_pow_cast]
    exact_mod_cast hr
  rw [round_eq fmt x hx0]
  have he : (2 : ℚ) ^ (ilog2 |x|) = (2 : ℚ) ^ (q : Int) * fmt.ulp x := by
    rw [hUe, ← zpow_add₀ (two_ne_zero)]
    congr 1
    ring
  rw [he]
  exact mul_le_mul_of_nonneg_right hrq (le_of_lt hU)

/-- Rounding is monotone on the non-negative numbers. -/
theorem round_mono (fmt : FloatFormat) (hp : 1 ≤ fmt.precision) (x y : ℚ) (hx : 0 ≤ x)
    (hxy : x ≤ y) : fmt.round x ≤ fmt.round y := by
  rcases eq_or_lt_of_le hx with h0 | hpos
  · rw [← h0, round_zero]
    exact round_nonneg fmt y (le_trans hx hxy)
  have hypos : 0 < y := lt_of_lt_of_le hpos hxy
  have hlog : ilog2 |x| ≤ ilog2 |y| := by
    rw [abs_of_pos hpos, abs_of_pos hypos]
    exact ilog2_mono x y hpos hxy
  rcases eq_or_lt_of_le (max_le_max hlog (le_refl fmt.emin)) with heq | hlt
  · have hU : fmt.ulp x = fmt.ulp y := by
      unfold ulp
      rw [heq]
    rw [round_eq fmt x (ne_of_gt hpos), round_eq fmt y (ne_of_gt hypos), hU]
    have hUy := ulp_pos fmt y
    have hq : x / fmt.ulp y ≤ y / fmt.ulp y := div_le_div_of_nonneg_right hxy (le_of_lt hUy)
    have hr : (roundEven (x / fmt.ulp y) : ℚ) ≤ (roundEven (y / fmt.ulp y) : ℚ) := by
      exact_mod_cast roundEven_mono hq
    exact mul_le_mul_of_nonneg_right hr (le_of_lt hUy)
  · have hn : fmt.emin ≤ ilog2 |y| := by
      rcases le_total (ilog2 |y|) fmt.emin with h | h
      · exfalso
        rw [max_eq_right h] at hlt
        have := le_max_right (ilog2 |x|) fmt.emin
        omega
      · exact h
    have h1 := round_le_two_zpow fmt x hpos
    have h2 := two_zpow_le_round fmt hp y hypos hn
    have h3 : (2 : ℚ) ^ (max (ilog2 |x|) fmt.emin + 1) ≤ (2 : ℚ) ^ (ilog2 |y|) := by
      apply zpow_le_zpow_right₀ (by norm_num)
      rw [max_eq_left hn] at hlt
      omega
    linarith

/-- The value rounds to a finite number when the rounded magnitude is below the overflow
threshold of the format. -/
theorem ofRat_eq_finite (fmt : FloatFormat) (x : ℚ)
    (h : |fmt.round x| < (2 : ℚ) ^ (fmt.emax + 1)) : fmt.ofRat x = .finite (fmt.round x) := by
  unfold ofRat
  rw [if_neg (not_le.2 h)]

end FloatFormat

namespace FloatFormat

/-- The rounding error below a power of two. -/
theorem round_err_le (fmt : FloatFormat) (x : ℚ) (k : Int) (hk : |x| < (2 : ℚ) ^ k)
    (hemin : fmt.emin < k) :
    |fmt.round x - x| ≤ (2 : ℚ) ^ (k - (fmt.precision : Int)) / 2 := by
  by_cases hx : x = 0
  · rw [hx, round_zero, sub_zero, abs_zero]
    exact le_of_lt (half_pos (two_zpow_pos _))
  · have h1 := round_err fmt x
    have h2 := ulp_le fmt x hx k hk hemin
    linarith

/-- An integer of fewer than `precision` bits converts to itself. -/
theorem ofInt_eq_finite (fmt : FloatFormat) (k : Int) (hk : |k| < (2 : Int) ^ fmt.precision)
    (hemin : fmt.emin - (fmt.precision : Int) + 1 ≤ 0)
    (hemax : (fmt.precision : Int) ≤ fmt.emax + 1) : fmt.ofInt k = .finite (k : ℚ) := by
  have hr := round_intCast fmt k hk hemin
  unfold ofInt
  rw [ofRat_eq_finite, hr]
  rw [hr]
  have h1 : |(k : ℚ)| < (2 : ℚ) ^ (fmt.precision : Int) := by
    rw [← two_pow_cast, ← Int.cast_abs]
    exact_mod_cast hk
  exact lt_of_lt_of_le h1 (zpow_le_zpow_right₀ (by norm_num) hemax)

theorem format_ofInt (t : FloatType) (k : Int) (hk : |k| < (2 : Int) ^ 24) :
    t.format.ofInt k = .finite (k : ℚ) := by
  cases t
  · exact ofInt_eq_finite binary32 k hk (by decide) (by decide)
  · exact ofInt_eq_finite binary64 k
      (lt_of_lt_of_le hk (by norm_num [binary64])) (by decide) (by decide)

/-- A `float` or a `double` converts to `double` without a change. -/
theorem convert_ofRat (t : FloatType) (x : ℚ) :
    binary64.convert (t.format.ofRat x) = t.format.ofRat x := by
  unfold ofRat
  split_ifs with h
  · rfl
  · have hlt := not_le.1 h
    have hrr : binary64.round (t.format.round x) = t.format.round x := by
      cases t
      · exact round_round_of_le binary32 binary64 (by decide) (by decide) (by decide) x
      · exact round_round binary64 (by decide) x
    have hmax : (2 : ℚ) ^ (t.format.emax + 1) ≤ (2 : ℚ) ^ (binary64.emax + 1) := by
      apply zpow_le_zpow_right₀ (by norm_num)
      cases t <;> decide
    show binary64.ofRat (t.format.round x) = _
    rw [ofRat_eq_finite, hrr]
    rw [hrr]
    exact lt_of_lt_of_le hlt hmax

theorem binary64_round_one : binary64.round 1 = 1 := by
  have := round_intCast binary64 1 (by decide) (by decide)
  simpa using this

theorem binary64_round_half : binary64.round (1 / 2) = 1 / 2 := by
  have := round_of_grid binary64 1 (-1) (by decide) (by decide)
  norm_num at this
  exact this

/-- A number of the unit interval rounds into the unit interval, to a finite `double`. -/
theorem binary64_unit (x : ℚ) (h0 : 0 ≤ x) (h1 : x ≤ 1) :
    0 ≤ binary64.round x ∧ binary64.round x ≤ 1
      ∧ binary64.ofRat x = .finite (binary64.round x) := by
  have hn := round_nonneg binary64 x h0
  have hle : binary64.round x ≤ 1 := by
    have := round_mono binary64 (by decide) x 1 h0 h1
    rwa [binary64_round_one] at this
  refine ⟨hn, hle, ofRat_eq_finite binary64 x ?_⟩
  rw [abs_of_nonneg hn]
  exact lt_of_le_of_lt hle (by norm_num [binary64])

theorem binary64_err_unit (x : ℚ) (h0 : 0 ≤ x) (h1 : x ≤ 1) :
    |binary64.round x - x| ≤ 1 / 2 ^ 54 := by
  rcases eq_or_lt_of_le h1 with h | h
  · rw [h, binary64_round_one]
    norm_num
  · have := round_err_le binary64 x 0 (by rw [abs_of_nonneg h0]; simpa using h) (by decide)
    have he : (2 : ℚ) ^ ((0 : Int) - ((binary64.precision : Nat) : Int)) / 2 = 1 / 2 ^ 54 := by
      norm_num [binary64, zpow_neg]
    linarith

theorem binary64_err_half (x : ℚ) (h0 : 0 ≤ x) (h1 : x < 1 / 2) :
    |binary64.round x - x| ≤ 1 / 2 ^ 55 := by
  have := round_err_le binary64 x (-1)
    (by rw [abs_of_nonneg h0]; norm_num [zpow_neg]; linarith) (by decide)
  have he : (2 : ℚ) ^ ((-1 : Int) - ((binary64.precision : Nat) : Int)) / 2 = 1 / 2 ^ 55 := by
    norm_num [binary64, zpow_neg]
  linarith

theorem binary64_err_two (x : ℚ) (h0 : 0 ≤ x) (h1 : x < 2) :
    |binary64.round x - x| ≤ 1 / 2 ^ 53 := by
  have := round_err_le binary64 x 1
    (by rw [abs_of_nonneg h0]; simpa using h1) (by decide)
  have he : (2 : ℚ) ^ ((1 : Int) - ((binary64.precision : Nat) : Int)) / 2 = 1 / 2 ^ 53 := by
    norm_num [binary64, zpow_neg]
  linarith

/-- A number below the midpoint of 1 and the next `double` rounds to at most 1. -/
theorem binary64_round_le_one (y : ℚ) (h0 : 0 ≤ y) (h1 : y < 1 + 1 / 2 ^ 53) :
    binary64.round y ≤ 1 := by
  rcases le_or_lt y 1 with hle | hgt
  · exact (binary64_unit y h0 hle).2.1
  · have hy0 : y ≠ 0 := by linarith
    have habs : |y| = y := abs_of_nonneg h0
    have hlog : ilog2 |y| = 0 := by
      rw [habs]
      have hpos : 0 < y := by linarith
      have ha := le_ilog2 y hpos 0 (by simpa using le_of_lt hgt)
      have hb := ilog2_lt y hpos 1 (by norm_num; linarith)
      omega
    have hU : binary64.ulp y = 1 / 2 ^ 52 := by
      unfold ulp
      rw [hlog]
      norm_num [binary64, zpow_neg]
    rw [round_eq binary64 y hy0, hU]
    have hq : y / (1 / 2 ^ 52) < (((2 : Int) ^ 52 : Int) : ℚ) + 1 / 2 := by
      rw [div_lt_iff₀ (by norm_num)]
      push_cast
      linarith
    have hr := roundEven_le_of_lt _ _ hq
    have hrq : (roundEven (y / (1 / 2 ^ 52)) : ℚ) ≤ 2 ^ 52 := by exact_mod_cast hr
    calc (roundEven (y / (1 / 2 ^ 52)) : ℚ) * (1 / 2 ^ 52)
        ≤ 2 ^ 52 * (1 / 2 ^ 52) := mul_le_mul_of_nonneg_right hrq (by norm_num)
      _ = 1 := by norm_num

end FloatFormat

/-- The entries of `rel_pos` along one axis, for a rectangle inside a window of positive
size below 2^32: both are finite; the lower one is the `double` nearest to `pos / szWin`,
the upper one the `double` nearest to the sum of the lower one and the `double` nearest
to `size / szWin`; both lie in the unit interval in this order, within 2^-54 and 2^-52 of
the exact quotients. -/
theorem relPosAxis_spec (pos size szWin : Nat) (hW : 0 < szWin) (hW32 : szWin < 2 ^ 32)
    (h : pos + size ≤ szWin) :
    relPosAxis pos size szWin
        = (.finite (binary64.round ((pos : ℚ) / (szWin : ℚ))),
           .finite (binary64.round (binary64.round ((pos : ℚ) / (szWin : ℚ))
              + binary64.round ((size : ℚ) / (szWin : ℚ)))))
      ∧ 0 ≤ binary64.round ((pos : ℚ) / (szWin : ℚ))
      ∧ binary64.round ((pos : ℚ) / (szWin : ℚ))
          ≤ binary64.round (binary64.round ((pos : ℚ) / (szWin : ℚ))
              + binary64.round ((size : ℚ) / (szWin : ℚ)))
      ∧ binary64.round (binary64.round ((pos : ℚ) / (szWin : ℚ))
              + binary64.round ((size : ℚ) / (szWin : ℚ))) ≤ 1
      ∧ |binary64.round ((pos : ℚ) / (szWin : ℚ)) - (pos : ℚ) / (szWin : ℚ)| ≤ 1 / 2 ^ 54
      ∧ |binary64.round (binary64.round ((pos : ℚ) / (szWin : ℚ))
              + binary64.round ((size : ℚ) / (szWin : ℚ)))
            - ((pos : ℚ) + (size : ℚ)) / (szWin : ℚ)| ≤ 1 / 2 ^ 52 := by
  have hWq : (0 : ℚ) < (szWin : ℚ) := by exact_mod_cast hW
  have hsum : (pos : ℚ) + (size : ℚ) ≤ (szWin : ℚ) := by exact_mod_cast h
  have hp0 : (0 : ℚ) ≤ (pos : ℚ) := Nat.cast_nonneg _
  have hs0 : (0 : ℚ) ≤ (size : ℚ) := Nat.cast_nonneg _
  have hconv : ∀ n : Nat, n ≤ szWin →
      binary64.mul (binary64.ofInt (n : Int)) (.finite 1) = .finite (n : ℚ) := by
    intro n hn
    have hk : |(n : Int)| < (2 : Int) ^ binary64.precision := by
      rw [abs_of_nonneg (Int.natCast_nonneg n)]
      have : (n : Int) < 2 ^ 32 := by exact_mod_cast lt_of_le_of_lt hn hW32
      exact lt_of_lt_of_le this (by norm_num [binary64])
    have h1 := FloatFormat.ofInt_eq_finite binary64 (n : Int) hk (by decide) (by decide)
    have h2 : binary64.ofRat ((n : Int) : ℚ) = .finite ((n : Int) : ℚ) := h1
    rw [h1]
    show binary64.ofRat (((n : Int) : ℚ) * 1) = _
    rw [mul_one, h2, Int.cast_natCast]
  generalize ha : (pos : ℚ) / (szWin : ℚ) = a
  generalize hb : (size : ℚ) / (szWin : ℚ) = b
  have ha0 : 0 ≤ a := by rw [← ha]; exact div_nonneg hp0 (le_of_lt hWq)
  have hb0 : 0 ≤ b := by rw [← hb]; exact div_nonneg hs0 (le_of_lt hWq)
  have hab : a + b ≤ 1 := by
    rw [← ha, ← hb, ← add_div]
    exact (div_le_one hWq).2 hsum
  have hab' : ((pos : ℚ) + (size : ℚ)) / (szWin : ℚ) = a + b := by
    rw [← ha, ← hb, add_div]
  have ha1 : a ≤ 1 := by linarith
  have hb1 : b ≤ 1 := by linarith
  obtain ⟨hra0, hra1, hfa⟩ := FloatFormat.binary64_unit a ha0 ha1
  obtain ⟨hrb0, hrb1, hfb⟩ := FloatFormat.binary64_unit b hb0 hb1
  have hea := FloatFormat.binary64_err_unit a ha0 ha1
  have heb := FloatFormat.binary64_err_unit b hb0 hb1
  have hs0' : 0 ≤ binary64.round a + binary64.round b := by linarith
  -- the sum of the two rounded quotients stays below the midpoint above 1
  have hslt : binary64.round a + binary64.round b < 1 + 1 / 2 ^ 53 := by
    rcases le_or_lt a (1 / 2) with hale | hagt
    · rcases le_or_lt b (1 / 2) with hble | hbgt
      · have h1 := FloatFormat.round_mono binary64 (by decide) a (1 / 2) ha0 hale
        have h2 := FloatFormat.round_mono binary64 (by decide) b (1 / 2) hb0 hble
        rw [FloatFormat.binary64_round_half] at h1 h2
        have : (0 : ℚ) < 1 / 2 ^ 53 := by norm_num
        linarith
      · have halt : a < 1 / 2 := by linarith
        have hea' := FloatFormat.binary64_err_half a ha0 halt
        have e1 := (abs_le.1 hea').2
        have e2 := (abs_le.1 heb).2
        have : (1 : ℚ) / 2 ^ 55 + 1 / 2 ^ 54 < 1 / 2 ^ 53 := by norm_num
        linarith
    · have hblt : b < 1 / 2 := by linarith
      have heb' := FloatFormat.binary64_err_half b hb0 hblt
      have e1 := (abs_le.1 hea).2
      have e2 := (abs_le.1 heb').2
      have : (1 : ℚ) / 2 ^ 54 + 1 / 2 ^ 55 < 1 / 2 ^ 53 := by norm_num
      linarith
  have hhi1 := FloatFormat.binary64_round_le_one _ hs0' hslt
  have hhi0 := FloatFormat.round_nonneg binary64 _ hs0'
  have hlohi : binary64.round a ≤ binary64.round (binary64.round a + binary64.round b) := by
    have := FloatFormat.round_mono binary64 (by decide) (binary64.round a)
      (binary64.round a + binary64.round b) hra0 (by linarith)
    rwa [FloatFormat.round_round binary64 (by decide)] at this
  have hfs : binary64.ofRat (binary64.round a + binary64.round b)
      = .finite (binary64.round (binary64.round a + binary64.round b)) := by
    apply FloatFormat.ofRat_eq_finite
    rw [abs_of_nonneg hhi0]
    exact lt_of_le_of_lt hhi1 (by norm_num [binary64])
  have hes := FloatFormat.binary64_err_two _ hs0'
    (lt_trans hslt (by norm_num))
  refine ⟨?_, hra0, hlohi, hhi1, hea, ?_⟩
  · have hWne : (szWin : ℚ) ≠ 0 := ne_of_gt hWq
    unfold relPosAxis
    rw [hconv pos (by omega), hconv size (by omega)]
    have hWc : binary64.ofInt (szWin : Int) = .finite (szWin : ℚ) := by
      have := hconv szWin (le_refl _)
      have hk : |(szWin : Int)| < (2 : Int) ^ binary64.precision := by
        rw [abs_of_nonneg (Int.natCast_nonneg szWin)]
        have : (szWin : Int) < 2 ^ 32 := by exact_mod_cast hW32
        exact lt_of_lt_of_le this (by norm_num [binary64])
      have h1 := FloatFormat.ofInt_eq_finite binary64 (szWin : Int) hk (by decide) (by decide)
      rw [h1, Int.cast_natCast]
    rw [hWc]
    have hd1 : binary64.div (.finite (pos : ℚ)) (.finite (szWin : ℚ))
        = .finite (binary64.round a) := by
      show (if (szWin : ℚ) = 0 then _ else binary64.ofRat ((pos : ℚ) / (szWin : ℚ))) = _
      rw [if_neg hWne, ha, hfa]
    have hd2 : binary64.div (.finite (size : ℚ)) (.finite (szWin : ℚ))
        = .finite (binary64.round b) := by
      show (if (szWin : ℚ) = 0 then _ else binary64.ofRat ((size : ℚ) / (szWin : ℚ))) = _
      rw [if_neg hWne, hb, hfb]
    simp only [hd1, hd2]
    show (FloatValue.finite (binary64.round a),
      binary64.ofRat (binary64.round a + binary64.round b)) = _
    rw [hfs]
  · rw [hab']
    have e1 := abs_le.1 hea
    have e2 := abs_le.1 heb
    have e3 := abs_le.1 hes
    rw [abs_le]
    have : (1 : ℚ) / 2 ^ 53 + 1 / 2 ^ 54 + 1 / 2 ^ 54 = 1 / 2 ^ 52 := by norm_num
    constructor <;> linarith [e1.1, e1.2, e2.1, e2.2, e3.1, e3.2]

/-! ## The ordered map -/

namespace StdMap

variable {κ ν : Type}

theorem find_assign_self [LinearOrder κ] (m : StdMap κ ν) (k : κ) (v : ν) :
    find (assign m k v) k = some v := by
  induction m with
  | nil => simp [assign, find]
  | cons hd tl ih =>
    obtain ⟨k0, v0⟩ := hd
    simp only [assign]
    split_ifs with h1 h2
    · simp [find]
    · simp [find]
    · simp only [find]
      rw [if_neg (fun h => h2 h.symm)]
      exact ih

theorem find_assign_ne [LinearOrder κ] (m : StdMap κ ν) (k x : κ) (v : ν) (h : x ≠ k) :
    find (assign m k v) x = find m x := by
  induction m with
  | nil => simp [assign, find, Ne.symm h]
  | cons hd tl ih =>
    obtain ⟨k0, v0⟩ := hd
    simp only [assign]
    split_ifs with h1 h2
    · simp [find, Ne.symm h]
    · subst h2
      simp [find, Ne.symm h]
    · simp only [find]
      rw [ih]

theorem mem_keys_assign [LinearOrder κ] (m : StdMap κ ν) (k x : κ) (v : ν) :
    x ∈ keys (assign m k v) ↔ x = k ∨ x ∈ keys m := by
  induction m with
  | nil => simp [assign, keys]
  | cons hd tl ih =>
    obtain ⟨k0, v0⟩ := hd
    simp only [assign]
    split_ifs with h1 h2
    · simp [keys]
    · subst h2
      simp [keys]
    · have ih' : x ∈ List.map Prod.fst (assign tl k v) ↔ x = k ∨ x ∈ List.map Prod.fst tl := ih
      simp only [keys, List.map_cons, List.mem_cons, ih']
      tauto

theorem keys_assign_sorted [LinearOrder κ] (m : StdMap κ ν) (k : κ) (v : ν)
    (hm : (keys m).Pairwise (· < ·)) : (keys (assign m k v)).Pairwise (· < ·) := by
  induction m with
  | nil => simp [assign, keys]
  | cons hd tl ih =>
    obtain ⟨k0, v0⟩ := hd
    have hm' : (∀ y ∈ keys tl, k0 < y) ∧ (keys tl).Pairwise (· < ·) := by
      simpa [keys] using hm
    simp only [assign]
    split_ifs with h1 h2
    · have : keys ((k, v) :: (k0, v0) :: tl) = k :: keys ((k0, v0) :: tl) := rfl
      rw [this, List.pairwise_cons]
      refine ⟨?_, hm⟩
      intro y hy
      have hy' : y = k0 ∨ y ∈ keys tl := by simpa [keys] using hy
      rcases hy' with rfl | hy'
      · exact h1
      · exact lt_trans h1 (hm'.1 y hy')
    · subst h2
      exact hm
    · have : keys ((k0, v0) :: assign tl k v) = k0 :: keys (assign tl k v) := rfl
      rw [this, List.pairwise_cons]
      refine ⟨?_, ih hm'.2⟩
      intro y hy
      rcases (mem_keys_assign tl k y v).1 hy with rfl | hy'
      · exact lt_of_le_of_ne (not_lt.1 h1) (fun h => h2 h.symm)
      · exact hm'.1 y hy'

theorem find_isSome_iff [DecidableEq κ] (m : StdMap κ ν) (k : κ) :
    (find m k).isSome = true ↔ k ∈ keys m := by
  induction m with
  | nil => simp [find, keys]
  | cons hd tl ih =>
    obtain ⟨k0, v0⟩ := hd
    have ih' : (find tl k).isSome = true ↔ k ∈ List.map Prod.fst tl := ih
    simp only [find, keys, List.map_cons, List.mem_cons]
    split_ifs with h
    · simp [h]
    · rw [ih']
      constructor
      · exact Or.inr
      · rintro (h' | h')
        · exact absurd h'.symm h
        · exact h'

theorem find_eq_none_iff [DecidableEq κ] (m : StdMap κ ν) (k : κ) :
    find m k = none ↔ k ∉ keys m := by
  rw [← find_isSome_iff]
  cases find m k <;> simp

theorem mem_of_find [DecidableEq κ] (m : StdMap κ ν) (k : κ) (v : ν)
    (h : find m k = some v) : (k, v) ∈ m := by
  induction m with
  | nil => simp [find] at h
  | cons hd tl ih =>
    obtain ⟨k0, v0⟩ := hd
    simp only [find] at h
    split_ifs at h with h1
    · simp only [Option.some.injEq] at h
      subst h1; subst h
      exact List.mem_cons_self _ _
    · exact List.mem_cons_of_mem _ (ih h)

theorem assign_perm [LinearOrder κ] (m : StdMap κ ν) (k : κ) (v : ν) (hk : k ∉ keys m) :
    List.Perm (assign m k v) ((k, v) :: m) := by
  induction m with
  | nil => simp [assign]
  | cons hd tl ih =>
    obtain ⟨k0, v0⟩ := hd
    have hk' : k ≠ k0 ∧ k ∉ keys tl := by simpa [keys] using hk
    simp only [assign]
    split_ifs with h1 h2
    · exact List.Perm.refl _
    · exact absurd h2 hk'.1
    · exact ((ih hk'.2).cons (k0, v0)).trans (List.Perm.swap _ _ _)

end StdMap

/-! ## Reconciliation of the texture assemblies -/

theorem newLayerTextureAssembly_maps (model : GenericSliceModel) (layer : Layer)
    (s : GenericSliceRenderer) :
    (newLayerTextureAssembly model layer s).2.m_LayerTextureAssemblies
        = s.m_LayerTextureAssemblies
      ∧ (newLayerTextureAssembly model layer s).2.m_BaseLayerAssemblies
        = s.m_BaseLayerAssemblies
      ∧ (newLayerTextureAssembly model layer s).2.m_NextObject = s.m_NextObject + 6 :=
  ⟨rfl, rfl, rfl⟩

theorem textureAssemblyLoop_maps (model : GenericSliceModel) (ls : List Layer) :
    ∀ (acc : StdMap Nat LayerTextureAssembly) (s : GenericSliceRenderer),
      (textureAssemblyLoop model ls acc s).2.m_LayerTextureAssemblies
          = s.m_LayerTextureAssemblies
        ∧ (textureAssemblyLoop model ls acc s).2.m_BaseLayerAssemblies
          = s.m_BaseLayerAssemblies := by
  induction ls with
  | nil => intro acc s; exact ⟨rfl, rfl⟩
  | cons layer rest ih =>
    intro acc s
    simp only [textureAssemblyLoop]
    cases h : StdMap.find s.m_LayerTextureAssemblies layer.GetUniqueId with
    | some existing => exact ih _ _
    | none => exact ih _ _

theorem textureAssemblyLoop_keys (model : GenericSliceModel) (ls : List Layer) :
    ∀ (acc : StdMap Nat LayerTextureAssembly) (s : GenericSliceRenderer) (x : Nat),
      x ∈ StdMap.keys (textureAssemblyLoop model ls acc s).1
        ↔ x ∈ StdMap.keys acc ∨ ∃ l ∈ ls, l.GetUniqueId = x := by
  induction ls with
  | nil => intro acc s x; simp [textureAssemblyLoop]
  | cons layer rest ih =>
    intro acc s x
    simp only [textureAssemblyLoop]
    cases h : StdMap.find s.m_LayerTextureAssemblies layer.GetUniqueId with
    | some existing =>
      simp only [ih, StdMap.mem_keys_assign, List.mem_cons, exists_eq_or_imp]
      constructor
      · rintro ((h1 | h1) | h1)
        · exact Or.inr (Or.inl h1.symm)
        · exact Or.inl h1
        · exact Or.inr (Or.inr h1)
      · rintro (h1 | h1 | h1)
        · exact Or.inl (Or.inr h1)
        · exact Or.inl (Or.inl h1.symm)
        · exact Or.inr h1
    | none =>
      simp only [ih, StdMap.mem_keys_assign, List.mem_cons, exists_eq_or_imp]
      constructor
      · rintro ((h1 | h1) | h1)
        · exact Or.inr (Or.inl h1.symm)
        · exact Or.inl h1
        · exact Or.inr (Or.inr h1)
      · rintro (h1 | h1 | h1)
        · exact Or.inl (Or.inr h1)
        · exact Or.inl (Or.inl h1.symm)
        · exact Or.inr h1

theorem textureAssemblyLoop_sorted (model : GenericSliceModel) (ls : List Layer) :
    ∀ (acc : StdMap Nat LayerTextureAssembly) (s : GenericSliceRenderer),
      (StdMap.keys acc).Pairwise (· < ·) →
        (StdMap.keys (textureAssemblyLoop model ls acc s).1).Pairwise (· < ·) := by
  induction ls with
  | nil => intro acc s h; exact h
  | cons layer rest ih =>
    intro acc s hacc
    simp only [textureAssemblyLoop]
    cases h : StdMap.find s.m_LayerTextureAssemblies layer.GetUniqueId with
    | some existing => exact ih _ _ (StdMap.keys_assign_sorted _ _ _ hacc)
    | none => exact ih _ _ (StdMap.keys_assign_sorted _ _ _ hacc)

theorem textureAssemblyLoop_reuse (model : GenericSliceModel) (k : Nat)
    (e : LayerTextureAssembly) (ls : List Layer) :
    ∀ (acc : StdMap Nat LayerTextureAssembly) (s : GenericSliceRenderer),
      StdMap.find s.m_LayerTextureAssemblies k = some e →
      ((∃ l ∈ ls, l.GetUniqueId = k) ∨ StdMap.find acc k = some e) →
        StdMap.find (textureAssemblyLoop model ls acc s).1 k = some e := by
  induction ls with
  | nil =>
    intro acc s _ h
    rcases h with ⟨l, hl, _⟩ | h
    · cases hl
    · exact h
  | cons layer rest ih =>
    intro acc s hold h
    simp only [textureAssemblyLoop]
    by_cases hk : layer.GetUniqueId = k
    · rw [hk, hold]
      exact ih _ _ hold (Or.inr (StdMap.find_assign_self _ _ _))
    · have h' : (∃ l ∈ rest, l.GetUniqueId = k) ∨ StdMap.find acc k = some e := by
        rcases h with ⟨l, hl, hlk⟩ | h
        · rcases List.mem_cons.1 hl with rfl | hl
          · exact absurd hlk hk
          · exact Or.inl ⟨l, hl, hlk⟩
        · exact Or.inr h
      cases hf : StdMap.find s.m_LayerTextureAssemblies layer.GetUniqueId with
      | some existing =>
        refine ih _ _ hold ?_
        rcases h' with h' | h'
        · exact Or.inl h'
        · exact Or.inr (by rw [StdMap.find_assign_ne _ _ _ _ (Ne.symm hk)]; exact h')
      | none =>
        refine ih _ _ ?_ ?_
        · exact hold
        · rcases h' with h' | h'
          · exact Or.inl h'
          · exact Or.inr (by rw [StdMap.find_assign_ne _ _ _ _ (Ne.symm hk)]; exact h')

theorem textureAssemblyLoop_next (model : GenericSliceModel) (ls : List Layer) :
    ∀ (acc : StdMap Nat LayerTextureAssembly) (s : GenericSliceRenderer),
      (textureAssemblyLoop model ls acc s).2.m_NextObject
        = s.m_NextObject + 6 * (ls.filter (fun l =>
            (StdMap.find s.m_LayerTextureAssemblies l.GetUniqueId).isNone)).length := by
  induction ls with
  | nil => intro acc s; simp [textureAssemblyLoop]
  | cons layer rest ih =>
    intro acc s
    simp only [textureAssemblyLoop]
    cases h : StdMap.find s.m_LayerTextureAssemblies layer.GetUniqueId with
    | some existing =>
      simp only [ih, List.filter_cons, h, Option.isNone_some]
      simp
    | none =>
      simp only [ih, List.filter_cons, h, Option.isNone_none, if_true, List.length_cons]
      rw [(newLayerTextureAssembly_maps model layer s).1,
        (newLayerTextureAssembly_maps model layer s).2.2]
      ring

theorem storesAgreeBelow_refl (n : Nat) (s : GenericSliceRenderer) :
    StoresAgreeBelow n s s := fun _ _ => ⟨rfl, rfl, rfl, rfl, rfl, rfl, rfl⟩

theorem storesAgreeBelow_trans (n : Nat) (s t u : GenericSliceRenderer)
    (h1 : StoresAgreeBelow n s t) (h2 : StoresAgreeBelow n t u) :
    StoresAgreeBelow n s u := by
  intro o ho
  obtain ⟨a1, a2, a3, a4, a5, a6, a7⟩ := h1 o ho
  obtain ⟨b1, b2, b3, b4, b5, b6, b7⟩ := h2 o ho
  exact ⟨b1.trans a1, b2.trans a2, b3.trans a3, b4.trans a4, b5.trans a5, b6.trans a6,
    b7.trans a7⟩

theorem newLayerTextureAssembly_stores (model : GenericSliceModel) (layer : Layer)
    (s : GenericSliceRenderer) (n : Nat) (hn : n ≤ s.m_NextObject) :
    StoresAgreeBelow n s (newLayerTextureAssembly model layer s).2 := by
  intro o ho
  have h0 : o ≠ s.m_NextObject := by omega
  have h1 : o ≠ s.m_NextObject + 1 := by omega
  have h2 : o ≠ s.m_NextObject + 2 := by omega
  have h3 : o ≠ s.m_NextObject + 3 := by omega
  have h4 : o ≠ s.m_NextObject + 4 := by omega
  have h5 : o ≠ s.m_NextObject + 5 := by omega
  exact ⟨Function.update_noteq h0 _ _, Function.update_noteq h1 _ _,
    Function.update_noteq h2 _ _, Function.update_noteq h3 _ _,
    Function.update_noteq h4 _ _, Function.update_noteq h5 _ _, rfl⟩

theorem textureAssemblyLoop_stores (model : GenericSliceModel) (n : Nat) (ls : List Layer) :
    ∀ (acc : StdMap Nat LayerTextureAssembly) (s : GenericSliceRenderer),
      n ≤ s.m_NextObject →
        StoresAgreeBelow n s (textureAssemblyLoop model ls acc s).2
          ∧ n ≤ (textureAssemblyLoop model ls acc s).2.m_NextObject := by
  induction ls with
  | nil => intro acc s hn; exact ⟨storesAgreeBelow_refl _ _, hn⟩
  | cons layer rest ih =>
    intro acc s hn
    simp only [textureAssemblyLoop]
    cases h : StdMap.find s.m_LayerTextureAssemblies layer.GetUniqueId with
    | some existing => exact ih _ _ hn
    | none =>
      have hn' : n ≤ (newLayerTextureAssembly model layer s).2.m_NextObject := by
        rw [(newLayerTextureAssembly_maps model layer s).2.2]; omega
      obtain ⟨h1, h2⟩ := ih (StdMap.assign acc layer.GetUniqueId
        (newLayerTextureAssembly model layer s).1) (newLayerTextureAssembly model layer s).2 hn'
      exact ⟨storesAgreeBelow_trans _ _ _ _ (newLayerTextureAssembly_stores model layer s n hn)
        h1, h2⟩

/-! ## Reconciliation of the base layer assemblies -/

theorem newBaseLayerAssembly_maps (s : GenericSliceRenderer) :
    (newBaseLayerAssembly s).2.m_LayerTextureAssemblies = s.m_LayerTextureAssemblies
      ∧ (newBaseLayerAssembly s).2.m_BaseLayerAssemblies = s.m_BaseLayerAssemblies
      ∧ (newBaseLayerAssembly s).2.m_NextObject = s.m_NextObject + 2 :=
  ⟨rfl, rfl, rfl⟩

theorem newBaseLayerAssembly_stores (s : GenericSliceRenderer) (n : Nat)
    (hn : n ≤ s.m_NextObject) : StoresAgreeBelow n s (newBaseLayerAssembly s).2 := by
  intro o ho
  have h0 : o ≠ s.m_NextObject := by omega
  have h1 : o ≠ s.m_NextObject + 1 := by omega
  refine ⟨rfl, rfl, rfl, rfl, rfl, rfl, ?_⟩
  show Function.update (Function.update s.m_Renderers s.m_NextObject _) (s.m_NextObject + 1) _ o
    = s.m_Renderers o
  rw [Function.update_noteq h1, Function.update_noteq h0]

theorem newBaseLayerAssembly_fresh (s : GenericSliceRenderer) (n0 : Nat)
    (hn : n0 ≤ s.m_NextObject) :
    FreshBaseLayerAssembly n0 (newBaseLayerAssembly s).2 (newBaseLayerAssembly s).1 := by
  refine ⟨s.m_NextObject, hn, ?_, rfl, ?_, ?_⟩
  · exact le_of_eq rfl
  · show Function.update (Function.update s.m_Renderers s.m_NextObject _)
      (s.m_NextObject + 1) _ s.m_NextObject = _
    rw [Function.update_noteq (show s.m_NextObject ≠ s.m_NextObject + 1 by omega),
      Function.update_same]
  · show Function.update (Function.update s.m_Renderers s.m_NextObject _)
      (s.m_NextObject + 1) _ (s.m_NextObject + 1) = _
    rw [Function.update_same]

theorem freshBaseLayerAssembly_mono (n0 : Nat) (s t : GenericSliceRenderer)
    (e : BaseLayerAssembly) (hst : StoresAgreeBelow s.m_NextObject s t)
    (hle : s.m_NextObject ≤ t.m_NextObject) (h : FreshBaseLayerAssembly n0 s e) :
    FreshBaseLayerAssembly n0 t e := by
  obtain ⟨n, h1, h2, h3, h4, h5⟩ := h
  refine ⟨n, h1, by omega, h3, ?_, ?_⟩
  · rw [(hst n (by omega)).2.2.2.2.2.2, h4]
  · rw [(hst (n + 1) (by omega)).2.2.2.2.2.2, h5]

theorem baseAssemblyLoop_maps (ls : List Layer) :
    ∀ (acc : StdMap Nat BaseLayerAssembly) (s : GenericSliceRenderer),
      (baseAssemblyLoop ls acc s).2.m_LayerTextureAssemblies = s.m_LayerTextureAssemblies
        ∧ (baseAssemblyLoop ls acc s).2.m_BaseLayerAssemblies = s.m_BaseLayerAssemblies := by
  induction ls with
  | nil => intro acc s; exact ⟨rfl, rfl⟩
  | cons layer rest ih =>
    intro acc s
    simp only [baseAssemblyLoop]
    split_ifs with hr
    · cases h : StdMap.find s.m_BaseLayerAssemblies layer.GetUniqueId with
      | some existing => exact ih _ _
      | none => exact ih _ _
    · exact ih _ _

theorem baseAssemblyLoop_stores (n : Nat) (ls : List Layer) :
    ∀ (acc : StdMap Nat BaseLayerAssembly) (s : GenericSliceRenderer),
      n ≤ s.m_NextObject →
        StoresAgreeBelow n s (baseAssemblyLoop ls acc s).2
          ∧ n ≤ (baseAssemblyLoop ls acc s).2.m_NextObject := by
  induction ls with
  | nil => intro acc s hn; exact ⟨storesAgreeBelow_refl _ _, hn⟩
  | cons layer rest ih =>
    intro acc s hn
    simp only [baseAssemblyLoop]
    split_ifs with hr
    · cases h : StdMap.find s.m_BaseLayerAssemblies layer.GetUniqueId with
      | some existing => exact ih _ _ hn
      | none =>
        have hn' : n ≤ (newBaseLayerAssembly s).2.m_NextObject := by
          rw [(newBaseLayerAssembly_maps s).2.2]; omega
        obtain ⟨h1, h2⟩ := ih (StdMap.assign acc layer.GetUniqueId (newBaseLayerAssembly s).1)
          (newBaseLayerAssembly s).2 hn'
        exact ⟨storesAgreeBelow_trans _ _ _ _ (newBaseLayerAssembly_stores s n hn) h1, h2⟩
    · exact ih _ _ hn

theorem isBaseRole_iff (r : LayerRole) : isBaseRole r = true ↔ EligibleRole r := by
  cases r <;> simp [isBaseRole, EligibleRole]

theorem baseAssemblyLoop_keys (ls : List Layer) :
    ∀ (acc : StdMap Nat BaseLayerAssembly) (s : GenericSliceRenderer) (x : Nat),
      x ∈ StdMap.keys (baseAssemblyLoop ls acc s).1
        ↔ x ∈ StdMap.keys acc ∨ ∃ l ∈ ls, EligibleRole l.GetRole ∧ l.GetUniqueId = x := by
  induction ls with
  | nil => intro acc s x; simp [baseAssemblyLoop]
  | cons layer rest ih =>
    intro acc s x
    have key : ∀ (acc' : StdMap Nat BaseLayerAssembly) (s' : GenericSliceRenderer)
        (e : BaseLayerAssembly), EligibleRole layer.GetRole →
        (x ∈ StdMap.keys (baseAssemblyLoop rest (StdMap.assign acc layer.GetUniqueId e) s').1
          ↔ x ∈ StdMap.keys acc
            ∨ ∃ l ∈ layer :: rest, EligibleRole l.GetRole ∧ l.GetUniqueId = x) := by
      intro acc' s' e hr
      simp only [ih, StdMap.mem_keys_assign, List.mem_cons, exists_eq_or_imp]
      constructor
      · rintro ((h1 | h1) | h1)
        · exact Or.inr (Or.inl ⟨hr, h1.symm⟩)
        · exact Or.inl h1
        · exact Or.inr (Or.inr h1)
      · rintro (h1 | h1 | h1)
        · exact Or.inl (Or.inr h1)
        · exact Or.inl (Or.inl h1.2.symm)
        · exact Or.inr h1
    simp only [baseAssemblyLoop]
    split_ifs with hr
    · have hr' := (isBaseRole_iff _).1 hr
      cases h : StdMap.find s.m_BaseLayerAssemblies layer.GetUniqueId with
      | some existing => exact key acc _ _ hr'
      | none => exact key acc _ _ hr'
    · have hr' : ¬ EligibleRole layer.GetRole := fun h => hr ((isBaseRole_iff _).2 h)
      simp only [ih, List.mem_cons, exists_eq_or_imp]
      constructor
      · rintro (h1 | h1)
        · exact Or.inl h1
        · exact Or.inr (Or.inr h1)
      · rintro (h1 | h1 | h1)
        · exact Or.inl h1
        · exact absurd h1.1 hr'
        · exact Or.inr h1

theorem baseAssemblyLoop_sorted (ls : List Layer) :
    ∀ (acc : StdMap Nat BaseLayerAssembly) (s : GenericSliceRenderer),
      (StdMap.keys acc).Pairwise (· < ·) →
        (StdMap.keys (baseAssemblyLoop ls acc s).1).Pairwise (· < ·) := by
  induction ls with
  | nil => intro acc s h; exact h
  | cons layer rest ih =>
    intro acc s hacc
    simp only [baseAssemblyLoop]
    split_ifs with hr
    · cases h : StdMap.find s.m_BaseLayerAssemblies layer.GetUniqueId with
      | some existing => exact ih _ _ (StdMap.keys_assign_sorted _ _ _ hacc)
      | none => exact ih _ _ (StdMap.keys_assign_sorted _ _ _ hacc)
    · exact ih _ _ hacc

theorem baseAssemblyLoop_reuse (k : Nat) (e : BaseLayerAssembly) (ls : List Layer) :
    ∀ (acc : StdMap Nat BaseLayerAssembly) (s : GenericSliceRenderer),
      StdMap.find s.m_BaseLayerAssemblies k = some e →
      ((∃ l ∈ ls, EligibleRole l.GetRole ∧ l.GetUniqueId = k) ∨ StdMap.find acc k = some e) →
        StdMap.find (baseAssemblyLoop ls acc s).1 k = some e := by
  induction ls with
  | nil =>
    intro acc s _ h
    rcases h with ⟨l, hl, _⟩ | h
    · cases hl
    · exact h
  | cons layer rest ih =>
    intro acc s hold h
    simp only [baseAssemblyLoop]
    split_ifs with hr
    · by_cases hk : layer.GetUniqueId = k
      · rw [hk, hold]
        exact ih _ _ hold (Or.inr (StdMap.find_assign_self _ _ _))
      · have h' : (∃ l ∈ rest, EligibleRole l.GetRole ∧ l.GetUniqueId = k)
            ∨ StdMap.find acc k = some e := by
          rcases h with ⟨l, hl, hlr, hlk⟩ | h
          · rcases List.mem_cons.1 hl with rfl | hl
            · exact absurd hlk hk
            · exact Or.inl ⟨l, hl, hlr, hlk⟩
          · exact Or.inr h
        have h'' : ∀ e', (∃ l ∈ rest, EligibleRole l.GetRole ∧ l.GetUniqueId = k)
            ∨ StdMap.find (StdMap.assign acc layer.GetUniqueId e') k = some e := by
          intro e'
          rcases h' with h' | h'
          · exact Or.inl h'
          · exact Or.inr (by rw [StdMap.find_assign_ne _ _ _ _ (Ne.symm hk)]; exact h')
        cases hf : StdMap.find s.m_BaseLayerAssemblies layer.GetUniqueId with
        | some existing => exact ih _ _ hold (h'' _)
        | none => exact ih _ _ hold (h'' _)
    · refine ih _ _ hold ?_
      rcases h with ⟨l, hl, hlr, hlk⟩ | h
      · rcases List.mem_cons.1 hl with rfl | hl
        · exact absurd ((isBaseRole_iff _).2 hlr) hr
        · exact Or.inl ⟨l, hl, hlr, hlk⟩
      · exact Or.inr h

theorem baseAssemblyLoop_fresh (n0 k : Nat) (ls : List Layer) :
    ∀ (acc : StdMap Nat BaseLayerAssembly) (s : GenericSliceRenderer),
      n0 ≤ s.m_NextObject →
      StdMap.find s.m_BaseLayerAssemblies k = none →
      ((∃ l ∈ ls, EligibleRole l.GetRole ∧ l.GetUniqueId = k)
        ∨ ∃ e, StdMap.find acc k = some e ∧ FreshBaseLayerAssembly n0 s e) →
        ∃ e, StdMap.find (baseAssemblyLoop ls acc s).1 k = some e
          ∧ FreshBaseLayerAssembly n0 (baseAssemblyLoop ls acc s).2 e := by
  induction ls with
  | nil =>
    intro acc s _ _ h
    rcases h with ⟨l, hl, _⟩ | h
    · cases hl
    · exact h
  | cons layer rest ih =>
    intro acc s hn hold h
    have hn' : n0 ≤ (newBaseLayerAssembly s).2.m_NextObject := by
      rw [(newBaseLayerAssembly_maps s).2.2]; omega
    have hmono : ∀ e, FreshBaseLayerAssembly n0 s e →
        FreshBaseLayerAssembly n0 (newBaseLayerAssembly s).2 e := by
      intro e he
      refine freshBaseLayerAssembly_mono n0 s _ e
        (newBaseLayerAssembly_stores s s.m_NextObject (le_refl _)) ?_ he
      rw [(newBaseLayerAssembly_maps s).2.2]; omega
    simp only [baseAssemblyLoop]
    split_ifs with hr
    · by_cases hk : layer.GetUniqueId = k
      · rw [hk, hold]
        refine ih _ _ hn' hold (Or.inr ⟨_, StdMap.find_assign_self _ _ _, ?_⟩)
        exact newBaseLayerAssembly_fresh s n0 hn
      · have h' : (∃ l ∈ rest, EligibleRole l.GetRole ∧ l.GetUniqueId = k)
            ∨ ∃ e, StdMap.find acc k = some e ∧ FreshBaseLayerAssembly n0 s e := by
          rcases h with ⟨l, hl, hlr, hlk⟩ | h
          · rcases List.mem_cons.1 hl with rfl | hl
            · exact absurd hlk hk
            · exact Or.inl ⟨l, hl, hlr, hlk⟩
          · exact Or.inr h
        cases hf : StdMap.find s.m_BaseLayerAssemblies layer.GetUniqueId with
        | some existing =>
          refine ih _ _ hn hold ?_
          rcases h' with h' | ⟨e, he1, he2⟩
          · exact Or.inl h'
          · exact Or.inr ⟨e, by rw [StdMap.find_assign_ne _ _ _ _ (Ne.symm hk)]; exact he1, he2⟩
        | none =>
          refine ih _ _ hn' hold ?_
          rcases h' with h' | ⟨e, he1, he2⟩
          · exact Or.inl h'
          · exact Or.inr ⟨e, by rw [StdMap.find_assign_ne _ _ _ _ (Ne.symm hk)]; exact he1,
              hmono e he2⟩
    · refine ih _ _ hn hold ?_
      rcases h with ⟨l, hl, hlr, hlk⟩ | h
      · rcases List.mem_cons.1 hl with rfl | hl
        · exact absurd ((isBaseRole_iff _).2 hlr) hr
        · exact Or.inl ⟨l, hl, hlr, hlk⟩
      · exact Or.inr h

theorem baseAssemblyLoop_next (ls : List Layer) :
    ∀ (acc : StdMap Nat BaseLayerAssembly) (s : GenericSliceRenderer),
      (baseAssemblyLoop ls acc s).2.m_NextObject
        = s.m_NextObject + 2 * (ls.filter (fun l => isBaseRole l.GetRole
            && (StdMap.find s.m_BaseLayerAssemblies l.GetUniqueId).isNone)).length := by
  induction ls with
  | nil => intro acc s; simp [baseAssemblyLoop]
  | cons layer rest ih =>
    intro acc s
    simp only [baseAssemblyLoop]
    split_ifs with hr
    · cases h : StdMap.find s.m_BaseLayerAssemblies layer.GetUniqueId with
      | some existing =>
        simp only [ih, List.filter_cons, h, hr, Option.isNone_some]
        simp
      | none =>
        simp only [ih, List.filter_cons, h, hr, Option.isNone_none, Bool.and_self, if_true,
          List.length_cons]
        rw [(newBaseLayerAssembly_maps s).2.1, (newBaseLayerAssembly_maps s).2.2]
        ring
    · simp only [ih, List.filter_cons, hr]
      simp

/-! ## Claims on `UpdateLayerAssemblies` -/

/-- C1. After `UpdateLayerAssemblies` the keys of `m_LayerTextureAssemblies` are exactly the
unique ids of the layers of the current image data, each key occurring once (the keys are
strictly ascending); in the scenario, starting from the assemblies of A, B and S and updating
with the layers A and S, the keys are exactly those of A and S. -/
theorem updateLayerAssemblies_texture_keys :
    (∀ (model : GenericSliceModel) (s : GenericSliceRenderer),
      (∀ x, x ∈ StdMap.keys (UpdateLayerAssemblies model s).m_LayerTextureAssemblies
          ↔ ∃ l ∈ model.GetCurrentImageData, l.GetUniqueId = x)
        ∧ (StdMap.keys (UpdateLayerAssemblies model s).m_LayerTextureAssemblies).Pairwise
            (· < ·))
      ∧ StdMap.keys (UpdateLayerAssemblies (scenarioModel [layerA, layerS])
            scenarioABS).m_LayerTextureAssemblies
          = [layerA.GetUniqueId, layerS.GetUniqueId] := by
  refine ⟨fun model s => ⟨fun x => ?_, ?_⟩, by decide⟩
  · have h1 : (UpdateLayerAssemblies model s).m_LayerTextureAssemblies
        = (textureAssemblyLoop model model.GetCurrentImageData [] s).1 :=
      (baseAssemblyLoop_maps _ _ _).1
    rw [h1, textureAssemblyLoop_keys]
    simp [StdMap.keys]
  · have h1 : (UpdateLayerAssemblies model s).m_LayerTextureAssemblies
        = (textureAssemblyLoop model model.GetCurrentImageData [] s).1 :=
      (baseAssemblyLoop_maps _ _ _).1
    rw [h1]
    exact textureAssemblyLoop_sorted _ _ _ _ List.Pairwise.nil

theorem updateLayerAssemblies_texture_map (model : GenericSliceModel)
    (s : GenericSliceRenderer) :
    (UpdateLayerAssemblies model s).m_LayerTextureAssemblies
      = (textureAssemblyLoop model model.GetCurrentImageData [] s).1 :=
  (baseAssemblyLoop_maps _ _ _).1

theorem updateLayerAssemblies_next (model : GenericSliceModel) (s : GenericSliceRenderer) :
    (UpdateLayerAssemblies model s).m_NextObject
      = s.m_NextObject
        + 6 * (model.GetCurrentImageData.filter (fun l =>
            (StdMap.find s.m_LayerTextureAssemblies l.GetUniqueId).isNone)).length
        + 2 * (model.GetCurrentImageData.filter (fun l => isBaseRole l.GetRole
            && (StdMap.find s.m_BaseLayerAssemblies l.GetUniqueId).isNone)).length := by
  have h1 : (UpdateLayerAssemblies model s).m_NextObject
      = (baseAssemblyLoop model.GetCurrentImageData []
          { (textureAssemblyLoop model model.GetCurrentImageData [] s).2 with
            m_LayerTextureAssemblies :=
              (textureAssemblyLoop model model.GetCurrentImageData [] s).1 }).2.m_NextObject :=
    rfl
  rw [h1, baseAssemblyLoop_next]
  have h2 := textureAssemblyLoop_next model model.GetCurrentImageData [] s
  have h3 := (textureAssemblyLoop_maps model model.GetCurrentImageData [] s).2
  simp only [h2, h3]

theorem updateLayerAssemblies_stores (model : GenericSliceModel) (s : GenericSliceRenderer) :
    StoresAgreeBelow s.m_NextObject s (UpdateLayerAssemblies model s) := by
  have h1 := textureAssemblyLoop_stores model s.m_NextObject model.GetCurrentImageData [] s
    (le_refl _)
  have h2 := baseAssemblyLoop_stores s.m_NextObject model.GetCurrentImageData []
    { (textureAssemblyLoop model model.GetCurrentImageData [] s).2 with
      m_LayerTextureAssemblies :=
        (textureAssemblyLoop model model.GetCurrentImageData [] s).1 } h1.2
  intro o ho
  obtain ⟨a1, a2, a3, a4, a5, a6, a7⟩ := h1.1 o ho
  obtain ⟨b1, b2, b3, b4, b5, b6, b7⟩ := h2.1 o ho
  exact ⟨b1.trans a1, b2.trans a2, b3.trans a3, b4.trans a4, b5.trans a5, b6.trans a6,
    b7.trans a7⟩

/-- C2. A layer id that is a key of the old texture assembly map and the id of a current
layer keeps its old assembly (the same six objects) through `UpdateLayerAssemblies`; every
object that existed before keeps its state, and objects are made only for layers that had
no assembly: six per layer without a texture assembly, two per base layer without a base
assembly. -/
theorem updateLayerAssemblies_reuses_texture_assembly (model : GenericSliceModel)
    (s : GenericSliceRenderer) (k : Nat) (e : LayerTextureAssembly)
    (hold : StdMap.find s.m_LayerTextureAssemblies k = some e)
    (hcur : ∃ l ∈ model.GetCurrentImageData, l.GetUniqueId = k) :
    StdMap.find (UpdateLayerAssemblies model s).m_LayerTextureAssemblies k = some e
      ∧ StoresAgreeBelow s.m_NextObject s (UpdateLayerAssemblies model s)
      ∧ (UpdateLayerAssemblies model s).m_NextObject
        = s.m_NextObject
          + 6 * (model.GetCurrentImageData.filter (fun l =>
              (StdMap.find s.m_LayerTextureAssemblies l.GetUniqueId).isNone)).length
          + 2 * (model.GetCurrentImageData.filter (fun l => isBaseRole l.GetRole
              && (StdMap.find s.m_BaseLayerAssemblies l.GetUniqueId).isNone)).length := by
  refine ⟨?_, updateLayerAssemblies_stores model s, updateLayerAssemblies_next model s⟩
  rw [updateLayerAssemblies_texture_map]
  exact textureAssemblyLoop_reuse model k e _ _ _ hold (Or.inl hcur)

/-- Witness of C2: layer A keeps its assembly when B is removed from the scenario. -/
theorem updateLayerAssemblies_reuses_texture_assembly_witness :
    StdMap.find (UpdateLayerAssemblies (scenarioModel [layerA, layerS])
        scenarioABS).m_LayerTextureAssemblies 1
      = some { m_Exporter := some 1000, m_Importer := some 1001, m_Texture := some 1002,
               m_ImageRectPolyData := some 1003, m_ImageRectMapper := some 1004,
               m_ImageRectActor := some 1005 } :=
  (updateLayerAssemblies_reuses_texture_assembly (scenarioModel [layerA, layerS])
    scenarioABS 1 _ (by decide) ⟨layerA, by simp [scenarioModel], rfl⟩).1

/-- C3, evaluated on the code: layer A has an assembly whose exporter reads image 101; the
layer now returns image 201 as its display slice, and after `UpdateLayerAssemblies` the
exporter of its assembly is the old one and still reads image 101. -/
theorem updateLayerAssemblies_keeps_stale_source :
    layerAReplaced.GetDisplaySlice (scenarioModel [layerAReplaced, layerB, layerS]).GetId = 201
      ∧ ∃ e x,
        StdMap.find (UpdateLayerAssemblies (scenarioModel [layerAReplaced, layerB, layerS])
            scenarioABS).m_LayerTextureAssemblies layerAReplaced.GetUniqueId = some e
          ∧ e.m_Exporter = some x
          ∧ ((UpdateLayerAssemblies (scenarioModel [layerAReplaced, layerB, layerS])
              scenarioABS).m_Exporters x).input = some 101 := by
  refine ⟨rfl, LayerTextureAssembly.mk (some 1000) (some 1001) (some 1002) (some 1003)
    (some 1004) (some 1005), 1000, ?_, rfl, ?_⟩
  · decide
  · decide

/-- C4. After `UpdateLayerAssemblies` the keys of `m_BaseLayerAssemblies` are exactly the ids
of the current layers whose role is `MAIN_ROLE`, `OVERLAY_ROLE` or `SNAP_ROLE`, each key
occurring once; an id that had an entry keeps that entry, and an id that had none gets a
pair of newly made renderers. -/
theorem updateLayerAssemblies_base_assemblies (model : GenericSliceModel)
    (s : GenericSliceRenderer) :
    (∀ x, x ∈ StdMap.keys (UpdateLayerAssemblies model s).m_BaseLayerAssemblies
        ↔ ∃ l ∈ model.GetCurrentImageData, EligibleRole l.GetRole ∧ l.GetUniqueId = x)
      ∧ (StdMap.keys (UpdateLayerAssemblies model s).m_BaseLayerAssemblies).Pairwise (· < ·)
      ∧ (∀ k e, StdMap.find s.m_BaseLayerAssemblies k = some e →
          (∃ l ∈ model.GetCurrentImageData, EligibleRole l.GetRole ∧ l.GetUniqueId = k) →
          StdMap.find (UpdateLayerAssemblies model s).m_BaseLayerAssemblies k = some e)
      ∧ (∀ k, StdMap.find s.m_BaseLayerAssemblies k = none →
          (∃ l ∈ model.GetCurrentImageData, EligibleRole l.GetRole ∧ l.GetUniqueId = k) →
          ∃ e, StdMap.find (UpdateLayerAssemblies model s).m_BaseLayerAssemblies k = some e
            ∧ FreshBaseLayerAssembly s.m_NextObject (UpdateLayerAssemblies model s) e) := by
  have hb := (textureAssemblyLoop_maps model model.GetCurrentImageData [] s).2
  have hn := (textureAssemblyLoop_stores model s.m_NextObject model.GetCurrentImageData [] s
    (le_refl _)).2
  refine ⟨fun x => ?_, ?_, fun k e hold hcur => ?_, fun k hold hcur => ?_⟩
  · show x ∈ StdMap.keys (baseAssemblyLoop model.GetCurrentImageData [] _).1 ↔ _
    rw [baseAssemblyLoop_keys]
    simp [StdMap.keys]
  · exact baseAssemblyLoop_sorted _ _ _ List.Pairwise.nil
  · exact baseAssemblyLoop_reuse k e _ _ _ (by rw [← hb] at hold; exact hold) (Or.inl hcur)
  · obtain ⟨e, he1, n, hn1, hn2, hn3, hn4, hn5⟩ :=
      baseAssemblyLoop_fresh s.m_NextObject k model.GetCurrentImageData []
        { (textureAssemblyLoop model model.GetCurrentImageData [] s).2 with
          m_LayerTextureAssemblies :=
            (textureAssemblyLoop model model.GetCurrentImageData [] s).1 }
        hn (by rw [← hb] at hold; exact hold) (Or.inl hcur)
    exact ⟨e, he1, n, hn1, hn2, hn3, hn4, hn5⟩

/-- Witness of C4: when B is removed from the scenario the base assembly of A is kept and
that of B is gone. -/
theorem updateLayerAssemblies_base_assemblies_witness :
    StdMap.find (UpdateLayerAssemblies (scenarioModel [layerA, layerS])
        scenarioABS).m_BaseLayerAssemblies 1
      = some { m_Renderer := some 1018, m_ThumbRenderer := some 1019 }
    ∧ 2 ∉ StdMap.keys (UpdateLayerAssemblies (scenarioModel [layerA, layerS])
        scenarioABS).m_BaseLayerAssemblies :=
  ⟨(updateLayerAssemblies_base_assemblies (scenarioModel [layerA, layerS]) scenarioABS).2.2.1
      1 _ (by decide) ⟨layerA, by simp [scenarioModel], by decide, rfl⟩,
    fun h => by
      obtain ⟨l, hl, hr, hid⟩ :=
        ((updateLayerAssemblies_base_assemblies (scenarioModel [layerA, layerS])
          scenarioABS).1 2).1 h
      simp [scenarioModel] at hl
      rcases hl with rfl | rfl
      · exact absurd hid (by decide)
      · exact absurd hid (by decide)⟩

/-! ## Depth assignment -/

theorem stickyCount_cons (l : Layer) (ls : List Layer) :
    stickyCount (l :: ls) = (if isStickyOverlay l then 1 else 0) + stickyCount ls := by
  unfold stickyCount
  by_cases h : isStickyOverlay l = true
  · simp [List.filter_cons, h]; omega
  · simp [List.filter_cons, h]

theorem depthOf_fst (c : DepthConstants) (pre : List Layer) (l : Layer) :
    (depthOf c l (c.DEPTH_OVERLAY_START + (stickyCount pre : ℚ) * c.DEPTH_STEP)).1
      = referenceDepth c pre l := by
  unfold depthOf referenceDepth
  split_ifs <;> rfl

theorem depthOf_snd (c : DepthConstants) (l : Layer) (d : ℚ) :
    (depthOf c l d).2 = d + (if isStickyOverlay l then 1 else 0 : ℚ) * c.DEPTH_STEP := by
  unfold depthOf isStickyOverlay
  by_cases h1 : l.GetRole = LABEL_ROLE
  · simp [h1]
  · by_cases h2 : l.IsSticky = true
    · simp [h1, h2]
    · simp [h1, h2]

theorem actorOf_some (s : GenericSliceRenderer) (k : Nat) (a : ObjId)
    (h : actorOf s k = some a) :
    ∃ e, StdMap.find s.m_LayerTextureAssemblies k = some e ∧ e.m_ImageRectActor = some a := by
  unfold actorOf at h
  cases hf : StdMap.find s.m_LayerTextureAssemblies k with
  | none => rw [hf] at h; cases h
  | some e => rw [hf] at h; exact ⟨e, rfl, h⟩

theorem layerDepthLoop_spec (c : DepthConstants) (ls : List Layer) :
    ∀ (d : ℚ) (s : GenericSliceRenderer), HasActors s ls →
      ∃ s', layerDepthLoop c ls d s = some s'
        ∧ s'.m_LayerTextureAssemblies = s.m_LayerTextureAssemblies
        ∧ (∀ o, (∀ l ∈ ls, actorOf s l.GetUniqueId ≠ some o) → s'.m_Actors o = s.m_Actors o)
        ∧ (ActorsDistinct s ls → ∀ pre l post a, ls = pre ++ l :: post →
            actorOf s l.GetUniqueId = some a →
            s'.m_Actors a = { s.m_Actors a with
              position := ⟨(s.m_Actors a).position.x, (s.m_Actors a).position.y,
                (depthOf c l (d + (stickyCount pre : ℚ) * c.DEPTH_STEP)).1⟩ }) := by
  induction ls with
  | nil =>
    intro d s _
    refine ⟨s, rfl, rfl, fun _ _ => rfl, ?_⟩
    intro _ pre l post a h
    cases pre <;> cases h
  | cons layer rest ih =>
    intro d s hact
    have hsome := hact layer (List.mem_cons_self _ _)
    obtain ⟨a0, ha0⟩ := Option.isSome_iff_exists.1 hsome
    obtain ⟨e, he1, he2⟩ := actorOf_some s _ _ ha0
    -- the state after the body of the loop for `layer`
    have hstep : layerDepthLoop c (layer :: rest) d s
        = layerDepthLoop c rest (depthOf c layer d).2 (SetDepth s a0 (depthOf c layer d).1) := by
      simp only [layerDepthLoop, StdMap.index, he1, he2]
    have hmap : (SetDepth s a0 (depthOf c layer d).1).m_LayerTextureAssemblies
        = s.m_LayerTextureAssemblies := rfl
    have hactor : ∀ k, actorOf (SetDepth s a0 (depthOf c layer d).1) k = actorOf s k :=
      fun _ => rfl
    have hact' : HasActors (SetDepth s a0 (depthOf c layer d).1) rest := by
      intro l hl
      rw [hactor]
      exact hact l (List.mem_cons_of_mem _ hl)
    obtain ⟨s', hs1, hs2, hs3, hs4⟩ := ih (depthOf c layer d).2 _ hact'
    refine ⟨s', by rw [hstep]; exact hs1, hs2.trans hmap, ?_, ?_⟩
    · intro o ho
      have ho1 : o ≠ a0 := by
        intro h
        exact ho layer (List.mem_cons_self _ _) (by rw [ha0, h])
      rw [hs3 o (fun l hl => by rw [hactor]; exact ho l (List.mem_cons_of_mem _ hl))]
      exact Function.update_noteq ho1 _ _
    · intro hdist pre l post a hsplit ha
      have hnd : actorOf s layer.GetUniqueId ∉ rest.map (fun l => actorOf s l.GetUniqueId)
          ∧ ActorsDistinct s rest := by
        simpa [ActorsDistinct] using hdist
      cases pre with
      | nil =>
        simp only [List.nil_append, List.cons.injEq] at hsplit
        obtain ⟨rfl, rfl⟩ := hsplit
        have haa : a = a0 := by
          rw [ha0] at ha
          exact (Option.some.inj ha).symm
        subst haa
        have hnot : ∀ l ∈ rest,
            actorOf (SetDepth s a (depthOf c layer d).1) l.GetUniqueId ≠ some a := by
          intro l hl h
          rw [hactor] at h
          exact hnd.1 (List.mem_map.2 ⟨l, hl, by rw [h, ha0]⟩)
        rw [hs3 a hnot]
        simp [SetDepth, stickyCount]
      | cons p pre' =>
        simp only [List.cons_append, List.cons.injEq] at hsplit
        obtain ⟨rfl, hrest⟩ := hsplit
        have hl : l ∈ rest := by rw [hrest]; simp
        have hne : a ≠ a0 := by
          intro h
          exact hnd.1 (List.mem_map.2 ⟨l, hl, by rw [ha, h, ha0]⟩)
        have hdist' : ActorsDistinct (SetDepth s a0 (depthOf c layer d).1) rest := hnd.2
        rw [hs4 hdist' pre' l post a hrest (by rw [hactor]; exact ha)]
        have hsame : (SetDepth s a0 (depthOf c layer d).1).m_Actors a = s.m_Actors a :=
          Function.update_noteq hne _ _
        rw [hsame, depthOf_snd, stickyCount_cons]
        have harith : d + (if isStickyOverlay layer = true then (1 : ℚ) else 0) * c.DEPTH_STEP
              + (stickyCount pre' : ℚ) * c.DEPTH_STEP
            = d + (((if isStickyOverlay layer = true then 1 else 0) + stickyCount pre' : Nat) : ℚ)
              * c.DEPTH_STEP := by
          by_cases hp : isStickyOverlay layer = true
          · simp [hp]; ring
          · simp [hp]
        rw [harith]

theorem updateLayerDepth_spec (c : DepthConstants) (model : GenericSliceModel)
    (s : GenericSliceRenderer) (hact : HasActors s model.GetImageData) :
    ∃ s', UpdateLayerDepth c model s = some s'
      ∧ s'.m_LayerTextureAssemblies = s.m_LayerTextureAssemblies
      ∧ (∀ o, (∀ l ∈ model.GetImageData, actorOf s l.GetUniqueId ≠ some o) →
          s'.m_Actors o = s.m_Actors o)
      ∧ (ActorsDistinct s model.GetImageData → ∀ pre l post a,
          model.GetImageData = pre ++ l :: post → actorOf s l.GetUniqueId = some a →
          s'.m_Actors a = { s.m_Actors a with
            position := ⟨(s.m_Actors a).position.x, (s.m_Actors a).position.y,
              referenceDepth c pre l⟩ }) := by
  obtain ⟨s', h1, h2, h3, h4⟩ :=
    layerDepthLoop_spec c model.GetImageData c.DEPTH_OVERLAY_START s hact
  refine ⟨s', h1, h2, h3, ?_⟩
  intro hdist pre l post a hsplit ha
  rw [h4 hdist pre l post a hsplit ha, depthOf_fst]

namespace StdMap

variable {κ ν : Type}

/-- Assign a list of pairs in turn. -/
theorem foldl_assign_sorted [LinearOrder κ] (ps : List (κ × ν)) :
    ∀ m : StdMap κ ν, (keys m).Pairwise (· < ·) →
      (keys (ps.foldl (fun acc p => assign acc p.1 p.2) m)).Pairwise (· < ·) := by
  induction ps with
  | nil => intro m h; exact h
  | cons p rest ih => intro m h; exact ih _ (keys_assign_sorted m p.1 p.2 h)

theorem mem_assign [LinearOrder κ] (m : StdMap κ ν) (k : κ) (v : ν) (q : κ × ν)
    (h : q ∈ assign m k v) : q = (k, v) ∨ q ∈ m := by
  induction m with
  | nil => simpa [assign] using h
  | cons hd tl ih =>
    obtain ⟨k0, v0⟩ := hd
    simp only [assign] at h
    split_ifs at h with h1 h2
    · rcases List.mem_cons.1 h with h | h
      · exact Or.inl h
      · exact Or.inr h
    · rcases List.mem_cons.1 h with h | h
      · exact Or.inl h
      · exact Or.inr (List.mem_cons_of_mem _ h)
    · rcases List.mem_cons.1 h with h | h
      · exact Or.inr (by rw [h]; exact List.mem_cons_self _ _)
      · rcases ih h with h | h
        · exact Or.inl h
        · exact Or.inr (List.mem_cons_of_mem _ h)

theorem mem_foldl_assign [LinearOrder κ] (ps : List (κ × ν)) :
    ∀ (m : StdMap κ ν) (q : κ × ν),
      q ∈ ps.foldl (fun acc p => assign acc p.1 p.2) m → q ∈ m ∨ q ∈ ps := by
  induction ps with
  | nil => intro m q h; exact Or.inl h
  | cons p rest ih =>
    intro m q h
    rcases ih _ q h with h | h
    · rcases mem_assign m p.1 p.2 q h with h | h
      · exact Or.inr (by rw [h]; exact List.mem_cons_self _ _)
      · exact Or.inl h
    · exact Or.inr (List.mem_cons_of_mem _ h)

theorem find_foldl_assign_of_not_mem [LinearOrder κ] (ps : List (κ × ν)) (k : κ) :
    ∀ m : StdMap κ ν, (∀ q ∈ ps, q.1 ≠ k) →
      find (ps.foldl (fun acc p => assign acc p.1 p.2) m) k = find m k := by
  induction ps with
  | nil => intro m _; rfl
  | cons p rest ih =>
    intro m h
    have h1 : k ≠ p.1 := fun hk => h p (List.mem_cons_self _ _) hk.symm
    have h2 : ∀ q ∈ rest, q.1 ≠ k := fun q hq => h q (List.mem_cons_of_mem _ hq)
    show find (rest.foldl (fun acc p => assign acc p.1 p.2) (assign m p.1 p.2)) k = find m k
    rw [ih _ h2, find_assign_ne _ _ _ _ h1]

theorem find_foldl_assign_last [LinearOrder κ] (pre post : List (κ × ν)) (p : κ × ν)
    (m : StdMap κ ν) (h : ∀ q ∈ post, q.1 ≠ p.1) :
    find ((pre ++ p :: post).foldl (fun acc p => assign acc p.1 p.2) m) p.1 = some p.2 := by
  rw [List.foldl_append, List.foldl_cons, find_foldl_assign_of_not_mem post p.1 _ h,
    find_assign_self]

end StdMap

theorem depthMapLoop_eq_foldl (actors : ObjId → vtkActor) :
    ∀ (m : StdMap Nat LayerTextureAssembly) (dm : StdMap ℚ ObjId),
      (∀ it ∈ m, it.2.m_ImageRectActor.isSome = true) →
        depthMapLoop actors m dm
          = some ((positiveDepthActors actors m).foldl
              (fun acc p => StdMap.assign acc p.1 p.2) dm) := by
  intro m
  induction m with
  | nil => intro dm _; rfl
  | cons it rest ih =>
    intro dm h
    obtain ⟨a, ha⟩ := Option.isSome_iff_exists.1 (h it (List.mem_cons_self _ _))
    have hrest : ∀ it' ∈ rest, it'.2.m_ImageRectActor.isSome = true :=
      fun it' h' => h it' (List.mem_cons_of_mem _ h')
    simp only [depthMapLoop, ha, positiveDepthActors, List.filterMap_cons]
    by_cases hz : 0 < (actors a).position.z
    · simp only [gt_iff_lt, hz, if_true, List.foldl_cons]
      exact ih _ hrest
    · simp only [gt_iff_lt, hz, if_false]
      exact ih _ hrest

theorem depthMapLoop_some (actors : ObjId → vtkActor) :
    ∀ (m : StdMap Nat LayerTextureAssembly) (dm dm' : StdMap ℚ ObjId),
      depthMapLoop actors m dm = some dm' →
        ∀ it ∈ m, it.2.m_ImageRectActor.isSome = true := by
  intro m
  induction m with
  | nil => intro _ _ _ it hit; cases hit
  | cons it rest ih =>
    intro dm dm' h it' hit'
    simp only [depthMapLoop] at h
    cases ha : it.2.m_ImageRectActor with
    | none => rw [ha] at h; cases h
    | some a =>
      rw [ha] at h
      rcases List.mem_cons.1 hit' with rfl | hit'
      · rw [ha]; rfl
      · simp only at h
        split_ifs at h
        · exact ih _ _ h it' hit'
        · exact ih _ _ h it' hit'

/-! ## The viewport loop of `UpdateRendererLayout` -/

theorem layerDepthLoop_frame (c : DepthConstants) (ls : List Layer) :
    ∀ (d : ℚ) (s s' : GenericSliceRenderer), layerDepthLoop c ls d s = some s' →
      s'.m_LayerTextureAssemblies = s.m_LayerTextureAssemblies
        ∧ s'.m_BaseLayerAssemblies = s.m_BaseLayerAssemblies
        ∧ s'.m_Renderers = s.m_Renderers
        ∧ s'.m_RenderWindow = s.m_RenderWindow
        ∧ s'.m_OverlayRenderer = s.m_OverlayRenderer := by
  induction ls with
  | nil =>
    intro d s s' h
    cases h
    exact ⟨rfl, rfl, rfl, rfl, rfl⟩
  | cons layer rest ih =>
    intro d s s' h
    simp only [layerDepthLoop, StdMap.index] at h
    cases hf : StdMap.find s.m_LayerTextureAssemblies layer.GetUniqueId with
    | none =>
      rw [hf] at h
      cases h
    | some e =>
      rw [hf] at h
      cases ha : e.m_ImageRectActor with
      | none => simp only [ha] at h; cases h
      | some a =>
        simp only [ha] at h
        obtain ⟨h1, h2, h3, h4, h5⟩ := ih _ _ _ h
        exact ⟨h1, h2, h3, h4, h5⟩

theorem layoutViewport_some (dm : StdMap ℚ ObjId) (szWin : Nat × Nat)
    (s s' : GenericSliceRenderer) (vp : SubViewport)
    (h : layoutViewport dm szWin s vp = some s') :
    ∃ r, rendererOf s vp = some r
      ∧ s'.m_BaseLayerAssemblies = s.m_BaseLayerAssemblies
      ∧ (∀ k, actorOf s' k = actorOf s k)
      ∧ s'.m_Actors = s.m_Actors
      ∧ s'.m_OverlayRenderer = s.m_OverlayRenderer
      ∧ s'.m_Renderers = Function.update s.m_Renderers r
          { s.m_Renderers r with
            viewport := relPos vp szWin
            props := AddActor [] (actorOf s vp.layer_id) ++ StdMap.values dm } := by
  unfold layoutViewport StdMap.index at h
  cases hb : StdMap.find s.m_BaseLayerAssemblies vp.layer_id with
  | none =>
    rw [hb] at h
    cases ht : vp.isThumbnail <;> simp [ht] at h
  | some la =>
    rw [hb] at h
    simp only at h
    cases hr : (if vp.isThumbnail then la.m_ThumbRenderer else la.m_Renderer) with
    | none => rw [hr] at h; cases h
    | some r =>
      rw [hr] at h
      simp only [Option.some.injEq] at h
      refine ⟨r, by simp [rendererOf, hb, hr], ?_⟩
      cases hl : StdMap.find s.m_LayerTextureAssemblies vp.layer_id with
      | some lta =>
        rw [hl] at h
        subst h
        refine ⟨rfl, fun k => rfl, rfl, rfl, ?_⟩
        simp [actorOf, hl]
      | none =>
        rw [hl] at h
        subst h
        refine ⟨rfl, fun k => ?_, rfl, rfl, ?_⟩
        · show (StdMap.find (StdMap.assign s.m_LayerTextureAssemblies vp.layer_id {}) k).bind _
            = actorOf s k
          by_cases hk : k = vp.layer_id
          · subst hk
            rw [StdMap.find_assign_self]
            simp [actorOf, hl]
          · rw [StdMap.find_assign_ne _ _ _ _ hk]
            rfl
        · simp [actorOf, hl]

theorem rendererOf_congr (s t : GenericSliceRenderer) (vp : SubViewport)
    (h : t.m_BaseLayerAssemblies = s.m_BaseLayerAssemblies) :
    rendererOf t vp = rendererOf s vp := by
  unfold rendererOf
  rw [h]

theorem viewportLoop_final (dm : StdMap ℚ ObjId) (szWin : Nat × Nat) (vps : List SubViewport) :
    ∀ (s s' : GenericSliceRenderer), viewportLoop dm szWin vps s = some s' →
      s'.m_BaseLayerAssemblies = s.m_BaseLayerAssemblies
        ∧ (∀ k, actorOf s' k = actorOf s k)
        ∧ s'.m_Actors = s.m_Actors
        ∧ s'.m_OverlayRenderer = s.m_OverlayRenderer
        ∧ (∀ r, (∀ vp ∈ vps, rendererOf s vp ≠ some r) → s'.m_Renderers r = s.m_Renderers r)
        ∧ (∀ pre vp post, vps = pre ++ vp :: post →
            ∃ r, rendererOf s vp = some r
              ∧ ((∀ vp' ∈ post, rendererOf s vp' ≠ some r) →
                  (s'.m_Renderers r).viewport = relPos vp szWin
                    ∧ (s'.m_Renderers r).props
                        = AddActor [] (actorOf s vp.layer_id) ++ StdMap.values dm)) := by
  induction vps with
  | nil =>
    intro s s' h
    cases h
    refine ⟨rfl, fun _ => rfl, rfl, rfl, fun _ _ => rfl, ?_⟩
    intro pre vp post h
    cases pre <;> cases h
  | cons v rest ih =>
    intro s s' h
    simp only [viewportLoop] at h
    cases h1 : layoutViewport dm szWin s v with
    | none => rw [h1] at h; cases h
    | some s1 =>
      rw [h1] at h
      obtain ⟨r0, hr0, hb1, ha1, hact1, hov1, hren1⟩ := layoutViewport_some dm szWin s s1 v h1
      obtain ⟨hb2, ha2, hact2, hov2, hframe, hsplit⟩ := ih s1 s' h
      have hrend : ∀ vp, rendererOf s1 vp = rendererOf s vp :=
        fun vp => rendererOf_congr s s1 vp hb1
      refine ⟨hb2.trans hb1, fun k => (ha2 k).trans (ha1 k), hact2.trans hact1,
        hov2.trans hov1, ?_, ?_⟩
      · intro r hr
        have hne : r ≠ r0 := by
          intro h'
          exact hr v (List.mem_cons_self _ _) (by rw [hr0, h'])
        rw [hframe r (fun vp hvp => by rw [hrend]; exact hr vp (List.mem_cons_of_mem _ hvp)),
          hren1]
        exact Function.update_noteq hne _ _
      · intro pre vp post hs
        cases pre with
        | nil =>
          simp only [List.nil_append, List.cons.injEq] at hs
          obtain ⟨rfl, rfl⟩ := hs
          refine ⟨r0, hr0, fun hlater => ?_⟩
          rw [hframe r0 (fun vp' hvp' => by rw [hrend]; exact hlater vp' hvp'), hren1,
            Function.update_same]
          exact ⟨rfl, rfl⟩
        | cons p pre' =>
          simp only [List.cons_append, List.cons.injEq] at hs
          obtain ⟨rfl, hrest⟩ := hs
          obtain ⟨r, hr, hprop⟩ := hsplit pre' vp post hrest
          refine ⟨r, by rw [← hrend]; exact hr, fun hlater => ?_⟩
          have := hprop (fun vp' hvp' => by rw [hrend]; exact hlater vp' hvp')
          rw [ha1] at this
          exact this

theorem viewportLoop_total (dm : StdMap ℚ ObjId) (szWin : Nat × Nat)
    (vps : List SubViewport) :
    ∀ s : GenericSliceRenderer, ViewportsHaveRenderers s vps →
      ∃ s', viewportLoop dm szWin vps s = some s' := by
  induction vps with
  | nil => intro s _; exact ⟨s, rfl⟩
  | cons v rest ih =>
    intro s h
    obtain ⟨r, hr⟩ := Option.isSome_iff_exists.1 (h v (List.mem_cons_self _ _))
    have hstep : ∃ s1, layoutViewport dm szWin s v = some s1 := by
      unfold rendererOf at hr
      cases hb : StdMap.find s.m_BaseLayerAssemblies v.layer_id with
      | none => rw [hb] at hr; cases hr
      | some la =>
        rw [hb] at hr
        simp only [Option.some_bind] at hr
        simp only [layoutViewport, StdMap.index, hb, hr]
        exact ⟨_, rfl⟩
    obtain ⟨s1, hs1⟩ := hstep
    obtain ⟨_, _, hb1, _⟩ := layoutViewport_some dm szWin s s1 v hs1
    have h' : ViewportsHaveRenderers s1 rest := by
      intro vp hvp
      rw [rendererOf_congr s s1 vp hb1]
      exact h vp (List.mem_cons_of_mem _ hvp)
    obtain ⟨s', hs'⟩ := ih s1 h'
    exact ⟨s', by simp only [viewportLoop, hs1]; exact hs'⟩

/-! ## `UpdateRendererLayout` as a whole -/

theorem updateRendererLayout_some (c : DepthConstants) (model : GenericSliceModel)
    (s s' : GenericSliceRenderer) (hrun : UpdateRendererLayout c model s = some s')
    (hwin : s.m_RenderWindow.isSome = true) :
    ∃ s1 depth_map, UpdateLayerDepth c model s = some s1
      ∧ depthMapLoop s1.m_Actors s.m_LayerTextureAssemblies [] = some depth_map
      ∧ s'.m_Actors = s1.m_Actors
      ∧ s'.m_BaseLayerAssemblies = s.m_BaseLayerAssemblies
      ∧ (∀ k, actorOf s' k = actorOf s k)
      ∧ (∀ pre vp post, model.vpList = pre ++ vp :: post →
          ∃ r, rendererOf s vp = some r
            ∧ ((∀ vp' ∈ post, rendererOf s vp' ≠ some r) →
                (s'.m_Renderers r).viewport = relPos vp model.GetViewportSize
                  ∧ (s'.m_Renderers r).props
                      = AddActor [] (actorOf s vp.layer_id) ++ StdMap.values depth_map)) := by
  unfold UpdateRendererLayout at hrun
  cases hw : s.m_RenderWindow with
  | none => rw [hw] at hwin; cases hwin
  | some w =>
    rw [hw] at hrun
    simp only at hrun
    cases h1 : UpdateLayerDepth c model s with
    | none => rw [h1] at hrun; cases hrun
    | some s1 =>
      rw [h1] at hrun
      simp only at hrun
      obtain ⟨f1, f2, f3, f4, f5⟩ := layerDepthLoop_frame c _ _ _ _ h1
      cases h2 : depthMapLoop s1.m_Actors s1.m_LayerTextureAssemblies [] with
      | none => rw [h2] at hrun; cases hrun
      | some dm =>
        rw [h2] at hrun
        simp only at hrun
        cases h3 : viewportLoop dm model.GetViewportSize model.vpList
            { s1 with m_RenderWindow := some [] } with
        | none => rw [h3] at hrun; cases hrun
        | some s3 =>
          rw [h3] at hrun
          simp only [Option.some.injEq] at hrun
          subst hrun
          obtain ⟨g1, g2, g3, _, _, g6⟩ := viewportLoop_final dm _ _ _ _ h3
          have hact : ∀ k, actorOf s3 k = actorOf s k := by
            intro k
            rw [g2 k]
            show (StdMap.find s1.m_LayerTextureAssemblies k).bind _ = _
            rw [f1]
            rfl
          have hrend : ∀ vp, rendererOf
              ({ s1 with m_RenderWindow := some [] } : GenericSliceRenderer) vp
                = rendererOf s vp :=
            fun vp => rendererOf_congr s _ vp f2
          refine ⟨s1, dm, rfl, by rw [← f1]; exact h2, g3, g1.trans f2, hact, ?_⟩
          intro pre vp post hsplit
          obtain ⟨r, hr, hprop⟩ := g6 pre vp post hsplit
          refine ⟨r, by rw [← hrend]; exact hr, fun hlater => ?_⟩
          have h := hprop (fun vp' hvp' => by rw [hrend]; exact hlater vp' hvp')
          have hact1 : actorOf ({ s1 with m_RenderWindow := some [] } : GenericSliceRenderer)
              vp.layer_id = actorOf s vp.layer_id := by
            show (StdMap.find s1.m_LayerTextureAssemblies vp.layer_id).bind _ = _
            rw [f1]
            rfl
          rw [hact1] at h
          exact h

theorem updateRendererLayout_total (c : DepthConstants) (model : GenericSliceModel)
    (s : GenericSliceRenderer) (hact : HasActors s model.GetImageData)
    (hall : AllAssembliesHaveActors s) (hvp : ViewportsHaveRenderers s model.vpList) :
    ∃ s', UpdateRendererLayout c model s = some s' := by
  unfold UpdateRendererLayout
  cases hw : s.m_RenderWindow with
  | none => exact ⟨s, rfl⟩
  | some w =>
    obtain ⟨s1, h1, h2, _, _⟩ := updateLayerDepth_spec c model s hact
    obtain ⟨_, f2, _, _, _⟩ := layerDepthLoop_frame c _ _ _ _ h1
    have hdm := depthMapLoop_eq_foldl s1.m_Actors s1.m_LayerTextureAssemblies []
      (by rw [h2]; exact hall)
    have hvp' : ViewportsHaveRenderers
        ({ s1 with m_RenderWindow := some [] } : GenericSliceRenderer) model.vpList := by
      intro vp hmem
      have e := rendererOf_congr s
        ({ s1 with m_RenderWindow := some [] } : GenericSliceRenderer) vp f2
      rw [e]
      exact hvp vp hmem
    obtain ⟨s3, h3⟩ := viewportLoop_total
      ((positiveDepthActors s1.m_Actors s1.m_LayerTextureAssemblies).foldl
        (fun acc p => StdMap.assign acc p.1 p.2) [])
      model.GetViewportSize model.vpList _ hvp'
    simp only [h1, hdm, h3]
    exact ⟨_, rfl⟩

theorem StdMap.value_unique {κ ν : Type} (m : StdMap κ ν) (h : (StdMap.keys m).Nodup)
    (k : κ) (v w : ν) (hv : (k, v) ∈ m) (hw : (k, w) ∈ m) : v = w := by
  induction m with
  | nil => cases hv
  | cons hd tl ih =>
    have hnd : hd.1 ∉ StdMap.keys tl ∧ (StdMap.keys tl).Nodup := by
      simpa [StdMap.keys] using h
    have hmem : ∀ u, (k, u) ∈ tl → k ∈ StdMap.keys tl :=
      fun u hu => List.mem_map.2 ⟨(k, u), hu, rfl⟩
    rcases List.mem_cons.1 hv with hv | hv <;> rcases List.mem_cons.1 hw with hw | hw
    · rw [← hw] at hv
      exact (Prod.mk.inj hv).2
    · exact absurd (hmem w hw) (by rw [← hv] at hnd; exact hnd.1)
    · exact absurd (hmem v hv) (by rw [← hw] at hnd; exact hnd.1)
    · exact ih hnd.2 hv hw

theorem StdMap.nodup_of_keys {κ ν : Type} (m : StdMap κ ν) (h : (StdMap.keys m).Nodup) :
    m.Nodup := List.Nodup.of_map Prod.fst h

theorem depthMap_spec (actors : ObjId → vtkActor) (m : StdMap Nat LayerTextureAssembly)
    (dm : StdMap ℚ ObjId) (h : depthMapLoop actors m [] = some dm) :
    (StdMap.keys dm).Pairwise (· < ·)
      ∧ (∀ p ∈ dm, p ∈ positiveDepthActors actors m)
      ∧ (∀ pre p post, positiveDepthActors actors m = pre ++ p :: post →
          (∀ q ∈ post, q.1 ≠ p.1) → p ∈ dm)
      ∧ (((positiveDepthActors actors m).map Prod.fst).Nodup →
          List.Perm dm (positiveDepthActors actors m)) := by
  have hall := depthMapLoop_some actors m [] dm h
  rw [depthMapLoop_eq_foldl actors m [] hall] at h
  simp only [Option.some.injEq] at h
  have hsorted : (StdMap.keys dm).Pairwise (· < ·) := by
    rw [← h]
    exact StdMap.foldl_assign_sorted _ _ List.Pairwise.nil
  have hsub : ∀ p ∈ dm, p ∈ positiveDepthActors actors m := by
    intro p hp
    rw [← h] at hp
    rcases StdMap.mem_foldl_assign _ _ _ hp with hp | hp
    · cases hp
    · exact hp
  have hlast : ∀ pre p post, positiveDepthActors actors m = pre ++ p :: post →
      (∀ q ∈ post, q.1 ≠ p.1) → p ∈ dm := by
    intro pre p post hsplit hpost
    have hf := StdMap.find_foldl_assign_last pre post p ([] : StdMap ℚ ObjId) hpost
    rw [← hsplit, h] at hf
    exact StdMap.mem_of_find dm p.1 p.2 hf
  refine ⟨hsorted, hsub, hlast, ?_⟩
  intro hnd
  refine (List.perm_ext_iff_of_nodup (StdMap.nodup_of_keys dm hsorted.nodup)
    (List.Nodup.of_map Prod.fst hnd)).2 (fun p => ⟨hsub p, fun hp => ?_⟩)
  obtain ⟨pre, post, hsplit⟩ := List.append_of_mem hp
  refine hlast pre p post hsplit (fun q hq hqp => ?_)
  rw [hsplit, List.map_append, List.map_cons] at hnd
  have h2 := (List.nodup_cons.1 (List.Nodup.of_append_right hnd)).1
  exact h2 (by rw [← hqp]; exact List.mem_map.2 ⟨q, hq, rfl⟩)

/-- C8, amended. When `UpdateRendererLayout` returns for a renderer with a render window,
the actors added to the renderer of each viewport (as it stands at the end, no later
viewport using the same renderer) are the actor of the viewport's own layer followed by the
values of the depth map; the depths are those left by `UpdateLayerDepth`.  The depth map is
strictly ascending in depth, each of its entries is a texture assembly's actor at a
positive depth, and for every positive depth it holds the actor of the last assembly (in
the order of the assembly map) at that depth.  When the positive depths are pairwise
different the depth map holds every actor at a positive depth exactly once. -/
theorem updateRendererLayout_actors (c : DepthConstants) (model : GenericSliceModel)
    (s s' : GenericSliceRenderer) (hrun : UpdateRendererLayout c model s = some s')
    (hwin : s.m_RenderWindow.isSome = true) :
    ∃ (s1 : GenericSliceRenderer) (depth_map : StdMap ℚ ObjId),
      UpdateLayerDepth c model s = some s1 ∧ s'.m_Actors = s1.m_Actors
      ∧ (StdMap.keys depth_map).Pairwise (· < ·)
      ∧ (∀ p ∈ depth_map, p ∈ positiveDepthActors s'.m_Actors s.m_LayerTextureAssemblies)
      ∧ (∀ pre p post,
          positiveDepthActors s'.m_Actors s.m_LayerTextureAssemblies = pre ++ p :: post →
          (∀ q ∈ post, q.1 ≠ p.1) → p ∈ depth_map)
      ∧ (((positiveDepthActors s'.m_Actors s.m_LayerTextureAssemblies).map Prod.fst).Nodup →
          List.Perm depth_map (positiveDepthActors s'.m_Actors s.m_LayerTextureAssemblies))
      ∧ (∀ pre vp post, model.vpList = pre ++ vp :: post →
          ∃ r, rendererOf s vp = some r
            ∧ ((∀ vp' ∈ post, rendererOf s vp' ≠ some r) →
                (s'.m_Renderers r).props
                  = AddActor [] (actorOf s vp.layer_id) ++ StdMap.values depth_map)) := by
  obtain ⟨s1, dm, h1, h2, h3, _, _, h6⟩ := updateRendererLayout_some c model s s' hrun hwin
  obtain ⟨d1, d2, d3, d4⟩ := depthMap_spec s1.m_Actors s.m_LayerTextureAssemblies dm h2
  rw [← h3] at d2 d3 d4
  refine ⟨s1, dm, h1, h3, d1, d2, d3, d4, ?_⟩
  intro pre vp post hsplit
  obtain ⟨r, hr, hprop⟩ := h6 pre vp post hsplit
  exact ⟨r, hr, fun hlater => (hprop hlater).2⟩

/-- Witness of C8: in the scenario the layout returns, and the renderer of the only
viewport holds the actor of A followed by the values of an ascending depth map. -/
theorem updateRendererLayout_actors_witness :
    ∃ (s' : GenericSliceRenderer) (depth_map : StdMap ℚ ObjId),
      UpdateRendererLayout scenarioDepths (scenarioModel [layerA, layerB, layerS]) scenarioABS
          = some s'
        ∧ (StdMap.keys depth_map).Pairwise (· < ·)
        ∧ (s'.m_Renderers 1018).props = 1005 :: StdMap.values depth_map := by
  obtain ⟨s', hs'⟩ := updateRendererLayout_total scenarioDepths
    (scenarioModel [layerA, layerB, layerS]) scenarioABS (by decide) (by decide) (by decide)
  obtain ⟨_, dm, _, _, h3, _, _, _, h7⟩ := updateRendererLayout_actors scenarioDepths
    (scenarioModel [layerA, layerB, layerS]) scenarioABS s' hs' (by decide)
  obtain ⟨r, hr, hprop⟩ := h7 [] ⟨1, (0, 0), (100, 100), false⟩ [] rfl
  have hr' : r = 1018 := by
    have : rendererOf scenarioABS ⟨1, (0, 0), (100, 100), false⟩ = some 1018 := by decide
    rw [this] at hr
    exact (Option.some.inj hr).symm
  subst hr'
  refine ⟨s', dm, hs', h3, ?_⟩
  rw [hprop (fun _ h => by cases h)]
  have : actorOf scenarioABS 1 = some 1005 := by decide
  simp [this, AddActor]

/-- C8 as stated fails: with two label layers (ids 3 and 8) both actors lie at the positive
depth 1/50, yet the renderer of the viewport gets the actor of A and the actor of layer 8
only; the actor 1011 of layer 3 is not added. -/
theorem updateRendererLayout_drops_actor_at_equal_depth :
    ∃ s', UpdateRendererLayout scenarioDepths (scenarioModel [layerA, layerS, layerS2])
          twoLabelState = some s'
      ∧ actorOf twoLabelState 3 = some 1011
      ∧ 0 < depthOfActor s' 1011
      ∧ rendererOf twoLabelState ⟨1, (0, 0), (100, 100), false⟩ = some 1018
      ∧ (s'.m_Renderers 1018).props = [1005, 1017]
      ∧ 1011 ∉ (s'.m_Renderers 1018).props := by
  have h : (UpdateRendererLayout scenarioDepths (scenarioModel [layerA, layerS, layerS2])
      twoLabelState).map (fun s' => ((s'.m_Renderers 1018).props, depthOfActor s' 1011))
        = some ([1005, 1017], 1 / 50) := by decide!
  cases hU : UpdateRendererLayout scenarioDepths (scenarioModel [layerA, layerS, layerS2])
      twoLabelState with
  | none => rw [hU] at h; cases h
  | some s' =>
    rw [hU] at h
    simp only [Option.map_some', Option.some.injEq, Prod.mk.injEq] at h
    refine ⟨s', rfl, by decide, ?_, by decide, h.1, ?_⟩
    · rw [h.2]; norm_num
    · rw [h.1]; decide

/-- C10, amended. When `UpdateRendererLayout` returns for a renderer with a render window,
for a viewport whose rectangle lies inside a window of positive width `W` and height `H`
(both `unsigned int`, so below 2^32) the normalized viewport passed to `SetViewport` is
`(x0, y0, x1, y1)`, four finite values of `double`: `x0` is `pos.x / W` rounded to
`double` and `x1` is the rounded sum of `x0` and the rounded `size.x / W`, likewise in y.
The lower edges are within 2^-54 of `pos / W` and the upper edges within 2^-52 of
`(pos + size) / W`; the four values lie in `[0, 1]` with the lower edge not above the
upper edge on each axis, and `(x0, y0, x1, y1)` is the viewport of the viewport's renderer
at the end unless a later viewport uses the same renderer. -/
theorem updateRendererLayout_viewport (c : DepthConstants) (model : GenericSliceModel)
    (s s' : GenericSliceRenderer) (hrun : UpdateRendererLayout c model s = some s')
    (hwin : s.m_RenderWindow.isSome = true) (pre post : List SubViewport) (vp : SubViewport)
    (hsplit : model.vpList = pre ++ vp :: post)
    (hW : 0 < model.GetViewportSize.1) (hH : 0 < model.GetViewportSize.2)
    (hW32 : model.GetViewportSize.1 < 2 ^ 32) (hH32 : model.GetViewportSize.2 < 2 ^ 32)
    (hx : vp.pos.1 + vp.size.1 ≤ model.GetViewportSize.1)
    (hy : vp.pos.2 + vp.size.2 ≤ model.GetViewportSize.2) :
    ∃ x0 y0 x1 y1 : ℚ,
      relPos vp model.GetViewportSize = ⟨.finite x0, .finite y0, .finite x1, .finite y1⟩
      ∧ x0 = binary64.round ((vp.pos.1 : ℚ) / (model.GetViewportSize.1 : ℚ))
      ∧ y0 = binary64.round ((vp.pos.2 : ℚ) / (model.GetViewportSize.2 : ℚ))
      ∧ x1 = binary64.round
          (x0 + binary64.round ((vp.size.1 : ℚ) / (model.GetViewportSize.1 : ℚ)))
      ∧ y1 = binary64.round
          (y0 + binary64.round ((vp.size.2 : ℚ) / (model.GetViewportSize.2 : ℚ)))
      ∧ |x0 - (vp.pos.1 : ℚ) / (model.GetViewportSize.1 : ℚ)| ≤ 1 / 2 ^ 54
      ∧ |y0 - (vp.pos.2 : ℚ) / (model.GetViewportSize.2 : ℚ)| ≤ 1 / 2 ^ 54
      ∧ |x1 - ((vp.pos.1 : ℚ) + (vp.size.1 : ℚ)) / (model.GetViewportSize.1 : ℚ)|
          ≤ 1 / 2 ^ 52
      ∧ |y1 - ((vp.pos.2 : ℚ) + (vp.size.2 : ℚ)) / (model.GetViewportSize.2 : ℚ)|
          ≤ 1 / 2 ^ 52
      ∧ (0 ≤ x0 ∧ x0 ≤ x1 ∧ x1 ≤ 1)
      ∧ (0 ≤ y0 ∧ y0 ≤ y1 ∧ y1 ≤ 1)
      ∧ ∃ r, rendererOf s vp = some r
          ∧ ((∀ vp' ∈ post, rendererOf s vp' ≠ some r) →
              (s'.m_Renderers r).viewport
                = ⟨.finite x0, .finite y0, .finite x1, .finite y1⟩) := by
  obtain ⟨ex, ex0, ex01, ex1, exl, exu⟩ :=
    relPosAxis_spec vp.pos.1 vp.size.1 model.GetViewportSize.1 hW hW32 hx
  obtain ⟨ey, ey0, ey01, ey1, eyl, eyu⟩ :=
    relPosAxis_spec vp.pos.2 vp.size.2 model.GetViewportSize.2 hH hH32 hy
  have hrel : relPos vp model.GetViewportSize
      = ⟨.finite (binary64.round ((vp.pos.1 : ℚ) / (model.GetViewportSize.1 : ℚ))),
         .finite (binary64.round ((vp.pos.2 : ℚ) / (model.GetViewportSize.2 : ℚ))),
         .finite (binary64.round
            (binary64.round ((vp.pos.1 : ℚ) / (model.GetViewportSize.1 : ℚ))
              + binary64.round ((vp.size.1 : ℚ) / (model.GetViewportSize.1 : ℚ)))),
         .finite (binary64.round
            (binary64.round ((vp.pos.2 : ℚ) / (model.GetViewportSize.2 : ℚ))
              + binary64.round ((vp.size.2 : ℚ) / (model.GetViewportSize.2 : ℚ))))⟩ := by
    unfold relPos
    rw [ex, ey]
  refine ⟨_, _, _, _, hrel, rfl, rfl, rfl, rfl, exl, eyl, exu, eyu, ⟨ex0, ex01, ex1⟩,
    ⟨ey0, ey01, ey1⟩, ?_⟩
  obtain ⟨_, _, _, _, _, _, _, h6⟩ := updateRendererLayout_some c model s s' hrun hwin
  obtain ⟨r, hr, hprop⟩ := h6 pre vp post hsplit
  exact ⟨r, hr, fun hlater => by rw [(hprop hlater).1, hrel]⟩

/-- Witness of C10: in a window of 200 x 100 pixels the viewport of 100 x 50 pixels at
(50, 25) gives its renderer the normalized viewport (1/4, 1/4, 3/4, 3/4). -/
theorem updateRendererLayout_viewport_witness :
    ∃ s', UpdateRendererLayout scenarioDepths quadrantModel scenarioABS = some s'
      ∧ (s'.m_Renderers 1018).viewport
          = ⟨.finite (1 / 4), .finite (1 / 4), .finite (3 / 4), .finite (3 / 4)⟩ := by
  obtain ⟨s', hs'⟩ := updateRendererLayout_total scenarioDepths quadrantModel scenarioABS
    (by decide) (by decide) (by decide)
  obtain ⟨x0, y0, x1, y1, hrel, _, _, _, _, _, _, _, _, _, _, r, hr, hprop⟩ :=
    updateRendererLayout_viewport scenarioDepths quadrantModel scenarioABS s' hs' (by decide)
      [] [] ⟨1, (50, 25), (100, 50), false⟩ rfl (by decide) (by decide) (by decide)
      (by decide) (by decide) (by decide)
  have hr' : r = 1018 := by
    have : rendererOf scenarioABS ⟨1, (50, 25), (100, 50), false⟩ = some 1018 := by decide
    rw [this] at hr
    exact (Option.some.inj hr).symm
  subst hr'
  have hval : relPos ⟨1, (50, 25), (100, 50), false⟩ quadrantModel.GetViewportSize
      = ⟨.finite (1 / 4), .finite (1 / 4), .finite (3 / 4), .finite (3 / 4)⟩ := by decide!
  refine ⟨s', hs', ?_⟩
  rw [hprop (fun _ h => by cases h), ← hrel, hval]

/-- C10 as stated fails: in a window of 10 x 10 pixels the viewport of 2 x 7 pixels at
(1, 1) gets the upper edges 0.1 + 0.2 and 0.1 + 0.7 computed in `double`, which are
0.30000000000000004 (5404319552844596 / 2^54) and 0.7999999999999999
(7205759403792793 / 2^53): neither 3/10 and 8/10 nor the values of `double` nearest to
them (5404319552844595 / 2^54 and 7205759403792794 / 2^53). -/
theorem updateRendererLayout_upper_edge_rounded :
    ∃ s', UpdateRendererLayout scenarioDepths tenthsModel scenarioABS = some s'
      ∧ rendererOf scenarioABS ⟨1, (1, 1), (2, 7), false⟩ = some 1018
      ∧ (s'.m_Renderers 1018).viewport.xmax
          = .finite (5404319552844596 / 18014398509481984)
      ∧ (s'.m_Renderers 1018).viewport.ymax
          = .finite (7205759403792793 / 9007199254740992)
      ∧ (s'.m_Renderers 1018).viewport.xmax ≠ .finite (((1 : ℚ) + 2) / 10)
      ∧ (s'.m_Renderers 1018).viewport.ymax ≠ .finite (((1 : ℚ) + 7) / 10)
      ∧ (s'.m_Renderers 1018).viewport.xmax ≠ binary64.ofRat (((1 : ℚ) + 2) / 10)
      ∧ (s'.m_Renderers 1018).viewport.ymax ≠ binary64.ofRat (((1 : ℚ) + 7) / 10) := by
  have h : (UpdateRendererLayout scenarioDepths tenthsModel scenarioABS).map
      (fun s' => ((s'.m_Renderers 1018).viewport.xmax, (s'.m_Renderers 1018).viewport.ymax))
        = some (.finite (5404319552844596 / 18014398509481984),
            .finite (7205759403792793 / 9007199254740992)) := by decide!
  cases hU : UpdateRendererLayout scenarioDepths tenthsModel scenarioABS with
  | none => rw [hU] at h; cases h
  | some s' =>
    rw [hU] at h
    simp only [Option.map_some', Option.some.injEq, Prod.mk.injEq] at h
    refine ⟨s', rfl, by decide, h.1, h.2, ?_, ?_, ?_, ?_⟩
    · rw [h.1]
      decide!
    · rw [h.2]
      decide!
    · rw [h.1]
      decide!
    · rw [h.2]
      decide!

/-! ## `OnUpdate` -/

theorem withSliceCamera_idem (model : GenericSliceModel) (r : vtkRenderer) (n : Int) :
    withSliceCamera model (withSliceCamera model r n) n = withSliceCamera model r n := rfl

theorem cameraLoop_spec (model : GenericSliceModel) (l : List (Nat × BaseLayerAssembly)) :
    ∀ s : GenericSliceRenderer,
      (∀ it ∈ l, (it.2.m_Renderer.bind
        (fun ren => sz_logical model (s.m_Renderers ren).size.2)).isSome = true) →
      ∃ s', cameraLoop model l s = some s'
        ∧ (∀ ren, (∃ it ∈ l, it.2.m_Renderer = some ren) →
            ∃ n, sz_logical model (s.m_Renderers ren).size.2 = some n
              ∧ s'.m_Renderers ren = withSliceCamera model (s.m_Renderers ren) n)
        ∧ (∀ ren, (¬ ∃ it ∈ l, it.2.m_Renderer = some ren) →
            s'.m_Renderers ren = s.m_Renderers ren) := by
  induction l with
  | nil =>
    intro s _
    refine ⟨s, rfl, ?_, fun _ _ => rfl⟩
    rintro ren ⟨it, hit, _⟩
    cases hit
  | cons it0 rest ih =>
    intro s h
    have h0 := h it0 (List.mem_cons_self _ _)
    obtain ⟨ren0, hren0⟩ : ∃ ren0, it0.2.m_Renderer = some ren0 := by
      cases hr : it0.2.m_Renderer with
      | none => rw [hr] at h0; cases h0
      | some ren0 => exact ⟨ren0, rfl⟩
    rw [hren0] at h0
    obtain ⟨n0, hn0⟩ := Option.isSome_iff_exists.1 h0
    have hn0' : sz_logical model (s.m_Renderers ren0).size.2 = some n0 := hn0
    have hstep : cameraLoop model (it0 :: rest) s
        = cameraLoop model rest { s with
            m_Renderers := Function.update s.m_Renderers ren0
              (withSliceCamera model (s.m_Renderers ren0) n0) } := by
      simp only [cameraLoop, hren0, hn0']
      rfl
    have hsize : ∀ ren, (Function.update s.m_Renderers ren0
        (withSliceCamera model (s.m_Renderers ren0) n0) ren).size
          = (s.m_Renderers ren).size := by
      intro ren
      by_cases he : ren = ren0
      · subst he
        rw [Function.update_same]
        rfl
      · rw [Function.update_noteq he]
    obtain ⟨s', hs', hin, hout⟩ := ih { s with
      m_Renderers := Function.update s.m_Renderers ren0
        (withSliceCamera model (s.m_Renderers ren0) n0) }
      (fun it hit => by
        have := h it (List.mem_cons_of_mem _ hit)
        cases hr : it.2.m_Renderer with
        | none => rw [hr] at this; cases this
        | some ren =>
          rw [hr] at this
          show (sz_logical model (Function.update s.m_Renderers ren0 _ ren).size.2).isSome
            = true
          rw [hsize ren]
          exact this)
    refine ⟨s', by rw [hstep]; exact hs', ?_, ?_⟩
    · rintro ren ⟨it, hit, hr⟩
      by_cases hrest : ∃ it ∈ rest, it.2.m_Renderer = some ren
      · obtain ⟨n, hn, hs⟩ := hin ren hrest
        have hn' : sz_logical model (s.m_Renderers ren).size.2 = some n := by
          rw [← hsize ren]
          exact hn
        refine ⟨n, hn', ?_⟩
        rw [hs]
        show withSliceCamera model (Function.update s.m_Renderers ren0 _ ren) n = _
        by_cases he : ren = ren0
        · subst he
          have hnn : n = n0 := by
            rw [hn0'] at hn'
            exact (Option.some.inj hn').symm
          subst hnn
          rw [Function.update_same, withSliceCamera_idem]
        · rw [Function.update_noteq he]
      · rw [hout ren hrest]
        have he : ren = ren0 := by
          rcases List.mem_cons.1 hit with rfl | hit
          · rw [hren0] at hr
            exact (Option.some.inj hr).symm
          · exact absurd ⟨it, hit, hr⟩ hrest
        subst he
        refine ⟨n0, hn0', ?_⟩
        show Function.update s.m_Renderers ren _ ren = _
        rw [Function.update_same]
    · intro ren hnot
      have hrest : ¬ ∃ it ∈ rest, it.2.m_Renderer = some ren := by
        rintro ⟨it, hit, hr⟩
        exact hnot ⟨it, List.mem_cons_of_mem _ hit, hr⟩
      have he : ren ≠ ren0 := by
        intro he
        exact hnot ⟨it0, List.mem_cons_self _ _, by rw [hren0, he]⟩
      rw [hout ren hrest]
      show Function.update s.m_Renderers ren0 _ ren = _
      rw [Function.update_noteq he]

theorem toInt_of_int (n : Int) : toInt (n : ℚ) = n := by
  unfold toInt
  split_ifs <;> simp

theorem toInt32_eq_some (x : FloatValue) (n : Int) (h : x.toInt32 = some n) :
    ∃ v, x = .finite v ∧ n = toInt v := by
  cases x with
  | finite v =>
    simp only [FloatValue.toInt32] at h
    split_ifs at h
    exact ⟨v, rfl, (Option.some.inj h).symm⟩
  | infinite b => cases h
  | nan => cases h

theorem ofRat_eq_finite_iff (fmt : FloatFormat) (x v : ℚ) (h : fmt.ofRat x = .finite v) :
    v = fmt.round x := by
  unfold FloatFormat.ofRat at h
  split_ifs at h
  exact (FloatValue.finite.inj h).symm

/-- The logical height for a non-zero pixel ratio and a height of fewer than 24 bits: the
quotient rounded to the type of the ratio, with the fractional part dropped. -/
theorem sz_logical_eq (model : GenericSliceModel) (h n : Int)
    (hratio : model.GetViewportPixelRatio ≠ 0) (hh : |h| < (2 : Int) ^ 24)
    (hn : sz_logical model h = some n) :
    n = toInt (model.PixelRatioType.format.round ((h : ℚ) / model.GetViewportPixelRatio)) := by
  unfold sz_logical at hn
  rw [FloatFormat.format_ofInt _ h hh] at hn
  obtain ⟨v, hv, hnv⟩ := toInt32_eq_some _ n hn
  have hd : model.PixelRatioType.format.div (.finite (h : ℚ))
      (.finite model.GetViewportPixelRatio)
        = model.PixelRatioType.format.ofRat ((h : ℚ) / model.GetViewportPixelRatio) := by
    show (if model.GetViewportPixelRatio = 0 then _ else _) = _
    rw [if_neg hratio]
  rw [hd] at hv
  rw [hnv, ofRat_eq_finite_iff _ _ _ hv]

/-- The parallel scale for a non-zero zoom and a logical height of fewer than 24 bits:
the quotient rounded to the type of the zoom, an infinity when it exceeds the range. -/
theorem pscale_eq (model : GenericSliceModel) (n : Int) (hzoom : model.GetViewZoom ≠ 0)
    (hn : |n| < (2 : Int) ^ 24) :
    pscale model n = model.ViewZoomType.format.ofRat ((n : ℚ) / model.GetViewZoom) := by
  unfold pscale
  rw [FloatFormat.format_ofInt _ n hn]
  have hd : model.ViewZoomType.format.div (.finite (n : ℚ)) (.finite model.GetViewZoom)
      = model.ViewZoomType.format.ofRat ((n : ℚ) / model.GetViewZoom) := by
    show (if model.GetViewZoom = 0 then _ else _) = _
    rw [if_neg hzoom]
  rw [hd, FloatFormat.convert_ofRat]

/-- C11, amended. When every base layer assembly holds its primary renderer and the
conversion to `int sz_logical` is defined for the height of each of these renderers (the
floating-point quotient height / pixel ratio is finite and within the range of `int`, which
needs a non-zero pixel ratio), `UpdateRendererCameras` returns and the primary renderer of
every base layer assembly is left as it was except for its camera: focal point
`(px, py, 0)`, position `(px, py, 1)`, view-up `(0, 1, 0)`, and the parallel scale
`pscale`, the floating-point quotient `n / zoom` for the `int` `n = sz_logical`.  For a
non-zero pixel ratio and a height below 2^24 in magnitude, `n` is the quotient height /
pixel ratio rounded to the type of the ratio, with the fractional part dropped; it is the
exact quotient when that is an integer below 2^24 in magnitude.  For a non-zero zoom and
`n` below 2^24 in magnitude the parallel scale is `n / zoom` rounded to the type of the
zoom (an infinity when that exceeds the range), so a finite parallel scale is within half
a unit in the last place of `n / zoom`. -/
theorem updateRendererCameras_camera (model : GenericSliceModel) (s : GenericSliceRenderer)
    (hdef : LogicalHeightsDefined model s) :
    ∃ s', UpdateRendererCameras model s = some s'
      ∧ ∀ it ∈ s.m_BaseLayerAssemblies, ∀ ren, it.2.m_Renderer = some ren →
          ∃ n : Int, sz_logical model (s.m_Renderers ren).size.2 = some n
            ∧ s'.m_Renderers ren = withSliceCamera model (s.m_Renderers ren) n
            ∧ (s'.m_Renderers ren).camera.focalPoint
                = ⟨model.GetViewPosition.1, model.GetViewPosition.2, 0⟩
            ∧ (s'.m_Renderers ren).camera.position
                = ⟨model.GetViewPosition.1, model.GetViewPosition.2, 1⟩
            ∧ (s'.m_Renderers ren).camera.viewUp = ⟨0, 1, 0⟩
            ∧ (s'.m_Renderers ren).camera.parallelScale = pscale model n
            ∧ (model.GetViewportPixelRatio ≠ 0 →
                |(s.m_Renderers ren).size.2| < (2 : Int) ^ 24 →
                n = toInt (model.PixelRatioType.format.round
                      (((s.m_Renderers ren).size.2 : ℚ) / model.GetViewportPixelRatio))
                  ∧ ∀ k : Int, |k| < (2 : Int) ^ 24 →
                      ((s.m_Renderers ren).size.2 : ℚ)
                        = (k : ℚ) * model.GetViewportPixelRatio → n = k)
            ∧ (model.GetViewZoom ≠ 0 → |n| < (2 : Int) ^ 24 →
                (s'.m_Renderers ren).camera.parallelScale
                    = model.ViewZoomType.format.ofRat ((n : ℚ) / model.GetViewZoom)
                  ∧ ∀ v : ℚ, (s'.m_Renderers ren).camera.parallelScale = .finite v →
                      |v - (n : ℚ) / model.GetViewZoom|
                        ≤ model.ViewZoomType.format.ulp ((n : ℚ) / model.GetViewZoom) / 2) := by
  obtain ⟨s', hs', hin, _⟩ := cameraLoop_spec model s.m_BaseLayerAssemblies s hdef
  refine ⟨s', hs', ?_⟩
  intro it hit ren hr
  obtain ⟨n, hn, h1⟩ := hin ren ⟨it, hit, hr⟩
  have hps : (s'.m_Renderers ren).camera.parallelScale = pscale model n := by rw [h1]; rfl
  refine ⟨n, hn, h1, by rw [h1]; rfl, by rw [h1]; rfl, by rw [h1]; rfl, hps, ?_, ?_⟩
  · intro hratio hh
    have hq := sz_logical_eq model _ n hratio hh hn
    refine ⟨hq, ?_⟩
    intro k hk hmul
    have hquot : ((s.m_Renderers ren).size.2 : ℚ) / model.GetViewportPixelRatio = (k : ℚ) := by
      rw [hmul]
      exact mul_div_cancel_right₀ _ hratio
    rw [hq, hquot]
    have hround : model.PixelRatioType.format.round (k : ℚ) = (k : ℚ) := by
      cases model.PixelRatioType
      · exact FloatFormat.round_intCast binary32 k hk (by decide)
      · exact FloatFormat.round_intCast binary64 k
          (lt_of_lt_of_le hk (by norm_num [binary64])) (by decide)
    rw [hround, toInt_of_int]
  · intro hzoom hnlt
    have hp := pscale_eq model n hzoom hnlt
    refine ⟨by rw [hps, hp], ?_⟩
    intro v hv
    rw [hps, hp] at hv
    rw [ofRat_eq_finite_iff _ _ _ hv]
    exact FloatFormat.round_err _ _

/-- Witness of C11: at pixel ratio 2 and zoom 1 a primary renderer 300 device pixels high
gets the parallel scale 150 and its focal point over the view position (5, 5). -/
theorem updateRendererCameras_camera_witness :
    ∃ s', UpdateRendererCameras retinaModel evenHeightState = some s'
      ∧ (s'.m_Renderers 1018).camera.focalPoint = ⟨5, 5, 0⟩
      ∧ (s'.m_Renderers 1018).camera.parallelScale = .finite 150 := by
  obtain ⟨s', hs', h⟩ := updateRendererCameras_camera retinaModel evenHeightState (by decide!)
  obtain ⟨n, hn, _, hf, _, _, hp, _, _⟩ :=
    h (1, { m_Renderer := some 1018, m_ThumbRenderer := some 1019 }) (by decide) 1018 rfl
  have hn150 : sz_logical retinaModel (evenHeightState.m_Renderers 1018).size.2 = some 150 := by
    decide!
  have hnn : n = 150 := by
    rw [hn150] at hn
    exact (Option.some.inj hn).symm
  subst hnn
  refine ⟨s', hs', ?_, ?_⟩
  · rw [hf]
    rfl
  · rw [hp]
    decide!

/-- C11 as stated fails: a primary renderer 101 device pixels high at pixel ratio 2 and
zoom 1 gets the parallel scale 50, not (101 / 2) / 1, which is a number of `double`. -/
theorem updateRendererCameras_truncates_height :
    ∃ s', UpdateRendererCameras retinaModel oddHeightState = some s'
      ∧ rendererOf oddHeightState ⟨1, (0, 0), (100, 100), false⟩ = some 1018
      ∧ (oddHeightState.m_Renderers 1018).size.2 = 101
      ∧ retinaModel.GetViewportPixelRatio = 2 ∧ retinaModel.GetViewZoom = 1
      ∧ (s'.m_Renderers 1018).camera.parallelScale = .finite 50
      ∧ (s'.m_Renderers 1018).camera.parallelScale ≠ .finite (((101 : ℚ) / 2) / 1)
      ∧ binary64.ofRat (((101 : ℚ) / 2) / 1) = .finite (((101 : ℚ) / 2) / 1) := by
  have h : (UpdateRendererCameras retinaModel oddHeightState).map
      (fun s' => (s'.m_Renderers 1018).camera.parallelScale) = some (.finite 50) := by decide!
  cases hU : UpdateRendererCameras retinaModel oddHeightState with
  | none => rw [hU] at h; cases h
  | some s' =>
    rw [hU] at h
    simp only [Option.map_some', Option.some.injEq] at h
    refine ⟨s', rfl, by decide, by decide!, by decide!, by decide!, h, ?_, by decide!⟩
    rw [h]
    decide!

/-! ## Actors of the assemblies after reconciliation -/

/-- C17, evaluated on the code: the viewport layout names the layer id 99, which is not in
the current layer set A, B, S.  In the pass with the layer-set-changed notification the
viewport loop of `UpdateRendererLayout` reads `m_BaseLayerAssemblies[99]`, which files a
default-constructed assembly under the key 99 (the keys become 1, 2, 99), and then uses its
null renderer: the pass stops inside `UpdateRendererLayout` and does not complete. -/
theorem onUpdate_unknown_viewport_layer_fails :
    (∀ l ∈ strayViewportModel.GetCurrentImageData, l.GetUniqueId ≠ 99)
      ∧ StdMap.keys (UpdateLayerAssemblies strayViewportModel scenarioStart).m_BaseLayerAssemblies
          = [1, 2]
      ∧ StdMap.index {} (UpdateLayerAssemblies strayViewportModel
            scenarioStart).m_BaseLayerAssemblies 99
          = ({ m_Renderer := none, m_ThumbRenderer := none },
             [(1, { m_Renderer := some 1018, m_ThumbRenderer := some 1019 }),
              (2, { m_Renderer := some 1020, m_ThumbRenderer := some 1021 }),
              (99, { m_Renderer := none, m_ThumbRenderer := none })])
      ∧ (UpdateRendererLayout scenarioDepths strayViewportModel
            (UpdateLayerAssemblies strayViewportModel scenarioStart)).isSome = false
      ∧ (OnUpdate scenarioDepths strayViewportModel fullBucket scenarioStart).1
          = [Stage.UpdateLayerAssemblies, Stage.UpdateRendererLayout]
      ∧ (OnUpdate scenarioDepths strayViewportModel fullBucket scenarioStart).2.isSome
          = false := by
  refine ⟨by decide, by decide, by decide, by decide!, by decide!, by decide!⟩

/-! ## Camera snapshots of the 3D renderer -/

/-- C14. Camera snapshots of the 3D renderer: restoring after saving brings every camera
field back to its value at the time of the save, whatever was done to the live camera in
between; changing the live camera after saving leaves the snapshot as it was; a snapshot is
available after `SaveCameraState` and not after `DeleteSavedCameraState`; and
`GetCameraState` after `SetCameraState(st)` returns a state equal to `st` under the
structural `==`. -/
theorem cameraState_roundtrip (r : Generic3DRenderer) (st : CameraState) :
    r.SaveCameraState.RestoreSavedCameraState.camera = r.camera
      ∧ (r.SaveCameraState.SetCameraState st).RestoreSavedCameraState.camera = r.camera
      ∧ (r.SaveCameraState.SetCameraState st).m_SavedCameraState
          = r.SaveCameraState.m_SavedCameraState
      ∧ r.SaveCameraState.m_SavedCameraState = some r.camera
      ∧ r.SaveCameraState.IsSavedCameraStateAvailable = true
      ∧ r.DeleteSavedCameraState.IsSavedCameraStateAvailable = false
      ∧ r.SaveCameraState.DeleteSavedCameraState.IsSavedCameraStateAvailable = false
      ∧ CameraState.equals (r.SetCameraState st).GetCameraState st = true := by
  refine ⟨rfl, rfl, rfl, rfl, rfl, rfl, rfl, ?_⟩
  simp [CameraState.equals, Generic3DRenderer.SetCameraState,
    Generic3DRenderer.GetCameraState]

/-! ## The actor pool -/

theorem createNewActors_spec (n : Nat) :
    ∀ p : ActorPool,
      (ActorPool.CreateNewActors n p).m_ActorMap = p.m_ActorMap
        ∧ (ActorPool.CreateNewActors n p).m_NextObject = p.m_NextObject + n
        ∧ (ActorPool.CreateNewActors n p).m_ActorStorage.length
            = p.m_ActorStorage.length + n
        ∧ (ActorPool.CreateNewActors n p).m_SpareActors.length
            = p.m_SpareActors.length + n
        ∧ (∀ a : Nat, a ∈ (ActorPool.CreateNewActors n p).m_SpareActors →
            a ∈ p.m_SpareActors ∨ p.m_NextObject ≤ a)
        ∧ (∀ a : Nat, a ∈ (ActorPool.CreateNewActors n p).m_ActorStorage →
            a ∈ p.m_ActorStorage ∨ a < p.m_NextObject + n) := by
  induction n with
  | zero => intro p; exact ⟨rfl, rfl, rfl, rfl, fun a h => Or.inl h, fun a h => Or.inl h⟩
  | succ n ih =>
    intro p
    obtain ⟨h1, h2, h3, h4, h5, h6⟩ := ih { p with
      m_SpareActors := p.m_NextObject :: p.m_SpareActors
      m_ActorStorage := p.m_NextObject :: p.m_ActorStorage
      m_Actors := Function.update p.m_Actors p.m_NextObject {}
      m_NextObject := p.m_NextObject + 1 }
    simp only [ActorPool.CreateNewActors]
    have h2' : (ActorPool.CreateNewActors n _).m_NextObject = p.m_NextObject + 1 + n := h2
    have h3' : (ActorPool.CreateNewActors n _).m_ActorStorage.length
        = p.m_ActorStorage.length + 1 + n := h3
    have h4' : (ActorPool.CreateNewActors n _).m_SpareActors.length
        = p.m_SpareActors.length + 1 + n := h4
    refine ⟨h1, by rw [h2']; omega, by rw [h3']; omega, by rw [h4']; omega, ?_, ?_⟩
    · intro a ha
      rcases h5 a ha with h | h
      · rcases List.mem_cons.1 h with h | h
        · exact Or.inr (le_of_eq h.symm)
        · exact Or.inl h
      · have h' : p.m_NextObject + 1 ≤ a := h
        exact Or.inr (by omega)
    · intro a ha
      rcases h6 a ha with h | h
      · rcases List.mem_cons.1 h with h | h
        · exact Or.inr (by omega)
        · exact Or.inl h
      · have h' : a < p.m_NextObject + 1 + n := h
        exact Or.inr (by omega)

theorem getNewActor_spec (batch : Nat) (hb : 0 < batch) (p : ActorPool)
    (hinv : PoolInvariant p) :
    ∃ a p', ActorPool.GetNewActor batch p = some (a, p')
      ∧ p'.m_ActorMap = p.m_ActorMap ∧ PoolInvariant p'
      ∧ a ∉ StdMap.values p.m_ActorMap
      ∧ p.m_ActorStorage.length ≤ p'.m_ActorStorage.length := by
  unfold ActorPool.GetNewActor
  cases hs : p.m_SpareActors with
  | cons a rest =>
    simp only [List.isEmpty_cons, Bool.false_eq_true, if_false, hs]
    refine ⟨a, _, rfl, rfl, ⟨?_, hinv.2.1, hinv.2.2⟩, ?_, le_refl _⟩
    · intro x hx
      exact hinv.1 x (by rw [hs]; exact List.mem_cons_of_mem _ hx)
    · exact hinv.1 a (by rw [hs]; exact List.mem_cons_self _ _)
  | nil =>
    simp only [List.isEmpty_nil, if_true]
    obtain ⟨h1, h2, h3, h4, h5, h6⟩ := createNewActors_spec batch p
    cases hq : (ActorPool.CreateNewActors batch p).m_SpareActors with
    | nil =>
      rw [hq, hs] at h4
      simp at h4
      omega
    | cons a rest =>
      simp only
      have hfresh : ∀ x : Nat, x ∈ a :: rest → x ∉ StdMap.values p.m_ActorMap := by
        intro x hx hmem
        rw [← hq] at hx
        rcases h5 x hx with h | h
        · rw [hs] at h
          cases h
        · have := hinv.2.2 x hmem
          omega
      refine ⟨a, _, rfl, h1, ⟨?_, ?_, ?_⟩, hfresh a (List.mem_cons_self _ _), ?_⟩
      · intro x hx
        show x ∉ StdMap.values (ActorPool.CreateNewActors batch p).m_ActorMap
        rw [h1]
        exact hfresh x (List.mem_cons_of_mem _ hx)
      · intro x hx
        show x < (ActorPool.CreateNewActors batch p).m_NextObject
        have hx' : x ∈ (ActorPool.CreateNewActors batch p).m_ActorStorage := hx
        rw [h2]
        rcases h6 x hx' with h | h
        · have := hinv.2.1 x h
          omega
        · exact h
      · intro x hx
        show x < (ActorPool.CreateNewActors batch p).m_NextObject
        have hx' : x ∈ StdMap.values p.m_ActorMap := by
          have : x ∈ StdMap.values (ActorPool.CreateNewActors batch p).m_ActorMap := hx
          rw [h1] at this
          exact this
        have := hinv.2.2 x hx'
        rw [h2]
        omega
      · show p.m_ActorStorage.length
          ≤ (ActorPool.CreateNewActors batch p).m_ActorStorage.length
        rw [h3]
        omega

theorem recycle_spec (a : ObjId) (p : ActorPool) (hinv : PoolInvariant p)
    (ha : a ∉ StdMap.values p.m_ActorMap) :
    (ActorPool.Recycle a p).m_ActorMap = p.m_ActorMap
      ∧ PoolInvariant (ActorPool.Recycle a p)
      ∧ (ActorPool.Recycle a p).m_ActorStorage = p.m_ActorStorage := by
  refine ⟨rfl, ⟨?_, hinv.2.1, hinv.2.2⟩, rfl⟩
  intro x hx
  rcases List.mem_cons.1 hx with h | h
  · rw [h]; exact ha
  · exact hinv.1 x h

theorem values_assign_subset (m : StdMap Nat ObjId) (k : Nat) (v x : ObjId)
    (h : x ∈ StdMap.values (StdMap.assign m k v)) : x = v ∨ x ∈ StdMap.values m := by
  obtain ⟨q, hq, rfl⟩ := List.mem_map.1 h
  rcases StdMap.mem_assign m k v q hq with h1 | h1
  · left
    rw [h1]
  · right
    exact List.mem_map.2 ⟨q, h1, rfl⟩

theorem values_erase_subset (m : StdMap Nat ObjId) (k : Nat) (x : ObjId)
    (h : x ∈ StdMap.values (StdMap.erase m k)) : x ∈ StdMap.values m := by
  induction m with
  | nil => exact h
  | cons hd tl ih =>
    obtain ⟨k0, v0⟩ := hd
    by_cases h0 : k0 = k
    · simp only [StdMap.erase, if_pos h0] at h
      exact List.mem_cons_of_mem _ h
    · simp only [StdMap.erase, if_neg h0, StdMap.values, List.map_cons] at h
      rcases List.mem_cons.1 h with h | h
      · rw [h]
        exact List.mem_cons_self _ _
      · exact List.mem_cons_of_mem _ (ih h)

/-- One admissible call on a pool that satisfies the invariant returns, keeps the
invariant and the size of the storage, and returns an actor exactly if it is
`GetNewActor`, the actor not being a value of the active map. -/
theorem runPoolCall_spec (batch : Nat) (hb : 0 < batch) (p : ActorPool)
    (hinv : PoolInvariant p) (call : PoolCall) (hadm : call.Admissible p) :
    ∃ r p1, runPoolCall batch p call = some (r, p1)
      ∧ PoolInvariant p1
      ∧ (∀ a, r = some a → a ∉ StdMap.values p1.m_ActorMap)
      ∧ (call = .GetNewActor ↔ r.isSome = true)
      ∧ p.m_ActorStorage.length ≤ p1.m_ActorStorage.length := by
  cases call with
  | GetNewActor =>
    obtain ⟨a, p1, h1, h2, h3, h4, h5⟩ := getNewActor_spec batch hb p hinv
    refine ⟨some a, p1, (by simp only [runPoolCall, h1, Option.map_some']), h3, ?_,
      (by simp), h5⟩
    intro x hx
    rw [h2, ← Option.some.inj hx]
    exact h4
  | Recycle a =>
    obtain ⟨_, h2, h3⟩ := recycle_spec a p hinv hadm
    refine ⟨none, ActorPool.Recycle a p, rfl, h2, fun _ h => (by cases h), (by simp), ?_⟩
    rw [h3]
  | Assign label a =>
    refine ⟨none, _, rfl, ⟨?_, hinv.2.1, ?_⟩, fun _ h => (by cases h), (by simp), le_refl _⟩
    · intro x hx hmem
      rcases values_assign_subset _ _ _ _ hmem with h | h
      · rw [h] at hx
        exact hadm.2 hx
      · exact hinv.1 x hx h
    · intro x hmem
      rcases values_assign_subset _ _ _ _ hmem with h | h
      · rw [h]
        exact hinv.2.1 a hadm.1
      · exact hinv.2.2 x h
  | Erase label =>
    refine ⟨none, _, rfl, ⟨?_, hinv.2.1, ?_⟩, fun _ h => (by cases h), (by simp), le_refl _⟩
    · intro x hx hmem
      exact hinv.1 x hx (values_erase_subset _ _ _ hmem)
    · intro x hmem
      exact hinv.2.2 x (values_erase_subset _ _ _ hmem)

/-- C15, amended. With a positive batch size, from a pool in which no spare actor is
active and the actors were made earlier (the newly constructed pool is one), every
sequence of `GetNewActor` and `Recycle` calls and of assignments and erasures in the active
map, in which no actor is recycled while it is a value of the active map and only actors of
the storage that are not on the spare stack are filed in the active map, returns; after
every call no actor is both on the spare stack and a value of the active map, the actor
returned by a `GetNewActor` call (these calls and no others return one) is not a value of
the active map, and the storage never shrinks from one call to the next. -/
theorem actorPool_invariant (batch : Nat) (hb : 0 < batch) (calls : List PoolCall) :
    ∀ p : ActorPool, PoolInvariant p → CallsAdmissible batch calls p →
      ∃ trace, runPoolCalls batch calls p = some trace
        ∧ List.Forall₂ (fun call e => call = PoolCall.GetNewActor ↔ e.1.isSome = true)
            calls trace
        ∧ (∀ e ∈ trace, ∀ a ∈ e.2.m_SpareActors, a ∉ StdMap.values e.2.m_ActorMap)
        ∧ (∀ e ∈ trace, ∀ a, e.1 = some a → a ∉ StdMap.values e.2.m_ActorMap)
        ∧ List.Chain (fun q q' => q.m_ActorStorage.length ≤ q'.m_ActorStorage.length) p
            (trace.map Prod.snd) := by
  induction calls with
  | nil =>
    intro p _ _
    exact ⟨[], rfl, List.Forall₂.nil, fun e h => (by cases h), fun e h => (by cases h),
      List.Chain.nil⟩
  | cons call rest ih =>
    intro p hinv hadm
    obtain ⟨r, p1, h1, h2, h3, h4, h5⟩ := runPoolCall_spec batch hb p hinv call hadm.1
    have hadm1 : CallsAdmissible batch rest p1 := by
      have := hadm.2
      rw [h1] at this
      exact this
    obtain ⟨trace, g1, g2, g3, g4, g5⟩ := ih p1 h2 hadm1
    refine ⟨(r, p1) :: trace, by simp only [runPoolCalls, h1, g1], List.Forall₂.cons h4 g2,
      ?_, ?_, List.Chain.cons h5 g5⟩
    · intro e he
      rcases List.mem_cons.1 he with h | h
      · rw [h]
        exact h2.1
      · exact g3 e h
    · intro e he
      rcases List.mem_cons.1 he with h | h
      · rw [h]
        exact h3
      · exact g4 e h

/-- Witness of C15: with batches of ten, from the new pool, a caller takes the actors 10
and 9, files them under the labels 1 and 2, erases the label 1, recycles the actor 10 and
takes an actor again: the pool hands out 10, 9 and 10 again, the last time while the
active map holds the actor 9 only. -/
theorem actorPool_invariant_witness :
    ∃ trace, runPoolCalls 10 poolSession ActorPool.new = some trace
      ∧ trace.map Prod.fst = [some 10, none, some 9, none, none, none, some 10]
      ∧ trace.map (fun e => StdMap.values e.2.m_ActorMap)
          = [[], [10], [10], [10, 9], [9], [9], [9]]
      ∧ (∀ e ∈ trace, ∀ a ∈ e.2.m_SpareActors, a ∉ StdMap.values e.2.m_ActorMap)
      ∧ (∀ e ∈ trace, ∀ a, e.1 = some a → a ∉ StdMap.values e.2.m_ActorMap) := by
  obtain ⟨trace, h1, _, h3, h4, _⟩ := actorPool_invariant 10 (by decide) poolSession
    ActorPool.new ⟨fun a h => (by cases h), fun a h => (by cases h), fun a h => (by cases h)⟩
    (by decide)
  have h : (runPoolCalls 10 poolSession ActorPool.new).map
      (fun trace => (trace.map Prod.fst, trace.map (fun e => StdMap.values e.2.m_ActorMap)))
        = some ([some 10, none, some 9, none, none, none, some 10],
            [[], [10], [10], [10, 9], [9], [9], [9]]) := by decide
  rw [h1] at h
  simp only [Option.map_some', Option.some.injEq, Prod.mk.injEq] at h
  exact ⟨trace, h1, h.1, h.2, h3, h4⟩

/-- C15 as stated fails: after a caller has taken the actor 10 from the new pool and filed
it under the label 1, the calls `Recycle(10)` and `GetNewActor()` leave the actor 10 both
on the spare stack and in the active map after the first of them, and the second one
returns the actor 10 while it is a value of the active map. -/
theorem actorPool_recycle_of_active_actor :
    ∃ trace, runPoolCalls 10 poolMisuse ActorPool.new = some trace
      ∧ trace.map Prod.fst = [some 10, none, none, some 10]
      ∧ trace.map (fun e => StdMap.values e.2.m_ActorMap) = [[], [10], [10], [10]]
      ∧ trace.map (fun e => decide (10 ∈ e.2.m_SpareActors)) = [false, false, true, false]
      ∧ ¬ (∀ e ∈ trace, ∀ a ∈ e.2.m_SpareActors, a ∉ StdMap.values e.2.m_ActorMap)
      ∧ ¬ (∀ e ∈ trace, ∀ a, e.1 = some a → a ∉ StdMap.values e.2.m_ActorMap) := by
  have h : (runPoolCalls 10 poolMisuse ActorPool.new).map
      (fun trace => (trace.map Prod.fst, trace.map (fun e => StdMap.values e.2.m_ActorMap),
        trace.map (fun e => decide (10 ∈ e.2.m_SpareActors)),
        decide (∀ e ∈ trace, ∀ a ∈ e.2.m_SpareActors, a ∉ StdMap.values e.2.m_ActorMap),
        decide (∀ e ∈ trace, ∀ a ∈ e.1, a ∉ StdMap.values e.2.m_ActorMap)))
        = some ([some 10, none, none, some 10], [[], [10], [10], [10]],
            [false, false, true, false], false, false) := by decide
  cases hU : runPoolCalls 10 poolMisuse ActorPool.new with
  | none => rw [hU] at h; cases h
  | some trace =>
    rw [hU] at h
    simp only [Option.map_some', Option.some.injEq, Prod.mk.injEq, decide_eq_false_iff_not]
      at h
    obtain ⟨h1, h2, h3, h4, h5⟩ := h
    refine ⟨trace, rfl, h1, h2, h3, h4, ?_⟩
    intro hall
    exact h5 (fun e he a ha => hall e he a ha)

/-! ## `GetTextureForLayer` -/

theorem user_data_id_exists (ctx : PaintContext) (hid : ctx.GetId < 3) :
    ∃ key, user_data_ids[ctx.GetId]? = some key := by
  have h : ctx.GetId < user_data_ids.length := hid
  exact ⟨_, List.getElem?_eq_getElem h⟩

theorem getTextureForLayer_uninitialized (ctx : PaintContext) (layer : ImageWrapperBase)
    (s : PaintState) (hid : ctx.GetId < 3) (hinit : layer.IsInitialized = false) :
    GetTextureForLayer ctx layer s = some (none, s) := by
  obtain ⟨key, hkey⟩ := user_data_id_exists ctx hid
  simp [GetTextureForLayer, hkey, hinit]

theorem getTextureForLayer_reuse (ctx : PaintContext) (layer : ImageWrapperBase)
    (s : PaintState) (key : String) (t0 : ObjId)
    (hkey : user_data_ids[ctx.GetId]? = some key) (hinit : layer.IsInitialized = true)
    (hstored : s.m_UserData layer.GetUniqueId key = some t0)
    (himage : (s.m_Textures t0).image = some (layer.GetDisplaySlice ctx.GetId)) :
    GetTextureForLayer ctx layer s
      = some (some t0,
          { s with
            m_Textures := Function.update s.m_Textures t0
              { s.m_Textures t0 with
                interpolation :=
                  if ctx.IsInterpolationLinear then .GL_LINEAR else .GL_NEAREST
                mipMapping := layer.IsSlicingOrthogonal } }) := by
  simp [GetTextureForLayer, hkey, hinit, hstored, himage]

theorem getTextureForLayer_new (ctx : PaintContext) (layer : ImageWrapperBase)
    (s : PaintState) (key : String)
    (hkey : user_data_ids[ctx.GetId]? = some key) (hinit : layer.IsInitialized = true)
    (hstale : ∀ t0, s.m_UserData layer.GetUniqueId key = some t0 →
      (s.m_Textures t0).image ≠ some (layer.GetDisplaySlice ctx.GetId)) :
    GetTextureForLayer ctx layer s
      = some (some s.m_NextObject,
          { s with
            m_Textures := Function.update s.m_Textures s.m_NextObject
              { components := 4, image := some (layer.GetDisplaySlice ctx.GetId)
                interpolation :=
                  if ctx.IsInterpolationLinear then .GL_LINEAR else .GL_NEAREST
                mipMapping := layer.IsSlicingOrthogonal }
            m_UserData := Function.update s.m_UserData layer.GetUniqueId
              (Function.update (s.m_UserData layer.GetUniqueId) key (some s.m_NextObject))
            m_NextObject := s.m_NextObject + 1 }) := by
  cases hu : s.m_UserData layer.GetUniqueId key with
  | none => simp [GetTextureForLayer, hkey, hinit, hu]
  | some t0 =>
    have h := hstale t0 hu
    simp [GetTextureForLayer, hkey, hinit, hu, h]

/-- C19: for an initialized layer `GetTextureForLayer` returns a texture `t` whose image is
the layer's current display slice of this view, and `t` is the texture stored on the layer
afterwards.  When the texture stored before already has that slice as its image, `t` is that
stored texture and nothing is created or stored; otherwise `t` is a new texture object bound
to the slice, and no other texture is touched.  A second call for the layer with the same
display slice returns the same texture `t` and creates nothing. -/
theorem getTextureForLayer_initialized (ctx : PaintContext) (layer : ImageWrapperBase)
    (s : PaintState) (hid : ctx.GetId < 3) (hinit : layer.IsInitialized = true) :
    ∃ key t s1,
      user_data_ids[ctx.GetId]? = some key ∧
      GetTextureForLayer ctx layer s = some (some t, s1) ∧
      (s1.m_Textures t).image = some (layer.GetDisplaySlice ctx.GetId) ∧
      s1.m_UserData layer.GetUniqueId key = some t ∧
      (∀ t0, s.m_UserData layer.GetUniqueId key = some t0 →
          (s.m_Textures t0).image = some (layer.GetDisplaySlice ctx.GetId) →
          t = t0 ∧ s1.m_NextObject = s.m_NextObject ∧ s1.m_UserData = s.m_UserData) ∧
      ((∀ t0, s.m_UserData layer.GetUniqueId key = some t0 →
          (s.m_Textures t0).image ≠ some (layer.GetDisplaySlice ctx.GetId)) →
          t = s.m_NextObject ∧ s1.m_NextObject = s.m_NextObject + 1 ∧
          ∀ other, other ≠ t → s1.m_Textures other = s.m_Textures other) ∧
      ∀ layer2 : ImageWrapperBase, layer2.GetUniqueId = layer.GetUniqueId →
        layer2.IsInitialized = true →
        layer2.GetDisplaySlice ctx.GetId = layer.GetDisplaySlice ctx.GetId →
        ∃ s2, GetTextureForLayer ctx layer2 s1 = some (some t, s2) ∧
          s2.m_NextObject = s1.m_NextObject ∧ s2.m_UserData = s1.m_UserData := by
  obtain ⟨key, hkey⟩ := user_data_id_exists ctx hid
  by_cases hre : ∃ t0, s.m_UserData layer.GetUniqueId key = some t0 ∧
      (s.m_Textures t0).image = some (layer.GetDisplaySlice ctx.GetId)
  · obtain ⟨t0, hst, him⟩ := hre
    refine ⟨key, t0, _, hkey, getTextureForLayer_reuse ctx layer s key t0 hkey hinit hst him,
      ?_, hst, ?_, ?_, ?_⟩
    · simp [him]
    · intro t1 h1 _
      rw [hst] at h1
      exact ⟨(Option.some.inj h1), rfl, rfl⟩
    · intro hstale
      exact absurd him (hstale t0 hst)
    · intro layer2 h2id h2init h2slice
      refine ⟨_, getTextureForLayer_reuse ctx layer2 _ key t0 hkey h2init ?_ ?_, rfl, rfl⟩
      · rw [h2id]; exact hst
      · rw [h2slice]; simp [him]
  · have hstale : ∀ t0, s.m_UserData layer.GetUniqueId key = some t0 →
        (s.m_Textures t0).image ≠ some (layer.GetDisplaySlice ctx.GetId) :=
      fun t0 h1 h2 => hre ⟨t0, h1, h2⟩
    refine ⟨key, s.m_NextObject, _, hkey, getTextureForLayer_new ctx layer s key hkey hinit hstale,
      ?_, ?_, ?_, ?_, ?_⟩
    · simp
    · simp
    · intro t0 h1 h2
      exact absurd h2 (hstale t0 h1)
    · intro _
      refine ⟨rfl, rfl, ?_⟩
      intro other hne
      simp [Function.update_noteq hne]
    · intro layer2 h2id h2init h2slice
      refine ⟨_, getTextureForLayer_reuse ctx layer2 _ key s.m_NextObject hkey h2init ?_ ?_,
        rfl, rfl⟩
      · rw [h2id]; simp
      · rw [h2slice]; simp

/-- Witness of C19: the first paint of the initialized layer A creates the texture 500 for
its display slice, and the next request returns the same texture. -/
theorem getTextureForLayer_initialized_witness :
    ∃ s1, GetTextureForLayer (paintScenario [paintLayer layerA true] [viewportA])
        (paintLayer layerA true) paintStart = some (some 500, s1)
      ∧ (s1.m_Textures 500).image = some ((paintLayer layerA true).GetDisplaySlice 0)
      ∧ ∃ s2, GetTextureForLayer (paintScenario [paintLayer layerA true] [viewportA])
          (paintLayer layerA true) s1 = some (some 500, s2)
        ∧ s2.m_NextObject = s1.m_NextObject := by
  obtain ⟨key, t, s1, _, hget, himg, _, _, hnew, hagain⟩ :=
    getTextureForLayer_initialized (paintScenario [paintLayer layerA true] [viewportA])
      (paintLayer layerA true) paintStart (by decide) rfl
  have ht : t = 500 := (hnew (fun t0 h => by cases h)).1
  subst ht
  obtain ⟨s2, h2, h3, _⟩ := hagain (paintLayer layerA true) rfl rfl rfl
  exact ⟨s1, hget, himg, s2, h2, h3⟩

/-! ## `DrawTextureForLayer` on a layer that is not initialized -/

theorem gridDirection_no_texture_draw (ctx : PaintContext) (layer : ImageWrapperBase) (d : Nat)
    (g : List GLCall) (h : gridDirection ctx layer d = some g) :
    ∀ c ∈ g, c.isTextureDraw = false := by
  unfold gridDirection at h
  cases hv : voxIncrement ctx layer d with
  | none => rw [hv] at h; cases h
  | some v =>
    rw [hv] at h
    simp only at h
    by_cases hz : v = 0 ∧ 0 < (if d = 0 then layer.sliceRegionSize.2 else layer.sliceRegionSize.1)
    · rw [if_pos hz] at h; cases h
    · rw [if_neg hz] at h
      cases h
      intro c hc
      rw [List.mem_flatMap] at hc
      obtain ⟨j, _, hj⟩ := hc
      simp only [List.mem_cons, List.mem_singleton, List.not_mem_nil, or_false] at hj
      rcases hj with rfl | rfl | rfl | rfl <;> rfl

theorem noTextureDrawn_refl (s : PaintState) : NoTextureDrawn s s :=
  ⟨rfl, rfl, rfl, rfl, rfl, rfl, [], by simp, fun c hc => by cases hc⟩

theorem noTextureDrawn_emit (s s1 : PaintState) (cs : List GLCall) (h : NoTextureDrawn s s1)
    (hcs : ∀ c ∈ cs, c.isTextureDraw = false) : NoTextureDrawn s (s1.emit cs) := by
  obtain ⟨h1, h2, h3, h4, h5, h6, added, h7, h8⟩ := h
  refine ⟨h1, h2, h3, h4, h5, h6, added ++ cs, ?_, ?_⟩
  · simp only [PaintState.emit, h7, List.append_assoc]
  · intro c hc
    rcases List.mem_append.mp hc with hc | hc
    · exact h8 c hc
    · exact hcs c hc

theorem drawTextureForLayer_grid_tail (ctx : PaintContext) (layer : ImageWrapperBase)
    (s s3 s1 : PaintState) (h3 : NoTextureDrawn s s3)
    (h : (match
        (if (layer.RenderAsGrid && !s3.m_DrawingZoomThumbnail && !s3.m_DrawingLayerThumbnail)
            = true then
          if (layer.IsAnatomicImageWrapper && decide (layer.GetNumberOfComponents = 3))
              = true then
            match gridDirection ctx layer 0, gridDirection ctx layer 1 with
            | some g0, some g1 =>
              some (s3.emit ([GLCall.glPushAttrib, GLCall.ApplyLineSettings .GRID_LINES]
                ++ g0 ++ g1 ++ [GLCall.glPopAttrib]))
            | _, _ => none
          else some s3
        else some s3) with
      | none => none
      | some s6 => some (s6.emit [GLCall.glPopMatrix])) = some s1) :
    NoTextureDrawn s s1 := by
  have hpop : ∀ c ∈ [GLCall.glPopMatrix], c.isTextureDraw = false := by
    intro c hc
    simp only [List.mem_singleton] at hc
    subst hc
    rfl
  split at h
  · cases h
  · rename_i s6 h6
    cases h
    apply noTextureDrawn_emit _ _ _ _ hpop
    split at h6
    · split at h6
      · split at h6
        · rename_i g0 g1 hg0 hg1
          cases h6
          apply noTextureDrawn_emit _ _ _ h3
          intro c hc
          simp only [List.cons_append, List.nil_append, List.mem_cons, List.mem_append,
            List.mem_singleton, List.not_mem_nil, or_false] at hc
          rcases hc with rfl | rfl | (hc | hc) | rfl
          · rfl
          · rfl
          · exact gridDirection_no_texture_draw ctx layer 0 g0 hg0 c hc
          · exact gridDirection_no_texture_draw ctx layer 1 g1 hg1 c hc
          · rfl
        · cases h6
      · cases h6
        exact h3
    · cases h6
      exact h3

theorem drawTextureForLayer_uninitialized (ctx : PaintContext) (layer : ImageWrapperBase)
    (vp : SubViewport) (use_transparency : Bool) (s s1 : PaintState)
    (hid : ctx.GetId < 3) (hinit : layer.IsInitialized = false)
    (h : DrawTextureForLayer ctx layer vp use_transparency s = some s1) :
    NoTextureDrawn s s1 := by
  unfold DrawTextureForLayer at h
  rw [getTextureForLayer_uninitialized ctx layer s hid hinit] at h
  simp only at h
  refine drawTextureForLayer_grid_tail ctx layer s _ s1 ?_ h
  have hpush : NoTextureDrawn s (s.emit [GLCall.glPushMatrix]) := by
    apply noTextureDrawn_emit _ _ _ (noTextureDrawn_refl s)
    intro c hc
    simp only [List.mem_singleton] at hc
    subst hc
    rfl
  split
  · split
    · apply noTextureDrawn_emit _ _ _ hpush
      intro c hc
      simp only [List.mem_cons, List.mem_singleton, List.not_mem_nil, or_false] at hc
      rcases hc with rfl | rfl <;> rfl
    · apply noTextureDrawn_emit _ _ _ hpush
      intro c hc
      simp only [List.mem_singleton] at hc
      subst hc
      rfl
  · exact hpush

theorem drawTextureForLayer_uninitialized_total (ctx : PaintContext) (layer : ImageWrapperBase)
    (vp : SubViewport) (use_transparency : Bool) (s : PaintState)
    (hid : ctx.GetId < 3) (hinit : layer.IsInitialized = false)
    (hgrid : layer.RenderAsGrid = false) :
    ∃ s1, DrawTextureForLayer ctx layer vp use_transparency s = some s1 := by
  unfold DrawTextureForLayer
  rw [getTextureForLayer_uninitialized ctx layer s hid hinit]
  simp [hgrid]

/-- C13: for a layer that is not initialized (in one of the three slice views)
`GetTextureForLayer` returns NULL and leaves the whole paint state as it is, so that no
texture is created and the texture stored on the layer is unchanged; whenever
`DrawTextureForLayer` returns for such a layer, it has drawn, created and stored no
texture; and it does return unless a deformation grid is drawn with an undefined stride. -/
theorem getTextureForLayer_uninitialized_null (ctx : PaintContext) (layer : ImageWrapperBase)
    (s : PaintState) (hid : ctx.GetId < 3) (hinit : layer.IsInitialized = false) :
    GetTextureForLayer ctx layer s = some (none, s)
      ∧ (∀ vp use_transparency s1,
          DrawTextureForLayer ctx layer vp use_transparency s = some s1 →
            NoTextureDrawn s s1)
      ∧ (layer.RenderAsGrid = false →
          ∀ vp use_transparency, ∃ s1,
            DrawTextureForLayer ctx layer vp use_transparency s = some s1) :=
  ⟨getTextureForLayer_uninitialized ctx layer s hid hinit,
   fun vp ut s1 h => drawTextureForLayer_uninitialized ctx layer vp ut s s1 hid hinit h,
   fun hgrid vp ut => drawTextureForLayer_uninitialized_total ctx layer vp ut s hid hinit hgrid⟩

/-- Witness of C13: the label layer S, not initialized, gets no texture, and drawing it
returns without a texture draw. -/
theorem getTextureForLayer_uninitialized_null_witness :
    GetTextureForLayer (paintScenario [paintLayer layerS false] [viewportA])
        (paintLayer layerS false) paintStart = some (none, paintStart)
      ∧ ∃ s1, DrawTextureForLayer (paintScenario [paintLayer layerS false] [viewportA])
          (paintLayer layerS false) viewportA true paintStart = some s1
        ∧ NoTextureDrawn paintStart s1 := by
  have h := getTextureForLayer_uninitialized_null
    (paintScenario [paintLayer layerS false] [viewportA]) (paintLayer layerS false) paintStart
    (by decide) rfl
  obtain ⟨s1, hs1⟩ := h.2.2 rfl viewportA true
  exact ⟨h.1, s1, hs1, h.2.1 viewportA true s1 hs1⟩

theorem drawSegmentationTexture_uninitialized (ctx : PaintContext) (s : PaintState)
    (seg_layer : ImageWrapperBase) (hid : ctx.GetId < 3)
    (halpha : ctx.GetSegmentationAlpha > 0)
    (hfind : FindLayer ctx.GetImageData ctx.GetSelectedSegmentationLayerId (some LABEL_ROLE)
      = some seg_layer)
    (hinit : seg_layer.IsInitialized = false) :
    DrawSegmentationTexture ctx s = none := by
  unfold DrawSegmentationTexture
  simp only [halpha, if_true, hfind,
    getTextureForLayer_uninitialized ctx seg_layer s hid hinit]

/-- C18, evaluated on the code: the segmentation alpha is 1/2, the selected segmentation
layer S is found by `FindLayer` with the label role, and S is not initialized.
`GetTextureForLayer` returns NULL for S and `DrawSegmentationTexture` calls
`DrawTransparent` through that null pointer: it does not complete, and neither does the
`paintGL` that called it for the viewport of layer A.  With S initialized the same
`paintGL` completes. -/
theorem drawSegmentationTexture_null_texture :
    (paintScenario [paintLayer layerA true, paintLayer layerS false]
        [viewportA]).GetSegmentationAlpha > 0
      ∧ (FindLayer (paintScenario [paintLayer layerA true, paintLayer layerS false]
            [viewportA]).GetImageData 3 (some LABEL_ROLE)).map (fun l => l.IsInitialized)
          = some false
      ∧ (∀ s, GetTextureForLayer (paintScenario [paintLayer layerA true, paintLayer layerS false]
            [viewportA]) (paintLayer layerS false) s = some (none, s))
      ∧ (∀ s, DrawSegmentationTexture (paintScenario
            [paintLayer layerA true, paintLayer layerS false] [viewportA]) s = none)
      ∧ (paintGL (paintScenario [paintLayer layerA true, paintLayer layerS false]
            [viewportA]) paintStart).isSome = false
      ∧ (paintGL (paintScenario [paintLayer layerA true, paintLayer layerS true]
            [viewportA]) paintStart).isSome = true := by
  have halpha : (paintScenario [paintLayer layerA true, paintLayer layerS false]
      [viewportA]).GetSegmentationAlpha > 0 := by decide!
  refine ⟨halpha, rfl, ?_, ?_, ?_, ?_⟩
  · intro s
    exact getTextureForLayer_uninitialized _ _ s (by decide) rfl
  · intro s
    exact drawSegmentationTexture_uninitialized _ s (paintLayer layerS false) (by decide)
      halpha rfl rfl
  · decide!
  · decide!
/-! ## The viewport loop of `paintGL` -/

theorem viewportSetup_no_draw (ctx : PaintContext) (vp : SubViewport) :
    ∀ c ∈ viewportSetup ctx vp, c.isDraw = false := by
  intro c hc
  simp only [viewportSetup, List.mem_cons, List.mem_singleton, List.not_mem_nil, or_false] at hc
  rcases hc with rfl | rfl | rfl | rfl | rfl | rfl | rfl | rfl | rfl | rfl | rfl | rfl | rfl <;>
    rfl

/-- C12: in `paintGL`, for a viewport whose layer id `FindLayer` does not find in the
current image data, the body of the viewport loop completes having issued only the calls
that set up the GL viewport and the two transforms, none of which draws anything (no
texture, no overlay delegate, no geometry); the thumbnail flag, the drawing-viewport index,
the zoom-thumbnail flag, the textures and the user data of the layers are left as they
were; and the loop goes on with the remaining viewports from that state, after which
`paintGL` draws the window overlays. -/
theorem paintViewport_unknown_layer (ctx : PaintContext) (k : Nat) (vp : SubViewport)
    (rest : List SubViewport) (s : PaintState)
    (hfind : FindLayer ctx.GetCurrentImageData vp.layer_id none = none) :
    paintViewport ctx k vp s = some (s.emit (viewportSetup ctx vp))
      ∧ (∀ c ∈ viewportSetup ctx vp, c.isDraw = false)
      ∧ (s.emit (viewportSetup ctx vp)).m_DrawingLayerThumbnail = s.m_DrawingLayerThumbnail
      ∧ (s.emit (viewportSetup ctx vp)).m_DrawingViewportIndex = s.m_DrawingViewportIndex
      ∧ (s.emit (viewportSetup ctx vp)).m_DrawingZoomThumbnail = s.m_DrawingZoomThumbnail
      ∧ (s.emit (viewportSetup ctx vp)).m_Textures = s.m_Textures
      ∧ (s.emit (viewportSetup ctx vp)).m_UserData = s.m_UserData
      ∧ paintViewportLoop ctx k (vp :: rest) s
          = paintViewportLoop ctx (k + 1) rest (s.emit (viewportSetup ctx vp))
      ∧ (ctx.IsSliceInitialized = true → ctx.vpList = vp :: rest →
          paintGL ctx s
            = ((paintViewportLoop ctx 1 rest
                  ((s.emit [GLCall.glPushAttrib, GLCall.glDisable,
                      GLCall.glClearColor ctx.BACKGROUND_2D.x ctx.BACKGROUND_2D.y
                        ctx.BACKGROUND_2D.z 1,
                      GLCall.glClear]).emit (viewportSetup ctx vp))).bind
                (paintWindowOverlays ctx)).map
                (fun s3 => s3.emit [GLCall.glPopAttrib, GLCall.glFlush])) := by
  have hbody : ∀ (j : Nat) (s0 : PaintState),
      paintViewport ctx j vp s0 = some (s0.emit (viewportSetup ctx vp)) := by
    intro j s0
    simp only [paintViewport, hfind]
  have hloop : ∀ (j : Nat) (s0 : PaintState),
      paintViewportLoop ctx j (vp :: rest) s0
        = paintViewportLoop ctx (j + 1) rest (s0.emit (viewportSetup ctx vp)) := by
    intro j s0
    simp only [paintViewportLoop, hbody]
  refine ⟨hbody k s, viewportSetup_no_draw ctx vp, rfl, rfl, rfl, rfl, rfl, hloop k s, ?_⟩
  intro hinit hvps
  simp only [paintGL, hinit, if_true, hvps, hloop]
  cases paintViewportLoop ctx (0 + 1) rest
      ((s.emit [GLCall.glPushAttrib, GLCall.glDisable,
          GLCall.glClearColor ctx.BACKGROUND_2D.x ctx.BACKGROUND_2D.y ctx.BACKGROUND_2D.z 1,
          GLCall.glClear]).emit (viewportSetup ctx vp)) with
  | none => rfl
  | some s1a =>
    simp only [Option.some_bind]
    cases paintWindowOverlays ctx s1a <;> rfl

/-- Witness of C12: with the viewports `viewportStray` (layer id 99, not a layer) and
`viewportA`, the stray viewport is passed over and `paintGL` goes on to draw the texture of
layer A in the second viewport and then the global overlay. -/
theorem paintViewport_unknown_layer_witness :
    paintViewport (paintScenario [paintLayer layerA true] [viewportStray, viewportA]) 0
        viewportStray paintStart
      = some (paintStart.emit
          (viewportSetup (paintScenario [paintLayer layerA true] [viewportStray, viewportA])
            viewportStray))
    ∧ (paintGL (paintScenario [paintLayer layerA true] [viewportStray, viewportA])
        paintStart).map (fun s => s.calls.filter GLCall.isDraw)
      = some [GLCall.glClear, GLCall.Draw 500 ⟨1, 1, 1⟩, GLCall.overlayPaintGL true 0,
          GLCall.overlayPaintGL false 0] :=
  ⟨(paintViewport_unknown_layer (paintScenario [paintLayer layerA true]
      [viewportStray, viewportA]) 0 viewportStray [viewportA] paintStart rfl).1, by decide!⟩

/-! ## The modelview transform of a viewport -/

theorem appearanceLoop_spec (model : GenericSliceModel) (ls : List Layer) :
    ∀ s : GenericSliceRenderer, HasActors s ls →
      ∃ s', appearanceLoop model ls s = some s'
        ∧ s'.m_LayerTextureAssemblies = s.m_LayerTextureAssemblies
        ∧ (∀ o, (∀ l ∈ ls, actorOf s l.GetUniqueId ≠ some o) → s'.m_Actors o = s.m_Actors o)
        ∧ (ActorsDistinct s ls → ∀ l ∈ ls, ∀ a, actorOf s l.GetUniqueId = some a →
            s'.m_Actors a = { s.m_Actors a with opacity := alphaOf model l }) := by
  induction ls with
  | nil =>
    intro s _
    exact ⟨s, rfl, rfl, fun _ _ => rfl, fun _ l hl => (by cases hl)⟩
  | cons layer rest ih =>
    intro s hact
    have hsome := hact layer (List.mem_cons_self _ _)
    obtain ⟨a0, ha0⟩ := Option.isSome_iff_exists.1 hsome
    obtain ⟨e, he1, he2⟩ := actorOf_some s _ _ ha0
    have hstep : appearanceLoop model (layer :: rest) s
        = appearanceLoop model rest { s with
            m_Actors := Function.update s.m_Actors a0
              { s.m_Actors a0 with opacity := alphaOf model layer } } := by
      simp only [appearanceLoop, StdMap.index, he1, he2]
    have hactor : ∀ k, actorOf { s with
        m_Actors := Function.update s.m_Actors a0
          { s.m_Actors a0 with opacity := alphaOf model layer } } k = actorOf s k :=
      fun _ => rfl
    have hact' : HasActors { s with
        m_Actors := Function.update s.m_Actors a0
          { s.m_Actors a0 with opacity := alphaOf model layer } } rest := by
      intro l hl
      rw [hactor]
      exact hact l (List.mem_cons_of_mem _ hl)
    obtain ⟨s', hs1, hs2, hs3, hs4⟩ := ih _ hact'
    refine ⟨s', by rw [hstep]; exact hs1, hs2, ?_, ?_⟩
    · intro o ho
      have ho1 : o ≠ a0 := by
        intro h
        exact ho layer (List.mem_cons_self _ _) (by rw [ha0, h])
      rw [hs3 o (fun l hl => by rw [hactor]; exact ho l (List.mem_cons_of_mem _ hl))]
      exact Function.update_noteq ho1 _ _
    · intro hdist l hl a ha
      have hnd : actorOf s layer.GetUniqueId ∉ rest.map (fun l => actorOf s l.GetUniqueId)
          ∧ ActorsDistinct s rest := by
        simpa [ActorsDistinct] using hdist
      by_cases hmem : l ∈ rest
      · have hne : a ≠ a0 := by
          intro h
          exact hnd.1 (List.mem_map.2 ⟨l, hmem, by rw [ha, h, ha0]⟩)
        rw [hs4 hnd.2 l hmem a (by rw [hactor]; exact ha)]
        have hsame : (Function.update s.m_Actors a0
            { s.m_Actors a0 with opacity := alphaOf model layer }) a = s.m_Actors a :=
          Function.update_noteq hne _ _
        show ({ (Function.update s.m_Actors a0 _ a) with opacity := alphaOf model l } : vtkActor)
          = _
        rw [hsame]
      · have hl' : l = layer := by
          rcases List.mem_cons.1 hl with h | h
          · exact h
          · exact absurd h hmem
        subst hl'
        have haa : a = a0 := by
          rw [ha0] at ha
          exact (Option.some.inj ha).symm
        subst haa
        have hnot : ∀ l' ∈ rest, actorOf { s with
            m_Actors := Function.update s.m_Actors a
              { s.m_Actors a with opacity := alphaOf model l } } l'.GetUniqueId ≠ some a := by
          intro l' hl' h
          rw [hactor] at h
          exact hnd.1 (List.mem_map.2 ⟨l', hl', by rw [h, ha0]⟩)
        rw [hs3 a hnot]
        show Function.update s.m_Actors a _ a = _
        rw [Function.update_same]

/-- C22: on a renderer in which every layer of the image data has a texture assembly with
an actor of its own, `UpdateLayerApperances` returns, leaves the assemblies and every other
actor alone, and leaves the actor of each layer as it was except for its opacity: the
global segmentation alpha for a layer with the label role (whatever its own alpha and
sticky flag), otherwise the alpha of the layer if it is sticky, otherwise 1.  So when the
segmentation alpha and the alphas of the layers lie in [0, 1], the opacity of every
layer's actor lies in [0, 1]. -/
theorem updateLayerApperances_opacity (model : GenericSliceModel) (s : GenericSliceRenderer)
    (hact : HasActors s model.GetImageData) (hdist : ActorsDistinct s model.GetImageData) :
    ∃ s', UpdateLayerApperances model s = some s'
      ∧ s'.m_LayerTextureAssemblies = s.m_LayerTextureAssemblies
      ∧ (∀ o, (∀ l ∈ model.GetImageData, actorOf s l.GetUniqueId ≠ some o) →
          s'.m_Actors o = s.m_Actors o)
      ∧ (∀ l ∈ model.GetImageData, ∀ a, actorOf s l.GetUniqueId = some a →
          s'.m_Actors a = { s.m_Actors a with
            opacity := if l.GetRole = LABEL_ROLE then model.GetSegmentationAlpha
                       else if l.IsSticky then l.GetAlpha else 1 })
      ∧ (0 ≤ model.GetSegmentationAlpha ∧ model.GetSegmentationAlpha ≤ 1 →
          (∀ l ∈ model.GetImageData, 0 ≤ l.GetAlpha ∧ l.GetAlpha ≤ 1) →
          ∀ l ∈ model.GetImageData, ∀ a, actorOf s l.GetUniqueId = some a →
            0 ≤ (s'.m_Actors a).opacity ∧ (s'.m_Actors a).opacity ≤ 1) := by
  obtain ⟨s', h1, h2, h3, h4⟩ := appearanceLoop_spec model model.GetImageData s hact
  have h5 : ∀ l ∈ model.GetImageData, ∀ a, actorOf s l.GetUniqueId = some a →
      s'.m_Actors a = { s.m_Actors a with
        opacity := if l.GetRole = LABEL_ROLE then model.GetSegmentationAlpha
                   else if l.IsSticky then l.GetAlpha else 1 } :=
    fun l hl a ha => h4 hdist l hl a ha
  refine ⟨s', h1, h2, h3, h5, ?_⟩
  intro hseg hal l hl a ha
  rw [h5 l hl a ha]
  show 0 ≤ (if l.GetRole = LABEL_ROLE then model.GetSegmentationAlpha
      else if l.IsSticky then l.GetAlpha else 1)
    ∧ (if l.GetRole = LABEL_ROLE then model.GetSegmentationAlpha
      else if l.IsSticky then l.GetAlpha else 1) ≤ 1
  split_ifs
  · exact hseg
  · exact hal l hl
  · exact ⟨zero_le_one, le_refl _⟩

/-- Witness of C22: in the scenario the actor of the main layer A gets opacity 1, the
actor of the sticky overlay B its alpha 1/2, and the actor of the label layer S the
segmentation alpha 1/2. -/
theorem updateLayerApperances_opacity_witness :
    ∃ s', UpdateLayerApperances (scenarioModel [layerA, layerB, layerS]) scenarioABS = some s'
      ∧ (s'.m_Actors 1005).opacity = 1
      ∧ (s'.m_Actors 1011).opacity = 1 / 2
      ∧ (s'.m_Actors 1017).opacity = 1 / 2 := by
  obtain ⟨s', h1, _, _, h4, _⟩ := updateLayerApperances_opacity
    (scenarioModel [layerA, layerB, layerS]) scenarioABS (by decide) (by decide)
  refine ⟨s', h1, ?_, ?_, ?_⟩
  · rw [h4 layerA (by simp [scenarioModel]) 1005 (by decide)]
    simp [layerA]
  · rw [h4 layerB (by simp [scenarioModel]) 1011 (by decide)]
    simp [layerB]
  · rw [h4 layerS (by simp [scenarioModel]) 1017 (by decide)]
    simp [layerS, scenarioModel]

/-! ## `DrawImageLayers` -/

theorem drawLayersLoop_eq_drawTextures (ctx : PaintContext) (vp : SubViewport)
    (test : ImageWrapperBase → Bool) (layers : List ImageWrapperBase) :
    ∀ s, drawLayersLoop ctx vp test layers s
      = drawTextures ctx vp ((layers.filter test).map (fun l => (l, true))) s := by
  induction layers with
  | nil => intro s; rfl
  | cons layer rest ih =>
    intro s
    by_cases ht : test layer = true
    · simp only [drawLayersLoop, ht, if_true, List.filter_cons_of_pos, List.map_cons,
        drawTextures]
      cases DrawTextureForLayer ctx layer vp true s with
      | none => rfl
      | some s1 => exact ih s1
    · simp only [drawLayersLoop, ht, Bool.false_eq_true, if_false, List.filter_cons_of_neg,
        not_false_eq_true]
      exact ih s

theorem getTextureForLayer_total (ctx : PaintContext) (layer : ImageWrapperBase)
    (s : PaintState) (hid : ctx.GetId < 3) :
    ∃ r, GetTextureForLayer ctx layer s = some r := by
  obtain ⟨key, hkey⟩ := user_data_id_exists ctx hid
  unfold GetTextureForLayer
  rw [hkey]
  simp only
  split
  · exact ⟨_, rfl⟩
  · exact ⟨_, rfl⟩

theorem voxIncrement_pos (ctx : PaintContext) (layer : ImageWrapperBase) (d : Nat)
    (hs1 : 0 < ctx.GetSliceSpacing.1) (hs2 : 0 < ctx.GetSliceSpacing.2)
    (hz : 0 < ctx.GetViewZoom) :
    ∃ n : Int, voxIncrement ctx layer d = some n ∧ 1 ≤ n := by
  unfold voxIncrement
  by_cases ho : layer.IsSlicingOrthogonal = true
  · have hsp : 0 < (if d = 0 then ctx.GetSliceSpacing.1 else ctx.GetSliceSpacing.2) := by
      split_ifs
      · exact hs1
      · exact hs2
    have hppv : 0 < (if d = 0 then ctx.GetSliceSpacing.1 else ctx.GetSliceSpacing.2)
        * ctx.GetViewZoom := mul_pos hsp hz
    simp only [ho, if_true, ne_of_gt hppv, if_false]
    refine ⟨_, rfl, ?_⟩
    rw [toInt_of_int]
    have h8 : (0 : ℚ) < 8 / ((if d = 0 then ctx.GetSliceSpacing.1 else ctx.GetSliceSpacing.2)
        * ctx.GetViewZoom) := div_pos (by norm_num) hppv
    exact Int.one_le_ceil_iff.2 h8
  · simp only [ho, Bool.false_eq_true, if_false]
    exact ⟨8, rfl, by norm_num⟩

theorem gridDirection_isSome (ctx : PaintContext) (layer : ImageWrapperBase) (d : Nat)
    (hs1 : 0 < ctx.GetSliceSpacing.1) (hs2 : 0 < ctx.GetSliceSpacing.2)
    (hz : 0 < ctx.GetViewZoom) :
    ∃ g, gridDirection ctx layer d = some g := by
  obtain ⟨n, hn, h1⟩ := voxIncrement_pos ctx layer d hs1 hs2 hz
  unfold gridDirection
  rw [hn]
  have hne : ¬ (n = 0 ∧ 0 < (if d = 0 then layer.sliceRegionSize.2
      else layer.sliceRegionSize.1)) := by
    intro h
    omega
  simp only [if_neg hne]
  exact ⟨_, rfl⟩

theorem drawTextureForLayer_total (ctx : PaintContext) (layer : ImageWrapperBase)
    (vp : SubViewport) (use_transparency : Bool) (s : PaintState) (hid : ctx.GetId < 3)
    (hs1 : 0 < ctx.GetSliceSpacing.1) (hs2 : 0 < ctx.GetSliceSpacing.2)
    (hz : 0 < ctx.GetViewZoom) :
    ∃ s1, DrawTextureForLayer ctx layer vp use_transparency s = some s1 := by
  obtain ⟨g0, hg0⟩ := gridDirection_isSome ctx layer 0 hs1 hs2 hz
  obtain ⟨g1, hg1⟩ := gridDirection_isSome ctx layer 1 hs1 hs2 hz
  obtain ⟨⟨tex, s1⟩, hget⟩ := getTextureForLayer_total ctx layer s hid
  unfold DrawTextureForLayer
  rw [hget]
  simp only [hg0, hg1]
  split_ifs <;> exact ⟨_, rfl⟩

theorem drawTextures_total (ctx : PaintContext) (vp : SubViewport) (hid : ctx.GetId < 3)
    (hs1 : 0 < ctx.GetSliceSpacing.1) (hs2 : 0 < ctx.GetSliceSpacing.2)
    (hz : 0 < ctx.GetViewZoom) (ls : List (ImageWrapperBase × Bool)) :
    ∀ s, ∃ s1, drawTextures ctx vp ls s = some s1 := by
  induction ls with
  | nil => intro s; exact ⟨s, rfl⟩
  | cons p rest ih =>
    intro s
    obtain ⟨layer, t⟩ := p
    obtain ⟨s1, h1⟩ := drawTextureForLayer_total ctx layer vp t s hid hs1 hs2 hz
    obtain ⟨s2, h2⟩ := ih s1
    exact ⟨s2, by simp only [drawTextures, h1, h2]⟩

theorem filter_nontiled_eq (layers : List ImageWrapperBase) :
    layers.filter (fun layer =>
        decide (layer.GetRole ≠ LABEL_ROLE) && layer.IsDrawable && layer.IsSticky
          && decide (layer.GetAlpha > 0))
      = (stickyLayersOnBase layers).filter (fun l => decide (l.GetRole ≠ LABEL_ROLE)) := by
  unfold stickyLayersOnBase
  rw [List.filter_filter]
  congr 1
  funext l
  cases decide (l.GetRole ≠ LABEL_ROLE) <;> cases l.IsDrawable <;> cases l.IsSticky <;>
    cases decide (l.GetAlpha > 0) <;> rfl

theorem filter_tiled_eq (layers : List ImageWrapperBase) :
    layers.filter (fun layer =>
        decide (layer.GetRole ≠ MAIN_ROLE) && layer.IsSticky && layer.IsDrawable
          && decide (layer.GetAlpha > 0))
      = (stickyLayersOnBase layers).filter (fun l => decide (l.GetRole ≠ MAIN_ROLE)) := by
  unfold stickyLayersOnBase
  rw [List.filter_filter]
  congr 1
  funext l
  cases decide (l.GetRole ≠ MAIN_ROLE) <;> cases l.IsDrawable <;> cases l.IsSticky <;>
    cases decide (l.GetAlpha > 0) <;> rfl

theorem drawImageLayers_eq (ctx : PaintContext) (base_layer : ImageWrapperBase)
    (vp : SubViewport) (s : PaintState) :
    DrawImageLayers ctx base_layer vp s
      = (drawTextures ctx vp
          ((base_layer, false) ::
            (if s.m_DrawingZoomThumbnail || vp.isThumbnail then []
             else ((stickyLayersOnBase ctx.GetImageData).filter
               (fun l => if IsTiledMode ctx then decide (l.GetRole ≠ MAIN_ROLE)
                         else decide (l.GetRole ≠ LABEL_ROLE))).map
               (fun l => (l, true)))) s).map (fun s1 => (true, s1)) := by
  unfold DrawImageLayers
  by_cases hz : s.m_DrawingZoomThumbnail = true
  · simp only [hz, if_true, Bool.true_or, drawTextures]
    cases DrawTextureForLayer ctx base_layer vp false s <;> rfl
  · have hz' : s.m_DrawingZoomThumbnail = false := by simpa using hz
    by_cases hm : IsTiledMode ctx = true
    · by_cases ht : vp.isThumbnail = true
      · simp only [hz', hm, ht, Bool.false_eq_true, if_false, Bool.not_true, if_true,
          Bool.or_true, drawTextures]
        cases DrawTextureForLayer ctx base_layer vp false s <;> rfl
      · have ht' : vp.isThumbnail = false := by simpa using ht
        simp only [hz', hm, ht', Bool.false_eq_true, if_false, Bool.not_true, Bool.not_false,
          if_true, Bool.or_false, drawTextures, drawLayersLoop_eq_drawTextures,
          filter_tiled_eq]
        cases DrawTextureForLayer ctx base_layer vp false s <;> rfl
    · have hm' : IsTiledMode ctx = false := by simpa using hm
      by_cases ht : vp.isThumbnail = true
      · simp only [hz', hm', ht, Bool.false_eq_true, if_false, Bool.not_false, Bool.not_true,
          if_true, Bool.or_true, drawTextures]
        cases DrawTextureForLayer ctx base_layer vp false s <;> rfl
      · have ht' : vp.isThumbnail = false := by simpa using ht
        simp only [hz', hm', ht', Bool.false_eq_true, if_false, Bool.not_false,
          if_true, Bool.or_false, drawTextures, drawLayersLoop_eq_drawTextures,
          filter_nontiled_eq]
        cases DrawTextureForLayer ctx base_layer vp false s <;> rfl
/-- C21, amended. `DrawImageLayers` is the following sequence of `DrawTextureForLayer`
calls: the base layer without transparency and then, unless the viewport is a thumbnail or
the zoom thumbnail is being drawn, in layer order and with transparency the layers that
are sticky, drawable and have alpha > 0 and whose role is not `LABEL_ROLE` when the display
is not tiled, not `MAIN_ROLE` when it is tiled.  Whenever it returns it returns true, and
it returns in every slice view with positive slice spacing and zoom.  When no sticky,
drawable layer with alpha > 0 has the main or the label role, the layers drawn over the
base are exactly the sticky, drawable layers with alpha > 0, in both modes. -/
theorem drawImageLayers_composite (ctx : PaintContext) (base_layer : ImageWrapperBase)
    (vp : SubViewport) (s : PaintState) :
    DrawImageLayers ctx base_layer vp s
        = (drawTextures ctx vp
            ((base_layer, false) ::
              (if s.m_DrawingZoomThumbnail || vp.isThumbnail then []
               else ((stickyLayersOnBase ctx.GetImageData).filter
                 (fun l => if IsTiledMode ctx then decide (l.GetRole ≠ MAIN_ROLE)
                           else decide (l.GetRole ≠ LABEL_ROLE))).map
                 (fun l => (l, true)))) s).map (fun s1 => (true, s1))
      ∧ (∀ b s1, DrawImageLayers ctx base_layer vp s = some (b, s1) → b = true)
      ∧ (ctx.GetId < 3 → 0 < ctx.GetSliceSpacing.1 → 0 < ctx.GetSliceSpacing.2 →
          0 < ctx.GetViewZoom → ∃ s1, DrawImageLayers ctx base_layer vp s = some (true, s1))
      ∧ ((∀ l ∈ stickyLayersOnBase ctx.GetImageData,
            l.GetRole ≠ MAIN_ROLE ∧ l.GetRole ≠ LABEL_ROLE) →
          (stickyLayersOnBase ctx.GetImageData).filter
              (fun l => if IsTiledMode ctx then decide (l.GetRole ≠ MAIN_ROLE)
                        else decide (l.GetRole ≠ LABEL_ROLE))
            = stickyLayersOnBase ctx.GetImageData) := by
  have heq := drawImageLayers_eq ctx base_layer vp s
  refine ⟨heq, ?_, ?_, ?_⟩
  · intro b s1 h
    rw [heq] at h
    cases hd : drawTextures ctx vp
        ((base_layer, false) ::
          (if s.m_DrawingZoomThumbnail || vp.isThumbnail then []
           else ((stickyLayersOnBase ctx.GetImageData).filter
             (fun l => if IsTiledMode ctx then decide (l.GetRole ≠ MAIN_ROLE)
                       else decide (l.GetRole ≠ LABEL_ROLE))).map
             (fun l => (l, true)))) s with
    | none => rw [hd] at h; cases h
    | some s2 =>
      rw [hd] at h
      simp only [Option.map_some', Option.some.injEq, Prod.mk.injEq] at h
      exact h.1.symm
  · intro hid hs1 hs2 hz
    obtain ⟨s1, h1⟩ := drawTextures_total ctx vp hid hs1 hs2 hz
      ((base_layer, false) ::
        (if s.m_DrawingZoomThumbnail || vp.isThumbnail then []
         else ((stickyLayersOnBase ctx.GetImageData).filter
           (fun l => if IsTiledMode ctx then decide (l.GetRole ≠ MAIN_ROLE)
                     else decide (l.GetRole ≠ LABEL_ROLE))).map
           (fun l => (l, true)))) s
    exact ⟨s1, by rw [heq, h1]; rfl⟩
  · intro hroles
    apply List.filter_eq_self.2
    intro l hl
    have h := hroles l hl
    by_cases hm : IsTiledMode ctx = true
    · simp [hm, h.1]
    · simp [hm, h.2]

/-- Witness of C21: with the main layer A and the sticky overlay B in one viewport,
`DrawImageLayers` returns true having drawn the texture of A and then, with transparency
1/2, the texture of B. -/
theorem drawImageLayers_composite_witness :
    (∃ s1, DrawImageLayers (paintScenario [paintLayer layerA true, paintLayer layerB true]
        [viewportA]) (paintLayer layerA true) viewportA paintStart = some (true, s1))
      ∧ (DrawImageLayers (paintScenario [paintLayer layerA true, paintLayer layerB true]
          [viewportA]) (paintLayer layerA true) viewportA paintStart).map
            (fun r => r.2.calls.filter GLCall.isTextureDraw)
          = some [GLCall.Draw 500 ⟨1, 1, 1⟩, GLCall.DrawTransparent 501 (1 / 2)] :=
  ⟨(drawImageLayers_composite (paintScenario [paintLayer layerA true, paintLayer layerB true]
      [viewportA]) (paintLayer layerA true) viewportA paintStart).2.2.1
      (by decide) (by decide!) (by decide!) (by decide!), by decide!⟩

/-- C21 as stated fails: with the main layer A and a sticky, drawable segmentation layer
with alpha 1/2, the display not tiled, `DrawImageLayers` draws the texture of A only,
although the segmentation layer is sticky, drawable and has alpha > 0; with the display
tiled it draws the texture of A and then that of the segmentation layer. -/
theorem drawImageLayers_tiling_changes_layers :
    (stickyLayersOnBase [paintLayer layerA true, paintLayer stickyLabel true]).map
        (fun l => l.GetUniqueId) = [4]
      ∧ (DrawImageLayers (paintScenario [paintLayer layerA true, paintLayer stickyLabel true]
          [viewportA]) (paintLayer layerA true) viewportA paintStart).map
            (fun r => r.2.calls.filter GLCall.isTextureDraw)
          = some [GLCall.Draw 500 ⟨1, 1, 1⟩]
      ∧ (DrawImageLayers (tiledScenario [paintLayer layerA true, paintLayer stickyLabel true]
          [viewportA]) (paintLayer layerA true) viewportA paintStart).map
            (fun r => r.2.calls.filter GLCall.isTextureDraw)
          = some [GLCall.Draw 500 ⟨1, 1, 1⟩, GLCall.DrawTransparent 501 (1 / 2)] := by
  refine ⟨by decide!, by decide!, by decide!⟩

/-! ## The matrix stacks over `paintGL` -/

/-- C23, evaluated on the code: the viewport layout consists of one viewport naming the
layer id 99, which is not a layer.  The body of the viewport loop pushes the projection
matrix once and the modelview matrix twice and, the layer not being found, pops nothing:
after the iteration, and on return from `paintGL`, the projection stack is one matrix and
the modelview stack two matrices deeper than on entry.  With the viewport of layer A the
depths on return are those on entry. -/
theorem paintGL_unknown_layer_unbalanced :
    stackDepths glEntry = (3, 3)
      ∧ (paintViewport (paintScenario [paintLayer layerA true] [viewportStray]) 0 viewportStray
            paintStart).map (fun s => stackDepths (glEntry.run s.calls)) = some (4, 5)
      ∧ (paintGL (paintScenario [paintLayer layerA true] [viewportStray]) paintStart).map
            (fun s => stackDepths (glEntry.run s.calls)) = some (4, 5)
      ∧ (paintViewport (paintScenario [paintLayer layerA true] [viewportA]) 0 viewportA
            paintStart).map (fun s => stackDepths (glEntry.run s.calls)) = some (3, 3)
      ∧ (paintGL (paintScenario [paintLayer layerA true] [viewportA]) paintStart).map
            (fun s => stackDepths (glEntry.run s.calls)) = some (3, 3) := by
  refine ⟨by decide, by decide!, by decide!, by decide!, by decide!⟩

/-! ## The stride of the deformation grid -/

theorem voxIncrement_least (ctx : PaintContext) (layer : ImageWrapperBase) (d : Nat)
    (ho : layer.IsSlicingOrthogonal = true)
    (hs1 : 0 < ctx.GetSliceSpacing.1) (hs2 : 0 < ctx.GetSliceSpacing.2)
    (hz : 0 < ctx.GetViewZoom) :
    ∃ n : Int, voxIncrement ctx layer d = some n ∧ 1 ≤ n
      ∧ 8 ≤ (n : ℚ) * ((if d = 0 then ctx.GetSliceSpacing.1 else ctx.GetSliceSpacing.2)
          * ctx.GetViewZoom)
      ∧ ∀ m : Int, 8 ≤ (m : ℚ) * ((if d = 0 then ctx.GetSliceSpacing.1
          else ctx.GetSliceSpacing.2) * ctx.GetViewZoom) → n ≤ m := by
  have hsp : 0 < (if d = 0 then ctx.GetSliceSpacing.1 else ctx.GetSliceSpacing.2) := by
    split_ifs
    · exact hs1
    · exact hs2
  have hppv : 0 < (if d = 0 then ctx.GetSliceSpacing.1 else ctx.GetSliceSpacing.2)
      * ctx.GetViewZoom := mul_pos hsp hz
  obtain ⟨n, hn, h1⟩ := voxIncrement_pos ctx layer d hs1 hs2 hz
  have hval : n = ⌈(8 : ℚ) / ((if d = 0 then ctx.GetSliceSpacing.1
      else ctx.GetSliceSpacing.2) * ctx.GetViewZoom)⌉ := by
    unfold voxIncrement at hn
    simp only [ho, if_true, ne_of_gt hppv, if_false, toInt_of_int, Option.some.injEq] at hn
    exact hn.symm
  refine ⟨n, hn, h1, ?_, ?_⟩
  · rw [hval]
    have := Int.le_ceil ((8 : ℚ) / ((if d = 0 then ctx.GetSliceSpacing.1
      else ctx.GetSliceSpacing.2) * ctx.GetViewZoom))
    exact (div_le_iff₀ hppv).1 this
  · intro m hm
    rw [hval]
    apply Int.ceil_le.2
    exact (div_le_iff₀ hppv).2 hm

/-- C30, evaluated on the code: voxels of 4 mm by 1 mm at zoom 1, orthogonal slicing, line
direction 0.  The lines of direction 0 are told apart by their index along axis 1, where a
voxel covers 1 display pixel, so that the least stride covering 8 pixels is 8; the code
takes the spacing of axis 0 and gets the stride 2: it draws the lines 0, 2, 4, 6 and 8,
which lie 2 display pixels apart (`DrawTextureForLayer` draws them, followed by the lines
0 and 8 of direction 1). -/
theorem gridDirection_stride_wrong_axis :
    voxIncrement anisotropicScenario gridLayer 0 = some 2
      ∧ (gridDirection anisotropicScenario gridLayer 0).map gridLines = some [0, 2, 4, 6, 8]
      ∧ (DrawTextureForLayer anisotropicScenario gridLayer viewportA false paintStart).map
          (fun s => gridLines s.calls) = some [0, 2, 4, 6, 8, 0, 8]
      ∧ (2 : ℚ) * (anisotropicScenario.GetSliceSpacing.2 * anisotropicScenario.GetViewZoom) = 2
      ∧ (∀ n : Int, 8 ≤ (n : ℚ) * (anisotropicScenario.GetSliceSpacing.2
            * anisotropicScenario.GetViewZoom) ↔ 8 ≤ n) := by
  refine ⟨by decide!, by decide!, by decide!, by decide!, ?_⟩
  intro n
  have h : anisotropicScenario.GetSliceSpacing.2 * anisotropicScenario.GetViewZoom = 1 := by
    decide!
  rw [h, mul_one]
  exact_mod_cast Iff.rfl

/-! ## Data array properties of a mesh -/

theorem update_same_name (prop : AbstractMeshDataArrayProperty) (array : vtkDataArray)
    (h : array.GetName = some prop.m_Name) : prop.Update array = some prop := by
  simp [AbstractMeshDataArrayProperty.Update, h]

/-- C24, evaluated on the code: the property map holds a property of the array
`Curvature` with the range [0, 1], and the point data holds the array `Curvature` with
the range [2, 5].  `Update` is called with the array of the same name and returns at its
first test, so that after `UpdatePropertiesFromVTKData` the property still has the range
[0, 1]; the same `Update` called with an array of another name does take over the range of
that array. -/
theorem updatePropertiesFromVTKData_keeps_stale_range :
    UpdatePropertiesFromVTKData [("Curvature", curvatureProp)]
        [vtkAbstractArray.dataArray curvatureArray] .POINT_DATA
      = some [("Curvature", curvatureProp)]
    ∧ curvatureProp.toAbstractMeshDataArrayProperty.Update curvatureArray
      = some curvatureProp.toAbstractMeshDataArrayProperty
    ∧ (curvatureProp.m_min, curvatureProp.m_max) = (0, 1)
    ∧ curvatureArray.GetRange = (2, 5)
    ∧ (curvatureProp.toAbstractMeshDataArrayProperty.Update thicknessArray).map
        (fun p => (p.m_Name, p.m_min, p.m_max)) = some ("Curvature", 2, 5) := by
  refine ⟨by decide!, by decide!, by decide!, by decide!, by decide!⟩

theorem merge_spec (this : MeshLayerDataArrayProperty) (other : MeshDataArrayProperty)
    (hname : this.m_Name = other.m_Name) :
    this.Merge other
      = some { this with
          m_max := max this.m_max other.m_max
          m_min := min this.m_min other.m_min
          m_DataPointerList :=
            if other.m_DataPointer ∈ this.m_DataPointerList then this.m_DataPointerList
            else this.m_DataPointerList ++ [other.m_DataPointer] } := by
  unfold MeshLayerDataArrayProperty.Merge
  have hmax : (if other.m_max > this.m_max then other.m_max else this.m_max)
      = max this.m_max other.m_max := by
    rcases le_or_lt other.m_max this.m_max with h | h
    · rw [if_neg (not_lt.2 h), max_eq_left h]
    · rw [if_pos h, max_eq_right (le_of_lt h)]
  have hmin : (if other.m_min < this.m_min then other.m_min else this.m_min)
      = min this.m_min other.m_min := by
    rcases le_or_lt this.m_min other.m_min with h | h
    · rw [if_neg (not_lt.2 h), min_eq_left h]
    · rw [if_pos h, min_eq_right (le_of_lt h)]
  simp only [hname, ne_eq, not_true_eq_false, if_false, hmax, hmin]

theorem mergeAll_range :
    ∀ (others : List MeshDataArrayProperty) (this : MeshLayerDataArrayProperty),
      (∀ o ∈ others, o.m_Name = this.m_Name) →
      ∃ r, mergeAll this others = some r
        ∧ r.m_Name = this.m_Name
        ∧ r.m_min = others.foldl (fun a o => min a o.m_min) this.m_min
        ∧ r.m_max = others.foldl (fun a o => max a o.m_max) this.m_max := by
  intro others
  induction others with
  | nil => intro this _; exact ⟨this, rfl, rfl, rfl, rfl⟩
  | cons o rest ih =>
    intro this hn
    have ho : this.m_Name = o.m_Name := (hn o (List.mem_cons_self _ _)).symm
    have hm := merge_spec this o ho
    obtain ⟨r, h1, h2, h3, h4⟩ := ih
      { this with
        m_max := max this.m_max o.m_max
        m_min := min this.m_min o.m_min
        m_DataPointerList :=
          if o.m_DataPointer ∈ this.m_DataPointerList then this.m_DataPointerList
          else this.m_DataPointerList ++ [o.m_DataPointer] }
      (fun o' ho' => hn o' (List.mem_cons_of_mem _ ho'))
    refine ⟨r, ?_, h2, h3, h4⟩
    simp only [mergeAll, hm]
    exact h1

theorem filter_eq_length_one {α : Type} [DecidableEq α] (x : α) :
    ∀ l : List α, l.Nodup → x ∈ l → (l.filter (fun p => decide (p = x))).length = 1 := by
  intro l
  induction l with
  | nil => intro _ h; cases h
  | cons a t ih =>
    intro hn hx
    have hn' : a ∉ t ∧ t.Nodup := List.nodup_cons.1 hn
    by_cases ha : a = x
    · subst ha
      have hnil : t.filter (fun p => decide (p = a)) = [] := by
        apply List.filter_eq_nil_iff.2
        intro b hb
        have : b ≠ a := fun h => hn'.1 (h ▸ hb)
        simpa using this
      simp [List.filter_cons, hnil]
    · have hx' : x ∈ t := by
        rcases List.mem_cons.1 hx with h | h
        · exact absurd h.symm ha
        · exact h
      simp only [List.filter_cons, ha, decide_False, Bool.false_eq_true, if_false]
      exact ih hn'.2 hx'

theorem merge_idem (this r : MeshLayerDataArrayProperty) (other : MeshDataArrayProperty)
    (hname : this.m_Name = other.m_Name) (h : this.Merge other = some r) :
    r.Merge other = some r := by
  rw [merge_spec this other hname] at h
  have hr := Option.some.inj h
  have hrn : r.m_Name = other.m_Name := by rw [← hr]; exact hname
  rw [merge_spec r other hrn]
  have hin : other.m_DataPointer ∈ r.m_DataPointerList := by
    rw [← hr]
    show other.m_DataPointer ∈
      (if other.m_DataPointer ∈ this.m_DataPointerList then this.m_DataPointerList
        else this.m_DataPointerList ++ [other.m_DataPointer])
    by_cases hin : other.m_DataPointer ∈ this.m_DataPointerList
    · rw [if_pos hin]; exact hin
    · rw [if_neg hin]; simp
  have hmax : max r.m_max other.m_max = r.m_max := by
    rw [← hr]
    exact max_eq_left (le_max_right _ _)
  have hmin : min r.m_min other.m_min = r.m_min := by
    rw [← hr]
    exact min_eq_left (min_le_right _ _)
  rw [if_pos hin, hmax, hmin]

/-- C25: `Merge` of a property of the same name into a layer property whose pointer list has
no duplicates returns; afterwards the stored minimum is the lesser of the old minimum and
the other's, the stored maximum the greater of the old maximum and the other's, so that
the range contains the old range and the other's range; the other's data pointer occurs in
the pointer list exactly once and the list still has no duplicates; merging the same
property again changes nothing; and the range after merging several properties is the same
for every order of merging them.  The list made by `Initialize` on a new property has no
duplicates. -/
theorem merge_widens_range (this : MeshLayerDataArrayProperty) (other : MeshDataArrayProperty)
    (hname : this.m_Name = other.m_Name) (hnodup : this.m_DataPointerList.Nodup) :
    ∃ r, this.Merge other = some r
      ∧ r.m_min = min this.m_min other.m_min ∧ r.m_max = max this.m_max other.m_max
      ∧ r.m_min ≤ this.m_min ∧ this.m_max ≤ r.m_max
      ∧ r.m_min ≤ other.m_min ∧ other.m_max ≤ r.m_max
      ∧ (r.m_DataPointerList.filter (fun p => decide (p = other.m_DataPointer))).length = 1
      ∧ r.m_DataPointerList.Nodup
      ∧ r.Merge other = some r
      ∧ (∀ others1 others2 : List MeshDataArrayProperty, others1.Perm others2 →
          (∀ o ∈ others1, o.m_Name = this.m_Name) →
          ∃ r1 r2, mergeAll this others1 = some r1 ∧ mergeAll this others2 = some r2
            ∧ r1.m_min = r2.m_min ∧ r1.m_max = r2.m_max)
      ∧ (MeshLayerDataArrayProperty.Initialize [] other).m_DataPointerList.Nodup := by
  have hm := merge_spec this other hname
  refine ⟨_, hm, rfl, rfl, min_le_left _ _, le_max_left _ _, min_le_right _ _,
    le_max_right _ _, ?_, ?_, ?_, ?_, ?_⟩
  · show ((if other.m_DataPointer ∈ this.m_DataPointerList then this.m_DataPointerList
      else this.m_DataPointerList ++ [other.m_DataPointer]).filter
        (fun p => decide (p = other.m_DataPointer))).length = 1
    by_cases hin : other.m_DataPointer ∈ this.m_DataPointerList
    · rw [if_pos hin]
      exact filter_eq_length_one _ _ hnodup hin
    · rw [if_neg hin]
      exact filter_eq_length_one _ _
        (List.Nodup.append hnodup (List.nodup_singleton _) (by simpa using hin)) (by simp)
  · show (if other.m_DataPointer ∈ this.m_DataPointerList then this.m_DataPointerList
      else this.m_DataPointerList ++ [other.m_DataPointer]).Nodup
    by_cases hin : other.m_DataPointer ∈ this.m_DataPointerList
    · rw [if_pos hin]
      exact hnodup
    · rw [if_neg hin]
      exact List.Nodup.append hnodup (List.nodup_singleton _) (by simpa using hin)
  · exact merge_idem this _ other hname hm
  · intro others1 others2 hperm hnames
    have hnames2 : ∀ o ∈ others2, o.m_Name = this.m_Name :=
      fun o ho => hnames o (hperm.mem_iff.2 ho)
    obtain ⟨r1, h1, _, h1min, h1max⟩ := mergeAll_range others1 this hnames
    obtain ⟨r2, h2, _, h2min, h2max⟩ := mergeAll_range others2 this hnames2
    refine ⟨r1, r2, h1, h2, ?_, ?_⟩
    · rw [h1min, h2min]
      exact hperm.foldl_eq' (fun x _ y _ z => by
        show min (min z x.m_min) y.m_min = min (min z y.m_min) x.m_min
        rw [min_assoc, min_assoc, min_comm x.m_min]) _
    · rw [h1max, h2max]
      exact hperm.foldl_eq' (fun x _ y _ z => by
        show max (max z x.m_max) y.m_max = max (max z y.m_max) x.m_max
        rw [max_assoc, max_assoc, max_comm x.m_max]) _
  · exact List.nodup_singleton _

/-- Witness of C25: the layer property made from the array `Curvature` of one mesh (range
[0, 1]) merged with that of a second mesh (range [-1, 1/2]) has the range [-1, 1] and the
two data pointers. -/
theorem merge_widens_range_witness :
    ∃ r, (MeshLayerDataArrayProperty.Initialize [] curvatureProp).Merge curvatureProp2
        = some r
      ∧ r.m_min = -1 ∧ r.m_max = 1 ∧ r.m_DataPointerList = [some 7, some 9] := by
  obtain ⟨r, h, hmin, hmax, _⟩ := merge_widens_range
    (MeshLayerDataArrayProperty.Initialize [] curvatureProp) curvatureProp2 rfl
    (List.nodup_singleton _)
  refine ⟨r, h, ?_, ?_, ?_⟩
  · rw [hmin]; decide!
  · rw [hmax]; decide!
  · have h2 : ((MeshLayerDataArrayProperty.Initialize [] curvatureProp).Merge
        curvatureProp2).map (fun r => r.m_DataPointerList) = some [some 7, some 9] := by
      decide!
    rw [h] at h2
    exact Option.some.inj h2

/-! ## Mesh assemblies as finite maps -/

namespace StdMap

variable {κ ν : Type}

theorem index_of_find [LinearOrder κ] (dflt : ν) (m : StdMap κ ν) (k : κ) (v : ν)
    (h : find m k = some v) : index dflt m k = (v, m) := by
  simp [index, h]

theorem index_of_count [LinearOrder κ] (dflt : ν) (m : StdMap κ ν) (k : κ)
    (h : count m k = true) : (index dflt m k).2 = m ∧ some (index dflt m k).1 = find m k := by
  unfold count at h
  obtain ⟨v, hv⟩ := Option.isSome_iff_exists.1 h
  rw [index_of_find dflt m k v hv, hv]
  exact ⟨rfl, rfl⟩

theorem find_erase_ne [DecidableEq κ] (m : StdMap κ ν) (k x : κ) (h : x ≠ k) :
    find (erase m k) x = find m x := by
  induction m with
  | nil => rfl
  | cons hd tl ih =>
    obtain ⟨k0, v0⟩ := hd
    by_cases h0 : k0 = k
    · subst h0
      simp only [erase, if_true, find, if_neg (Ne.symm h)]
    · simp only [erase, if_neg h0, find, ih]

theorem keys_erase_sublist [DecidableEq κ] (m : StdMap κ ν) (k : κ) :
    (keys (erase m k)).Sublist (keys m) := by
  induction m with
  | nil => exact List.Sublist.refl _
  | cons hd tl ih =>
    obtain ⟨k0, v0⟩ := hd
    by_cases h0 : k0 = k
    · simp only [erase, if_pos h0, keys, List.map_cons]
      exact List.sublist_cons_self _ _
    · simp only [erase, if_neg h0, keys, List.map_cons]
      exact List.Sublist.cons₂ _ ih

theorem find_erase_self [LinearOrder κ] (m : StdMap κ ν) (k : κ)
    (hm : (keys m).Pairwise (· < ·)) : find (erase m k) k = none := by
  induction m with
  | nil => rfl
  | cons hd tl ih =>
    obtain ⟨k0, v0⟩ := hd
    have hm' : (∀ y ∈ keys tl, k0 < y) ∧ (keys tl).Pairwise (· < ·) := by
      simpa [keys] using hm
    by_cases h0 : k0 = k
    · subst h0
      simp only [erase, if_true]
      rw [find_eq_none_iff]
      intro hin
      exact lt_irrefl _ (hm'.1 _ hin)
    · simp only [erase, if_neg h0, find]
      exact ih hm'.2

end StdMap

theorem meshAssembly_getMesh_snd (a : MeshAssembly) (id : Nat) : (a.GetMesh id).2 = a := by
  unfold MeshAssembly.GetMesh
  by_cases hc : StdMap.count a.m_Meshes id = true
  · simp only [hc, if_true, (StdMap.index_of_count none a.m_Meshes id hc).1]
  · simp only [hc, Bool.false_eq_true, if_false]

theorem meshAssembly_getMesh_fst (a : MeshAssembly) (id : Nat) :
    (a.GetMesh id).1 = (StdMap.find a.m_Meshes id).getD none := by
  unfold MeshAssembly.GetMesh
  by_cases hc : StdMap.count a.m_Meshes id = true
  · have h := (StdMap.index_of_count none a.m_Meshes id hc).2
    simp only [hc, if_true, ← h, Option.getD_some]
  · have hn : StdMap.find a.m_Meshes id = none := by
      unfold StdMap.count at hc
      cases hf : StdMap.find a.m_Meshes id with
      | none => rfl
      | some v => rw [hf] at hc; exact absurd rfl hc
    simp only [hc, Bool.false_eq_true, if_false, hn, Option.getD_none]
theorem meshAssembly_exist_eq (a : MeshAssembly) (id : Nat) :
    a.Exist id = (StdMap.find a.m_Meshes id).isSome := rfl

/-- C26: a mesh assembly whose map is in key order behaves as a finite map from label ids
to mesh pointers.  After `AddMesh(mesh, id)`, `GetMesh(id)` returns `mesh` and `Exist(id)`
is true, the other ids being as before; `GetMesh` never changes the assembly, and for an
id that is absent it returns null, `Exist` staying false; `Erase` of an absent id changes
nothing; `Erase` of an id with a mesh leaves `Exist(id)` false and `GetMesh(id)` null,
every other id keeping its mesh.  `MeshWrapperBase::GetMesh` and `GetMeshAssembly` return
null for a timepoint without an assembly and leave the wrapper as it is. -/
theorem meshAssembly_finite_map (a : MeshAssembly) (id : Nat)
    (hsorted : (StdMap.keys a.m_Meshes).Pairwise (· < ·)) :
    (∀ mesh,
        (a.AddMesh mesh id).GetMesh id = (mesh, a.AddMesh mesh id)
        ∧ (a.AddMesh mesh id).Exist id = true
        ∧ (∀ j, j ≠ id → ((a.AddMesh mesh id).GetMesh j).1 = (a.GetMesh j).1
            ∧ (a.AddMesh mesh id).Exist j = a.Exist j)
        ∧ (StdMap.keys (a.AddMesh mesh id).m_Meshes).Pairwise (· < ·))
      ∧ (∀ j, (a.GetMesh j).2 = a)
      ∧ (a.Exist id = false →
          a.GetMesh id = (none, a) ∧ (a.GetMesh id).2.Exist id = false
            ∧ a.Erase id = some (a, []))
      ∧ (∀ temp, StdMap.find a.m_Meshes id = some (some temp) →
          ∃ a1, a.Erase id = some (a1, [temp]) ∧ a1.Exist id = false
            ∧ a1.GetMesh id = (none, a1)
            ∧ (∀ j, j ≠ id → (a1.GetMesh j).1 = (a.GetMesh j).1 ∧ a1.Exist j = a.Exist j)
            ∧ (StdMap.keys a1.m_Meshes).Pairwise (· < ·))
      ∧ (∀ (w : MeshWrapperBase) (timepoint : Nat),
          StdMap.count w.m_MeshAssemblyMap timepoint = false →
          w.GetMesh timepoint id = some (none, w) ∧ w.GetMeshAssembly timepoint = (none, w)) := by
  refine ⟨?_, fun j => meshAssembly_getMesh_snd a j, ?_, ?_, ?_⟩
  · intro mesh
    refine ⟨?_, ?_, ?_, StdMap.keys_assign_sorted _ _ _ hsorted⟩
    · apply Prod.ext
      · rw [meshAssembly_getMesh_fst]
        show (StdMap.find (StdMap.assign a.m_Meshes id mesh) id).getD none = mesh
        rw [StdMap.find_assign_self]
        rfl
      · exact meshAssembly_getMesh_snd _ _
    · rw [meshAssembly_exist_eq]
      show (StdMap.find (StdMap.assign a.m_Meshes id mesh) id).isSome = true
      rw [StdMap.find_assign_self]
      rfl
    · intro j hj
      constructor
      · rw [meshAssembly_getMesh_fst, meshAssembly_getMesh_fst]
        show (StdMap.find (StdMap.assign a.m_Meshes id mesh) j).getD none = _
        rw [StdMap.find_assign_ne _ _ _ _ hj]
      · rw [meshAssembly_exist_eq, meshAssembly_exist_eq]
        show (StdMap.find (StdMap.assign a.m_Meshes id mesh) j).isSome = _
        rw [StdMap.find_assign_ne _ _ _ _ hj]
  · intro hex
    have hc : StdMap.count a.m_Meshes id = false := hex
    have hg : a.GetMesh id = (none, a) := by
      unfold MeshAssembly.GetMesh
      simp only [hc, Bool.false_eq_true, if_false]
    refine ⟨hg, ?_, ?_⟩
    · rw [hg]; exact hex
    · unfold MeshAssembly.Erase
      simp only [hc, if_true]
  · intro temp hfind
    have hc : StdMap.count a.m_Meshes id = true := by
      unfold StdMap.count
      rw [hfind]
      rfl
    have hE : a.Erase id
        = some ({ a with m_Meshes := StdMap.erase a.m_Meshes id }, [temp]) := by
      unfold MeshAssembly.Erase
      simp only [hc, Bool.true_eq_false, if_false,
        StdMap.index_of_find none a.m_Meshes id (some temp) hfind]
    have hnone : StdMap.find (StdMap.erase a.m_Meshes id) id = none :=
      StdMap.find_erase_self _ _ hsorted
    have hex : ({ a with m_Meshes := StdMap.erase a.m_Meshes id } : MeshAssembly).Exist id
        = false := by
      rw [meshAssembly_exist_eq]
      show (StdMap.find (StdMap.erase a.m_Meshes id) id).isSome = false
      rw [hnone]
      rfl
    refine ⟨_, hE, hex, ?_, ?_, ?_⟩
    · unfold MeshAssembly.GetMesh
      have hc' : StdMap.count (StdMap.erase a.m_Meshes id) id = false := hex
      simp only [hc', Bool.false_eq_true, if_false]
    · intro j hj
      constructor
      · rw [meshAssembly_getMesh_fst, meshAssembly_getMesh_fst]
        show (StdMap.find (StdMap.erase a.m_Meshes id) j).getD none = _
        rw [StdMap.find_erase_ne _ _ _ hj]
      · rw [meshAssembly_exist_eq, meshAssembly_exist_eq]
        show (StdMap.find (StdMap.erase a.m_Meshes id) j).isSome = _
        rw [StdMap.find_erase_ne _ _ _ hj]
    · exact List.Pairwise.sublist (StdMap.keys_erase_sublist _ _) hsorted
  · intro w timepoint hc
    constructor
    · unfold MeshWrapperBase.GetMesh
      simp only [hc, Bool.false_eq_true, if_false]
    · unfold MeshWrapperBase.GetMeshAssembly
      simp only [hc, Bool.false_eq_true, if_false]

/-- Witness of C26: from the assembly with the meshes 30 and 31 under the labels 1 and 2,
`Erase(1)` deletes the mesh 30; afterwards the label 1 is absent and the label 2 still has
the mesh 31. -/
theorem meshAssembly_finite_map_witness :
    ∃ a1, assemblyExample.Erase 1 = some (a1, [30]) ∧ a1.Exist 1 = false
      ∧ (a1.GetMesh 2).1 = some 31 := by
  obtain ⟨a1, h1, h2, _, h4, _⟩ :=
    (meshAssembly_finite_map assemblyExample 1 (by decide)).2.2.2.1 30 (by decide)
  refine ⟨a1, h1, h2, ?_⟩
  rw [(h4 2 (by decide)).1]
  decide

/-! ## Nicknames of a mesh layer -/

theorem string_length_eq_zero (s : String) : s.length = 0 ↔ s = "" := by
  cases s with
  | mk data =>
    constructor
    · intro h
      have hd : data = [] := List.length_eq_zero.1 h
      subst hd
      rfl
    · intro h
      rw [h]
      rfl

theorem getNickname_eq (w : MeshWrapperBase) :
    w.GetNickname
      = if w.m_CustomNickname ≠ "" then w.m_CustomNickname
        else if w.m_FileName ≠ "" then w.m_FileNameShort
        else w.m_DefaultNickname := by
  unfold MeshWrapperBase.GetNickname
  simp only [ne_eq, string_length_eq_zero]

/-- C27: on a mesh wrapper whose short file name is empty whenever its file name is empty,
`GetNickname()` after `SetCustomNickname(n)` returns `n` for every non-empty `n` (for `n`
equal to the short file name the custom nickname is cleared); after `SetCustomNickname` of
the short file name or of the empty string it returns the short file name if a file name
is set and the default nickname otherwise.  The condition on the two names holds after
every `SetFileName`, for the wrapper as constructed, and is kept by
`SetCustomNickname`. -/
theorem nickname_roundtrip (w : MeshWrapperBase)
    (hinv : w.m_FileName = "" → w.m_FileNameShort = "") :
    (∀ n : String, n ≠ "" → (w.SetCustomNickname n).GetNickname = n)
      ∧ (∀ n : String, n = w.m_FileNameShort → (w.SetCustomNickname n).m_CustomNickname = "")
      ∧ (∀ n : String, n = w.m_FileNameShort ∨ n = "" →
          (w.SetCustomNickname n).GetNickname
            = if w.m_FileName ≠ "" then w.m_FileNameShort else w.m_DefaultNickname)
      ∧ (∀ n : String, (w.SetCustomNickname n).m_FileName = "" →
          (w.SetCustomNickname n).m_FileNameShort = "")
      ∧ (∀ (w0 : MeshWrapperBase) (name : String), (w0.SetFileName name).m_FileName = "" →
          (w0.SetFileName name).m_FileNameShort = "")
      ∧ (({} : MeshWrapperBase).m_FileName = "" ∧ ({} : MeshWrapperBase).m_FileNameShort = "") := by
  have hnames : ∀ n : String, (w.SetCustomNickname n).m_FileName = w.m_FileName
      ∧ (w.SetCustomNickname n).m_FileNameShort = w.m_FileNameShort
      ∧ (w.SetCustomNickname n).m_DefaultNickname = w.m_DefaultNickname
      ∧ (w.SetCustomNickname n).m_CustomNickname
          = if n = w.m_FileNameShort then "" else n := by
    intro n
    unfold MeshWrapperBase.SetCustomNickname MeshWrapperBase.InvokeEvent
    by_cases h : n = w.m_FileNameShort
    · simp only [h, if_true, and_self]
    · simp only [h, if_false, and_self]
  refine ⟨?_, ?_, ?_, ?_, ?_, rfl, rfl⟩
  · intro n hn
    obtain ⟨h1, h2, h3, h4⟩ := hnames n
    rw [getNickname_eq, h1, h2, h3, h4]
    by_cases h : n = w.m_FileNameShort
    · have hf : w.m_FileName ≠ "" := by
        intro hf
        exact hn (h.trans (hinv hf))
      simp only [h, if_true, ne_eq, not_true_eq_false, if_false, hf, not_false_eq_true]
    · simp only [h, if_false, ne_eq, hn, not_false_eq_true, if_true]
  · intro n hn
    rw [(hnames n).2.2.2, if_pos hn]
  · intro n hn
    obtain ⟨h1, h2, h3, h4⟩ := hnames n
    rw [getNickname_eq, h1, h2, h3, h4]
    have hempty : (if n = w.m_FileNameShort then "" else n) = "" := by
      by_cases h : n = w.m_FileNameShort
      · rw [if_pos h]
      · rw [if_neg h]
        rcases hn with hn | hn
        · exact absurd hn h
        · exact hn
    rw [hempty]
    simp only [ne_eq, not_true_eq_false, if_false]
  · intro n hf
    rw [(hnames n).1] at hf
    rw [(hnames n).2.1]
    exact hinv hf
  · intro w0 name hf
    have hname : name = "" := hf
    subst hname
    rfl

/-- Witness of C27: for the wrapper of the file `/data/mesh.vtk`, whose short file name is
`mesh`, the nickname `femur` is returned as set, and so is the nickname `mesh`, for which
the custom nickname is cleared. -/
theorem nickname_roundtrip_witness :
    namedMesh.m_FileNameShort = "mesh"
      ∧ (namedMesh.SetCustomNickname "femur").GetNickname = "femur"
      ∧ (namedMesh.SetCustomNickname "mesh").GetNickname = "mesh"
      ∧ (namedMesh.SetCustomNickname "mesh").m_CustomNickname = "" := by
  have h := nickname_roundtrip namedMesh (fun hf => absurd hf (by decide))
  exact ⟨by decide, h.1 "femur" (by decide), h.1 "mesh" (by decide),
    h.2.1 "mesh" (by decide)⟩

/-! ## The active data property of a mesh layer -/

theorem getActiveDataArrayProperty_absent (w : MeshWrapperBase)
    (hc : StdMap.count w.m_CombinedDataPropertyMap w.m_ActiveDataPropertyId = false) :
    w.GetActiveDataArrayProperty = (none, w) := by
  simp only [MeshWrapperBase.GetActiveDataArrayProperty, hc, Bool.false_eq_true, if_false]

theorem setActiveMeshLayerDataPropertyId_returned (NDEBUG : Bool) (w w' : MeshWrapperBase)
    (id : Int) (hne : w.m_ActiveDataPropertyId ≠ id)
    (hret : w.SetActiveMeshLayerDataPropertyId NDEBUG id = .returned w') :
    StdMap.count w.m_CombinedDataPropertyMap id = true
      ∧ w'.m_ActiveDataPropertyId = id
      ∧ w'.m_CombinedDataPropertyMap = w.m_CombinedDataPropertyMap
      ∧ w'.events = w.events ++ [.WrapperDisplayMappingChangeEvent, .ModifiedEvent] := by
  unfold MeshWrapperBase.SetActiveMeshLayerDataPropertyId at hret
  rw [if_neg hne] at hret
  simp only at hret
  split_ifs at hret with h1
  cases hf : StdMap.find w.m_CombinedDataPropertyMap id with
  | none =>
    simp only [StdMap.index, hf] at hret
    cases hret
  | some o =>
    cases o with
    | none =>
      simp only [StdMap.index, hf] at hret
      cases hret
    | some prop =>
      simp only [StdMap.index, hf] at hret
      split_ifs at hret
      all_goals
        split at hret
        · cases hret
        · injection hret with hw
          subst hw
          exact ⟨by simp [StdMap.count, hf], rfl, rfl, by simp [MeshWrapperBase.InvokeEvent]⟩

/-- C28, amended. `SetActiveMeshLayerDataPropertyId(id)` returns with the wrapper unchanged
(no event) when `id` is the active id.  A valid id is a precondition of every other call:
when `id` is not a key of the combined property map the call does not return, with the
assertions compiled in (it stops at the assertion) and with them compiled out (it stops at
the use of the null pointer that `operator[]` has filed).  When the call returns for
another id, that id is a key of the map, it is the active id afterwards, the map is as it
was, and the two events `WrapperDisplayMappingChangeEvent` and `ModifiedEvent` have been
invoked in this order.  `GetActiveDataArrayProperty` returns null for an active id that is
not a key and leaves the wrapper as it was. -/
theorem setActiveMeshLayerDataPropertyId_contract (NDEBUG : Bool) (w : MeshWrapperBase)
    (id : Int) :
    (w.m_ActiveDataPropertyId = id →
        w.SetActiveMeshLayerDataPropertyId NDEBUG id = .returned w)
      ∧ (w.m_ActiveDataPropertyId ≠ id →
          StdMap.count w.m_CombinedDataPropertyMap id = false →
          (w.SetActiveMeshLayerDataPropertyId NDEBUG id).isReturned = false)
      ∧ (∀ w', w.m_ActiveDataPropertyId ≠ id →
          w.SetActiveMeshLayerDataPropertyId NDEBUG id = .returned w' →
          StdMap.count w.m_CombinedDataPropertyMap id = true
            ∧ w'.m_ActiveDataPropertyId = id
            ∧ w'.m_CombinedDataPropertyMap = w.m_CombinedDataPropertyMap
            ∧ w'.events = w.events ++ [.WrapperDisplayMappingChangeEvent, .ModifiedEvent])
      ∧ (StdMap.count w.m_CombinedDataPropertyMap w.m_ActiveDataPropertyId = false →
          w.GetActiveDataArrayProperty = (none, w)) := by
  refine ⟨?_, ?_, fun w' hne hret => setActiveMeshLayerDataPropertyId_returned NDEBUG w w' id
    hne hret, getActiveDataArrayProperty_absent w⟩
  · intro h
    simp only [MeshWrapperBase.SetActiveMeshLayerDataPropertyId, h, if_true]
  · intro hne hc
    cases hout : w.SetActiveMeshLayerDataPropertyId NDEBUG id with
    | failed w1 => rfl
    | returned w' =>
      have := (setActiveMeshLayerDataPropertyId_returned NDEBUG w w' id hne hout).1
      rw [hc] at this
      cases this

/-- Witness of C28: on the wrapper whose map has the single key 1, with the active id 0,
the call with the id 1 returns: the active id is 1, the keys are as before and the two
events have been invoked; the call with the id 7, not a key, does not return. -/
theorem setActiveMeshLayerDataPropertyId_contract_witness :
    ∃ w', ({ meshExample with m_ActiveDataPropertyId := 0 } :
          MeshWrapperBase).SetActiveMeshLayerDataPropertyId false 1 = .returned w'
      ∧ w'.m_ActiveDataPropertyId = 1
      ∧ StdMap.keys w'.m_CombinedDataPropertyMap = [1]
      ∧ w'.events = [.WrapperDisplayMappingChangeEvent, .ModifiedEvent]
      ∧ (({ meshExample with m_ActiveDataPropertyId := 0 } :
          MeshWrapperBase).SetActiveMeshLayerDataPropertyId false 7).isReturned = false := by
  have h := setActiveMeshLayerDataPropertyId_contract false
    ({ meshExample with m_ActiveDataPropertyId := 0 } : MeshWrapperBase)
  cases hout : ({ meshExample with m_ActiveDataPropertyId := 0 } :
      MeshWrapperBase).SetActiveMeshLayerDataPropertyId false 1 with
  | failed w1 =>
    have hr : (({ meshExample with m_ActiveDataPropertyId := 0 } :
      MeshWrapperBase).SetActiveMeshLayerDataPropertyId false 1).isReturned = true := by decide
    rw [hout] at hr
    cases hr
  | returned w' =>
    obtain ⟨_, h2, h3, h4⟩ := (h 1).2.2.1 w' (by decide) hout
    refine ⟨w', rfl, h2, ?_, ?_, (h 7).2.1 (by decide) (by decide)⟩
    · rw [h3]
      decide
    · rw [h4]
      rfl

/-- C28 as stated fails: the combined property map has the single key 1, which is the
active id, and `SetActiveMeshLayerDataPropertyId(7)` is called.  The call is not a failure
that leaves the wrapper as it was: it does not return, and the active id is overwritten
before the id is looked up.  With the assertions compiled in, the call stops at the
assertion with the active id 7; with the assertions compiled out, the lookup
`m_CombinedDataPropertyMap[7]` files a null pointer under the key 7 and the call stops at
its use, with the active id 7 and the keys 1 and 7. -/
theorem setActiveMeshLayerDataPropertyId_bad_id :
    meshExample.m_ActiveDataPropertyId = 1
      ∧ StdMap.keys meshExample.m_CombinedDataPropertyMap = [1]
      ∧ (meshExample.SetActiveMeshLayerDataPropertyId false 7).isReturned = false
      ∧ (meshExample.SetActiveMeshLayerDataPropertyId false 7).state.m_ActiveDataPropertyId = 7
      ∧ StdMap.keys
          (meshExample.SetActiveMeshLayerDataPropertyId false 7).state.m_CombinedDataPropertyMap
          = [1]
      ∧ (meshExample.SetActiveMeshLayerDataPropertyId true 7).isReturned = false
      ∧ (meshExample.SetActiveMeshLayerDataPropertyId true 7).state.m_ActiveDataPropertyId = 7
      ∧ StdMap.keys
          (meshExample.SetActiveMeshLayerDataPropertyId true 7).state.m_CombinedDataPropertyMap
          = [1, 7] := by
  refine ⟨rfl, by decide, by decide, by decide, by decide, by decide, by decide, by decide⟩

/-! ## `PolygonContextItem::DrawVertices` -/

theorem drawVerticesLoop_eq (first : Vertex) (closed : Bool) :
    ∀ l : List Vertex,
      drawVerticesLoop first closed l
        = (l.zip l.tail).map (fun p => segment p.1 p.2)
          ++ (if closed then
                match l.getLast? with
                | some last => [segment last first]
                | none => []
              else []) := by
  intro l
  induction l with
  | nil => cases closed <;> rfl
  | cons a t ih =>
    cases t with
    | nil => cases closed <;> rfl
    | cons b t' =>
      have hlast : (a :: b :: t').getLast? = (b :: t').getLast? := by
        simp [List.getLast?_cons_cons]
      simp only [drawVerticesLoop, ih, List.tail_cons, List.zip_cons_cons, List.map_cons,
        List.cons_append, hlast]

theorem drawVerticesLoop_length (first : Vertex) (closed : Bool) :
    ∀ l : List Vertex, l ≠ [] →
      (drawVerticesLoop first closed l).length
        = if closed then l.length else l.length - 1 := by
  intro l
  induction l with
  | nil => intro h; exact absurd rfl h
  | cons a t ih =>
    intro _
    cases t with
    | nil => cases closed <;> rfl
    | cons b t' =>
      have h := ih (List.cons_ne_nil _ _)
      simp only [drawVerticesLoop, List.length_cons, h]
      cases closed
      · simp
      · simp

/-- C29: `DrawVertices` is a total function of the vertex list and draws exactly the
segments between consecutive vertices, in order, followed, when `closed` is set and the
list is not empty, by the segment from the last vertex to the first: for `n` vertices
these are `n - 1` segments when `closed` is not set and `n` segments when it is, the
`i`-th segment joining the vertices `i` and `i + 1`, and none for the empty list. -/
theorem drawVertices_segments (vx : List Vertex) (closed : Bool) :
    DrawVertices vx closed = polygonSegments vx closed
      ∧ (DrawVertices vx closed).length = (if closed then vx.length else vx.length - 1)
      ∧ (∀ i v w, vx[i]? = some v → vx[i + 1]? = some w →
          (DrawVertices vx closed)[i]? = some (segment v w))
      ∧ (∀ first last, closed = true → vx.head? = some first → vx.getLast? = some last →
          (DrawVertices vx closed)[vx.length - 1]? = some (segment last first))
      ∧ DrawVertices [] closed = [] := by
  have heq : DrawVertices vx closed = polygonSegments vx closed := by
    cases vx with
    | nil => cases closed <;> rfl
    | cons first rest =>
      show drawVerticesLoop first closed (first :: rest) = _
      rw [drawVerticesLoop_eq]
      unfold polygonSegments
      cases closed
      · rfl
      · cases hl : (first :: rest).getLast? with
        | none => simp at hl
        | some last => simp [hl]
  have hzip : ((vx.zip vx.tail).map (fun p => segment p.1 p.2)).length = vx.length - 1 := by
    rw [List.length_map, List.length_zip, List.length_tail]
    omega
  refine ⟨heq, ?_, ?_, ?_, rfl⟩
  · cases vx with
    | nil => cases closed <;> rfl
    | cons first rest =>
      exact drawVerticesLoop_length first closed (first :: rest) (List.cons_ne_nil _ _)
  · intro i v w hv hw
    rw [heq]
    unfold polygonSegments
    have hi : i < ((vx.zip vx.tail).map (fun p => segment p.1 p.2)).length := by
      rw [hzip]
      have := (List.getElem?_eq_some_iff.1 hw).1
      omega
    have hz : (vx.zip vx.tail)[i]? = some (v, w) :=
      List.getElem?_zip_eq_some.2 ⟨hv, by rw [List.getElem?_tail]; exact hw⟩
    rw [List.getElem?_append_left hi, List.getElem?_map, hz]
    rfl
  · intro first last hc hfirst hlast
    rw [heq]
    unfold polygonSegments
    rw [List.getElem?_append_right (by rw [hzip]), hzip, Nat.sub_self, hc, hlast, hfirst]
    rfl

/-- Witness of C29 on a triangle: the open list gives the two sides from the first vertex
on, the closed list the three sides. -/
theorem drawVertices_segments_witness :
    DrawVertices triangle false = [⟨0, 0, 4, 0⟩, ⟨4, 0, 0, 3⟩]
      ∧ DrawVertices triangle true = [⟨0, 0, 4, 0⟩, ⟨4, 0, 0, 3⟩, ⟨0, 3, 0, 0⟩] := by
  have h1 := (drawVertices_segments triangle false).1
  have h2 := (drawVertices_segments triangle true).1
  rw [h1, h2]
  exact ⟨by decide!, by decide!⟩

end ITKSnap
